import Mathlib

/-!
# HTTP/1.1 message engine of `https-server`: a shallow embedding

Byte strings are `List Nat` (one element per byte).  A C string argument is
represented by its content, the bytes before the terminating NUL.  Status codes
are the `int` values of `http_io_status_t`.  The socket is a script of `recv`
results, consumed one entry per call.
-/

namespace HttpsServer

/-! ## Bytes and C strings -/

/-- The bytes of an ASCII literal. -/
def bytes (s : String) : List Nat := s.toList.map Char.toNat

/-- The C string stored at the start of a buffer: the bytes before the first NUL. -/
def c_str (b : List Nat) : List Nat := b.takeWhile (fun c => c != 0)

/-- Offset of the first occurrence of `needle` in `hay` (`strstr`), if any. -/
def strstr : List Nat → List Nat → Option Nat
  | [], needle => if needle = [] then some 0 else none
  | h :: t, needle =>
    if needle <+: (h :: t) then some 0 else (strstr t needle).map (fun i => i + 1)

/-- Offset of the first occurrence of the byte `c` in `s` (`strchr`), if any. -/
def strchr : List Nat → Nat → Option Nat
  | [], _ => none
  | h :: t, c => if h = c then some 0 else (strchr t c).map (fun i => i + 1)

/-- The header terminator `\r\n\r\n`. -/
def CRLFCRLF : List Nat := [13, 10, 13, 10]

/-- The line terminator `\r\n`. -/
def CRLF : List Nat := [13, 10]

/-- Subtraction on `size_t` (64 bit, wrapping), for operands below `2 ^ 64`. -/
def size_sub (a b : Nat) : Nat := if b ≤ a then a - b else a + 18446744073709551616 - b

/-- Conversion of a `size_t` to `int` (32 bit, two's complement). -/
def to_int (n : Nat) : Int :=
  if n < 2147483648 then (n : Int)
  else (((n + 2147483648) % 4294967296 : Nat) : Int) - 2147483648

/-! ## Constants (`https-server.c`, `http_errors.h`) -/

def MAX_REQUEST_SIZE : Nat := 65536
def MAX_HEADERS : Nat := 100
def MAX_PATH : Nat := 2048
def MAX_QUERY : Nat := 1024
def MAX_HEADER_LINE : Nat := 8192
def MAX_METHOD : Nat := 16
def MAX_VERSION : Nat := 16

def HTTP_IO_EOF : Int := 0
def HTTP_IO_ERROR : Int := -1
def HTTP_IO_TIMEOUT : Int := -2
def HTTP_IO_TIMEOUT_PARTIAL : Int := -3
def HTTP_IO_EOF_PARTIAL : Int := -4
def HTTP_PARSE_ERROR : Int := -10
def HTTP_HEADERS_TOO_LARGE : Int := -11
def HTTP_URI_TOO_LONG : Int := -12
def HTTP_BODY_TOO_LARGE : Int := -13
def HTTP_LENGTH_REQUIRED : Int := -14
def HTTP_VERSION_UNSUPPORTED : Int := -15
def HTTP_METHOD_NOT_ALLOWED : Int := -16
def HTTP_NOT_IMPLEMENTED : Int := -17

/-! ## Transport reader and header framer (`https-server.c`) -/

/-- One result of `recv` on the client socket. -/
inductive RecvResult where
  /-- The bytes the peer has made available; `recv` hands over at most the
  requested number of them.  No bytes at all is the orderly shutdown. -/
  | data (bs : List Nat)
  /-- The call failed with `EAGAIN` / `EWOULDBLOCK` (receive timeout). -/
  | eagain
  /-- The call failed with any other `errno`. -/
  | fail
  deriving DecidableEq, Repr

/-- `read_with_timeout`: the returned `ssize_t` and the bytes stored in the buffer. -/
def read_with_timeout (r : RecvResult) (size : Nat) : Int × List Nat :=
  match r with
  | .data bs => (((bs.take size).length : Nat), bs.take size)
  | .eagain => (HTTP_IO_TIMEOUT, [])
  | .fail => (HTTP_IO_ERROR, [])

/-- The `while` loop of `read_http_headers`, entered with `header_end == NULL`.
`buffer` holds the bytes `buffer[0 .. total_read)`.  The result is the returned
`int` together with the final buffer content; `none` means that the script of
`recv` results ran out while the loop was still reading. -/
def read_http_headers_loop (buffer_size : Nat) :
    List RecvResult → Nat → List Nat → Option (Int × List Nat)
  | [], total_read, buffer =>
    if total_read < size_sub buffer_size 1 then none
    else some (HTTP_PARSE_ERROR, buffer)
  | r :: script, total_read, buffer =>
    if total_read < size_sub buffer_size 1 then
      let rd := read_with_timeout r (size_sub (size_sub buffer_size total_read) 1)
      let nread := rd.1
      if nread = HTTP_IO_TIMEOUT then
        some (if total_read = 0 then HTTP_IO_TIMEOUT else HTTP_IO_TIMEOUT_PARTIAL, buffer)
      else if nread = HTTP_IO_ERROR then
        some (HTTP_IO_ERROR, buffer)
      else if nread = 0 then
        some (if total_read = 0 then HTTP_IO_EOF else HTTP_IO_EOF_PARTIAL, buffer)
      else if nread < 0 then
        some (nread, buffer)
      else
        let total_read1 := total_read + nread.toNat
        let buffer1 := buffer ++ rd.2
        match strstr (c_str buffer1) CRLFCRLF with
        | some _ => some (to_int total_read1, buffer1)
        | none =>
          if total_read1 > MAX_REQUEST_SIZE / 2 then some (HTTP_HEADERS_TOO_LARGE, buffer1)
          else read_http_headers_loop buffer_size script total_read1 buffer1
    else some (HTTP_PARSE_ERROR, buffer)

/-- `read_http_headers`: the loop started with `total_read = 0`. -/
def read_http_headers (buffer_size : Nat) (script : List RecvResult) :
    Option (Int × List Nat) :=
  read_http_headers_loop buffer_size script 0 []

/-- The `int` returned by `read_http_headers`. -/
def read_http_headers_rc (buffer_size : Nat) (script : List RecvResult) : Option Int :=
  (read_http_headers buffer_size script).map Prod.fst

/-- All bytes offered by a script of `recv` results, in order. -/
def delivered : List RecvResult → List Nat
  | [] => []
  | .data bs :: rest => bs ++ delivered rest
  | _ :: rest => delivered rest

/-! ## Request-line parser (`https-server.c`, `http_mappings.c`) -/

/-- The request record `http_request`.  `headers` holds the first `header_count`
entries; `body` is the offset of the body in the receive buffer (`none` for `NULL`). -/
structure http_request where
  method : List Nat := []
  path : List Nat := []
  query : List Nat := []
  version : List Nat := []
  headers : List (List Nat) := []
  body : Option Nat := none
  body_length : Nat := 0
  content_length : Nat := 0
  connection_header : List Nat := []
  deriving DecidableEq, Repr

/-- `isspace` in the C locale: space, `\t`, `\n`, `\v`, `\f`, `\r`. -/
def isspace (c : Nat) : Bool := c == 32 || (decide (9 ≤ c) && decide (c ≤ 13))

/-- One `%<width>s` conversion of `sscanf`: skip white space, then store at most
`width` bytes up to the next white space.  The result is the stored string and
the unread input; `none` is an input failure (end of the string). -/
def scan_s (width : Nat) (input : List Nat) : Option (List Nat × List Nat) :=
  let s := input.dropWhile isspace
  let tok := (s.takeWhile (fun c => !isspace c)).take width
  if tok = [] then none else some (tok, s.drop tok.length)

/-- `sscanf(line, "%15s %2047s %15s", method, full_path, version)`: the returned
count (`EOF` is `-1`) and the three strings (empty where nothing was stored). -/
def sscanf_request_line (line : List Nat) : Int × List Nat × List Nat × List Nat :=
  match scan_s 15 line with
  | none => (-1, [], [], [])
  | some (method, r1) =>
    match scan_s 2047 r1 with
    | none => (1, method, [], [])
    | some (full_path, r2) =>
      match scan_s 15 r2 with
      | none => (2, method, full_path, [])
      | some (version, _) => (3, method, full_path, version)

/-- The method allow-list `allowed_methods`. -/
def allowed_methods : List (List Nat) := [bytes "GET", bytes "POST", bytes "HEAD"]

/-- `is_method_allowed`: 1 if `strcmp` finds the method in the allow-list, else 0. -/
def is_method_allowed (method : List Nat) : Int :=
  if allowed_methods.any (fun m => decide (method = m)) then 1 else 0

/-- `strncmp(a, b, n) == 0` on C strings. -/
def strncmp_eq (a b : List Nat) (n : Nat) : Bool := decide (a.take n = b.take n)

/-- The part of `parse_request_line` after the path/query split. -/
def parse_request_line_checks (method full_path version : List Nat) (path_len : Nat)
    (req : http_request) : Int × http_request :=
  if method.length ≥ MAX_METHOD ∨ version.length ≥ MAX_VERSION then (HTTP_PARSE_ERROR, req)
  else if is_method_allowed method = 0 then (HTTP_METHOD_NOT_ALLOWED, req)
  else if method.any (fun c => decide (c < 65) || decide (c > 90)) then (HTTP_PARSE_ERROR, req)
  else if !strncmp_eq version (bytes "HTTP/") 5 then (0, req)
  else (1, { req with method := method, version := version, path := full_path.take path_len })

/-- `parse_request_line`: the returned `int` and the request record as the call
leaves it (the query, and on the `?` branch the cut of the old path, are stored
before the later checks). -/
def parse_request_line (line : List Nat) (req : http_request) : Int × http_request :=
  let sc := sscanf_request_line line
  if sc.1 ≠ 3 then (HTTP_PARSE_ERROR, req)
  else
    let method := sc.2.1
    let full_path := sc.2.2.1
    let version := sc.2.2.2
    match strchr full_path 63 with
    | some path_len =>
      let query := full_path.drop (path_len + 1)
      if path_len ≥ MAX_PATH ∨ query.length ≥ MAX_QUERY then (HTTP_URI_TOO_LONG, req)
      else parse_request_line_checks method full_path version path_len
        { req with path := req.path.take path_len, query := query }
    | none =>
      if full_path.length ≥ MAX_PATH then (HTTP_URI_TOO_LONG, req)
      else parse_request_line_checks method full_path version full_path.length
        { req with query := [] }

/-! ### Shapes of request lines, used to state the properties of the parser -/

/-- Every byte is white space. -/
def all_space (s : List Nat) : Bool := s.all isspace

/-- A non-empty run of white space, as separates two fields. -/
def is_gap (s : List Nat) : Bool := !s.isEmpty && s.all isspace

/-- A field: a non-empty string without white space. -/
def is_token (s : List Nat) : Bool := !s.isEmpty && s.all (fun c => !isspace c)

/-- The string is empty or begins with white space, so a field before it ends there. -/
def starts_with_space : List Nat → Bool
  | [] => true
  | c :: _ => isspace c

/-- The request-target up to the first `?` (all of it when there is none). -/
def target_path (t : List Nat) : List Nat :=
  match strchr t 63 with
  | some i => t.take i
  | none => t

/-- The request-target after the first `?` (empty when there is none). -/
def target_query (t : List Nat) : List Nat :=
  match strchr t 63 with
  | some i => t.drop (i + 1)
  | none => []

/-- The length limits on a request-target: with a `?`, the part before it is
shorter than `MAX_PATH` and the part after it shorter than `MAX_QUERY`; without,
the target is shorter than `MAX_PATH`. -/
def target_within_limits (t : List Nat) : Bool :=
  match strchr t 63 with
  | some i => decide (i < MAX_PATH) && decide ((t.drop (i + 1)).length < MAX_QUERY)
  | none => decide (t.length < MAX_PATH)

/-! ## Error responses and the phase classifiers
(`string_utils.c`, `response_utils.c`, `error_handlers.c`) -/

/-- `ascii_tolower_uc`. -/
def ascii_tolower_uc (c : Nat) : Nat := if 65 ≤ c ∧ c ≤ 90 then c + 32 else c

/-- `str_case_cmp` on two non-`NULL` C strings. -/
def str_case_cmp : List Nat → List Nat → Int
  | a :: as, b :: bs =>
    if ascii_tolower_uc a ≠ ascii_tolower_uc b then
      (ascii_tolower_uc a : Int) - (ascii_tolower_uc b : Int)
    else str_case_cmp as bs
  | [], [] => 0
  | a :: _, [] => (a : Int)
  | [], b :: _ => 0 - (b : Int)

/-- The output of the `printf` conversion `%d`. -/
def fmt_d (i : Int) : List Nat :=
  if i < 0 then 45 :: (Nat.toDigits 10 (-i).toNat).map Char.toNat
  else (Nat.toDigits 10 i.toNat).map Char.toNat

/-- The separated list that the loop of `build_allow_header` writes. -/
def build_allow_header_loop : List (List Nat) → List Nat
  | [] => []
  | [m] => m
  | m :: rest => m ++ bytes ", " ++ build_allow_header_loop rest

/-- `build_allow_header`: the content of `allow_buffer[128]` after the call. -/
def build_allow_header : List Nat :=
  (bytes "Allow: " ++ build_allow_header_loop allowed_methods ++ bytes "\r\n").take 127

/-- The `body[256]` string of an error response. -/
def error_body (status_code : Int) (status_text : List Nat) : List Nat :=
  (bytes "<html><body><h1>" ++ fmt_d status_code ++ bytes " " ++ status_text ++
    bytes "</h1></body></html>").take 255

/-- The status line written by the first `snprintf`. -/
def status_line (status_code : Int) (status_text : List Nat) : List Nat :=
  bytes "HTTP/1.1 " ++ fmt_d status_code ++ bytes " " ++ status_text ++ bytes "\r\n"

/-- The line that `add_date_header` writes for the `strftime` output `date`. -/
def date_line (date : List Nat) : List Nat := bytes "Date: " ++ date ++ bytes "\r\n"

/-- `add_date_header`, on the offset alone: nothing is written at or past the end
of the buffer, and the offset is capped at the buffer size. -/
def add_date_header (date : List Nat) (offset buffer_size : Nat) : Nat :=
  if offset < buffer_size then
    if offset + (date_line date).length > buffer_size then buffer_size
    else offset + (date_line date).length
  else offset

/-- Whether the `method` argument is non-`NULL` and `str_case_cmp` finds it equal to `HEAD`. -/
def is_head (method : Option (List Nat)) : Bool :=
  match method with
  | none => false
  | some m => decide (str_case_cmp m (bytes "HEAD") = 0)

/-- The standard headers written by the last `snprintf` of the header section. -/
def standard_headers (status_code : Int) (status_text connection_header : List Nat)
    (method : Option (List Nat)) : List Nat :=
  bytes "Content-Type: text/html\r\nContent-Length: " ++
    fmt_d (if is_head method then 0 else ((error_body status_code status_text).length : Int)) ++
    bytes "\r\nConnection: " ++ connection_header ++ bytes "\r\n"

/-- `send_error_response_with_headers` for a buffer of `size` bytes: the bytes
passed to `send`, or `none` when the function returns without sending.  Each
`snprintf` returns the full length of its output, so the offset is the sum of
those lengths; when that sum stays below `size` no output was cut and the buffer
holds the pieces one after the other.  `extra_headers` is `none` for `NULL`. -/
def send_error_response_sized (size : Nat) (date : List Nat) (status_code : Int)
    (status_text connection_header : List Nat) (extra_headers : Option (List Nat))
    (method : Option (List Nat)) : Option (List Nat) :=
  let body := error_body status_code status_text
  let offset1 := (status_line status_code status_text).length
  let offset2 := add_date_header date offset1 size
  let extra := extra_headers.getD []
  let offset3 := offset2 + extra.length
  let offset4 := offset3 + (standard_headers status_code status_text connection_header
    method).length
  if offset4 ≥ size then none
  else
    let headers := status_line status_code status_text ++ date_line date ++ extra ++
      standard_headers status_code status_text connection_header method
    if !is_head method then
      if offset4 + body.length < size then some (headers ++ body) else none
    else some headers

/-- `send_error_response` (`error_handlers.c`): `headers[1024]`, no extra headers. -/
def send_error_response (date : List Nat) (status_code : Int)
    (status_text connection_header : List Nat) (method : Option (List Nat)) :
    Option (List Nat) :=
  send_error_response_sized 1024 date status_code status_text connection_header none method

/-- `send_error_response_with_headers` (`error_handlers.c`): `headers[1536]`. -/
def send_error_response_with_headers (date : List Nat) (status_code : Int)
    (status_text connection_header : List Nat) (extra_headers : Option (List Nat))
    (method : Option (List Nat)) : Option (List Nat) :=
  send_error_response_sized 1536 date status_code status_text connection_header extra_headers
    method

/-- `handle_read_headers_status`: the returned `int` (1 continue, 0 stop) and the
bytes written to the client (`none`: nothing is written). -/
def handle_read_headers_status (rc : Int) (date : List Nat) (method : Option (List Nat)) :
    Int × Option (List Nat) :=
  if rc > 0 then (1, none)
  else if rc = HTTP_IO_EOF then (0, none)
  else if rc = HTTP_IO_TIMEOUT then (0, none)
  else if rc = HTTP_IO_TIMEOUT_PARTIAL then
    (0, send_error_response date 408 (bytes "Request Timeout") (bytes "close") method)
  else if rc = HTTP_IO_EOF_PARTIAL then
    (0, send_error_response date 400 (bytes "Bad Request") (bytes "close") method)
  else if rc = HTTP_HEADERS_TOO_LARGE then
    (0, send_error_response date 431 (bytes "Request Header Fields Too Large") (bytes "close")
      method)
  else if rc = HTTP_PARSE_ERROR then
    (0, send_error_response date 400 (bytes "Bad Request") (bytes "close") method)
  else (0, none)

/-- `handle_request_line_status`. -/
def handle_request_line_status (rc : Int) (date : List Nat) (method : Option (List Nat)) :
    Int × Option (List Nat) :=
  if rc > 0 then (1, none)
  else if rc = HTTP_URI_TOO_LONG then
    (0, send_error_response date 414 (bytes "URI Too Long") (bytes "close") method)
  else if rc = HTTP_VERSION_UNSUPPORTED then
    (0, send_error_response date 505 (bytes "HTTP Version Not Supported") (bytes "close")
      method)
  else if rc = HTTP_METHOD_NOT_ALLOWED then
    (0, send_error_response_with_headers date 405 (bytes "Method Not Allowed") (bytes "close")
      (some build_allow_header) method)
  else if rc = HTTP_NOT_IMPLEMENTED then
    (0, send_error_response date 501 (bytes "Not Implemented") (bytes "close") method)
  else (0, send_error_response date 400 (bytes "Bad Request") (bytes "close") method)

/-- `handle_parse_headers_status`. -/
def handle_parse_headers_status (rc : Int) (date : List Nat) (method : Option (List Nat)) :
    Int × Option (List Nat) :=
  if rc > 0 then (1, none)
  else if rc = HTTP_HEADERS_TOO_LARGE then
    (0, send_error_response date 431 (bytes "Request Header Fields Too Large") (bytes "close")
      method)
  else (0, send_error_response date 400 (bytes "Bad Request") (bytes "close") method)

/-- `handle_validate_status`. -/
def handle_validate_status (rc : Int) (date : List Nat) (method : Option (List Nat)) :
    Int × Option (List Nat) :=
  if rc > 0 then (1, none)
  else if rc = HTTP_LENGTH_REQUIRED then
    (0, send_error_response date 411 (bytes "Length Required") (bytes "close") method)
  else if rc = HTTP_NOT_IMPLEMENTED then
    (0, send_error_response date 501 (bytes "Not Implemented") (bytes "close") method)
  else if rc = HTTP_METHOD_NOT_ALLOWED then
    (0, send_error_response_with_headers date 405 (bytes "Method Not Allowed") (bytes "close")
      (some build_allow_header) method)
  else (0, send_error_response date 400 (bytes "Bad Request") (bytes "close") method)

/-- `handle_read_body_status`; `connection_header` is `none` for `NULL`. -/
def handle_read_body_status (rc : Int) (date : List Nat)
    (connection_header : Option (List Nat)) (method : Option (List Nat)) :
    Int × Option (List Nat) :=
  if rc ≥ 0 then (1, none)
  else if rc = HTTP_BODY_TOO_LARGE then
    (0, send_error_response date 413 (bytes "Payload Too Large")
      (match connection_header with
        | some c => c
        | none => bytes "close") method)
  else if rc = HTTP_IO_TIMEOUT_PARTIAL then
    (0, send_error_response date 408 (bytes "Request Timeout") (bytes "close") method)
  else if rc = HTTP_IO_EOF_PARTIAL then
    (0, send_error_response date 400 (bytes "Bad Request") (bytes "close") method)
  else (0, none)

/-- The bytes of an error response that fits its buffer: status line, `Date`,
extra headers, standard headers and, unless the method is `HEAD`, the body. -/
def error_response (date : List Nat) (status_code : Int)
    (status_text connection_header extra_headers : List Nat) (method : Option (List Nat)) :
    List Nat :=
  status_line status_code status_text ++ date_line date ++ extra_headers ++
    standard_headers status_code status_text connection_header method ++
    (if is_head method then [] else error_body status_code status_text)

/-- Room taken by the standard headers apart from the `Connection` value. -/
def headers_room (status_code : Int) (status_text : List Nat) : Nat :=
  max (standard_headers status_code status_text [] none).length
    (standard_headers status_code status_text [] (some (bytes "HEAD"))).length

/-! ## Header normalization (`http_mappings.c`) -/

/-- The table `header_mappings`: name, `value_case_insensitive`, `trim_ows`. -/
def header_mappings : List (List Nat × Int × Int) :=
  [(bytes "host", 1, 0), (bytes "connection", 1, 1), (bytes "cache-control", 1, 1),
   (bytes "pragma", 1, 1), (bytes "upgrade", 1, 1), (bytes "via", 1, 1),
   (bytes "warning", 0, 1),
   (bytes "user-agent", 0, 0), (bytes "accept", 1, 1), (bytes "accept-encoding", 1, 1),
   (bytes "accept-language", 1, 1), (bytes "accept-charset", 1, 1), (bytes "referer", 0, 0),
   (bytes "origin", 0, 0), (bytes "content-type", 1, 1), (bytes "content-length", 0, 0),
   (bytes "transfer-encoding", 1, 1), (bytes "te", 1, 1), (bytes "expect", 1, 1),
   (bytes "authorization", 0, 0), (bytes "cookie", 0, 0),
   (bytes "upgrade-insecure-requests", 0, 0), (bytes "if-modified-since", 0, 0),
   (bytes "if-none-match", 0, 1), (bytes "if-unmodified-since", 0, 0),
   (bytes "if-match", 0, 1), (bytes "if-range", 0, 0),
   (bytes "server", 0, 0), (bytes "date", 0, 0), (bytes "last-modified", 0, 0),
   (bytes "etag", 0, 0), (bytes "content-encoding", 1, 1), (bytes "content-language", 1, 1),
   (bytes "content-location", 0, 0), (bytes "content-disposition", 0, 1),
   (bytes "content-range", 1, 1), (bytes "allow", 0, 1), (bytes "vary", 1, 1),
   (bytes "set-cookie", 0, 0), (bytes "www-authenticate", 0, 1),
   (bytes "proxy-authenticate", 0, 1), (bytes "location", 0, 0), (bytes "retry-after", 0, 0),
   (bytes "expires", 0, 0), (bytes "content-security-policy", 0, 0),
   (bytes "access-control-allow-origin", 0, 0), (bytes "access-control-allow-headers", 1, 1),
   (bytes "access-control-allow-methods", 0, 1),
   (bytes "access-control-expose-headers", 1, 1),
   (bytes "access-control-request-headers", 1, 1),
   (bytes "access-control-request-method", 0, 0), (bytes "access-control-max-age", 0, 0)]

/-- `is_header_value_case_insensitive`: the flag of the first row whose name
`str_case_cmp` finds equal, 0 when there is none. -/
def is_header_value_case_insensitive (header_name : List Nat) : Int :=
  match header_mappings.find? (fun r => decide (str_case_cmp header_name r.1 = 0)) with
  | some r => r.2.1
  | none => 0

/-- `should_trim_ows`. -/
def should_trim_ows (header_name : List Nat) : Int :=
  match header_mappings.find? (fun r => decide (str_case_cmp header_name r.1 = 0)) with
  | some r => r.2.2
  | none => 0

/-- Space or tab. -/
def isblank (c : Nat) : Bool := c == 32 || c == 9

/-- Space, tab, `\r` or `\n`: what `trim_outer_whitespaces` removes at the end. -/
def is_trailing_ws (c : Nat) : Bool := c == 32 || c == 9 || c == 13 || c == 10

/-- `tolower` in the C locale. -/
def tolower (c : Nat) : Nat := if 65 ≤ c ∧ c ≤ 90 then c + 32 else c

/-- `trim_outer_whitespaces`: leading spaces and tabs are dropped, then trailing
spaces, tabs, `\r` and `\n`. -/
def trim_outer_whitespaces (str : List Nat) : List Nat :=
  ((str.dropWhile isblank).reverse.dropWhile is_trailing_ws).reverse

/-- The state of the loop of `trim_internal_whitespaces`: the bytes written so
far (last written first), the two flags, and whether the loop that skips blanks
after a delimiter is running. -/
structure TrimState where
  out : List Nat
  inside_quotes : Bool
  escape_next : Bool
  skipping : Bool
  deriving DecidableEq, Repr

/-- One byte read by `trim_internal_whitespaces`. -/
def trim_internal_step (s : TrimState) (c : Nat) : TrimState :=
  if s.inside_quotes then
    if s.escape_next then
      { out := c :: s.out, inside_quotes := true, escape_next := false, skipping := false }
    else if c = 92 then
      { out := c :: s.out, inside_quotes := true, escape_next := true, skipping := false }
    else if c = 34 then
      { out := c :: s.out, inside_quotes := false, escape_next := false, skipping := false }
    else
      { out := c :: s.out, inside_quotes := true, escape_next := false, skipping := false }
  else if s.skipping && isblank c then s
  else if c = 34 then
    { out := c :: s.out, inside_quotes := true, escape_next := s.escape_next,
      skipping := false }
  else if c = 59 ∨ c = 44 ∨ c = 61 then
    { out := c :: s.out.dropWhile isblank, inside_quotes := false,
      escape_next := s.escape_next, skipping := true }
  else
    { out := c :: s.out, inside_quotes := false, escape_next := s.escape_next,
      skipping := false }

/-- The state in which `trim_internal_whitespaces` starts. -/
def trim_start : TrimState :=
  { out := [], inside_quotes := false, escape_next := false, skipping := false }

/-- `trim_internal_whitespaces`. -/
def trim_internal_whitespaces (value : List Nat) : List Nat :=
  if value = [] then value
  else (value.foldl trim_internal_step trim_start).out.reverse

/-- `normalize_string_lower`. -/
def normalize_string_lower (str : List Nat) : List Nat := str.map tolower

/-- The last loop of `normalize_header_name`: lower-case up to the first `:`. -/
def lower_name : List Nat → List Nat
  | [] => []
  | c :: rest => if c = 58 then c :: rest else tolower c :: lower_name rest

/-- `normalize_header_name`. -/
def normalize_header_name (header_line : List Nat) : List Nat :=
  if header_line = [] then header_line
  else
    match strchr header_line 58 with
    | none => header_line
    | some colon =>
      let value := header_line.drop (colon + 1)
      let name := trim_outer_whitespaces (header_line.take colon)
      lower_name (name ++ 58 :: value)

/-- `normalize_header_value`. -/
def normalize_header_value (header_line : List Nat) : List Nat :=
  match strchr header_line 58 with
  | none => header_line
  | some name_len =>
    if name_len = 0 then header_line
    else if name_len ≥ 128 then header_line
    else
      let header_name := header_line.take name_len
      let value := trim_outer_whitespaces (header_line.drop (name_len + 1))
      let value1 :=
        if is_header_value_case_insensitive header_name ≠ 0 then normalize_string_lower value
        else value
      let value2 :=
        if should_trim_ows header_name ≠ 0 then trim_internal_whitespaces value1 else value1
      header_name ++ 58 :: value2

/-- `normalize_header`. -/
def normalize_header (header_line : List Nat) : List Nat :=
  normalize_header_value (normalize_header_name header_line)

/-! ## Header parser, request validator and body reader (`https-server.c`, `string_utils.c`) -/

/-- `strn_case_cmp` on two non-`NULL` C strings; the end of a list is the NUL. -/
def strn_case_cmp : List Nat → List Nat → Nat → Int
  | _, _, 0 => 0
  | a :: as, b :: bs, n + 1 =>
    if ascii_tolower_uc a ≠ ascii_tolower_uc b then
      (ascii_tolower_uc a : Int) - (ascii_tolower_uc b : Int)
    else strn_case_cmp as bs n
  | a :: _, [], _ + 1 => (ascii_tolower_uc a : Int) - 0
  | [], b :: _, _ + 1 => 0 - (ascii_tolower_uc b : Int)
  | [], [], _ + 1 => 0

/-- The body of the loop of `parse_headers` after a line has passed its checks:
the line is copied, normalized and stored, and the value of a `Connection` header
is copied when it fits `connection_header[32]`. -/
def store_header (line : List Nat) (req : http_request) : http_request :=
  let header := normalize_header_value (normalize_header_name line)
  let req1 := { req with headers := req.headers ++ [header] }
  if strn_case_cmp header (bytes "Connection:") 11 = 0 then
    if (header.drop 11).length < 32 then
      { req1 with connection_header := header.drop 11 }
    else req1
  else req1

/-- The `while` loop of `parse_headers`; the first argument is
`MAX_HEADERS - header_count`, the second the C string at `line_start`. -/
def parse_headers_loop : Nat → List Nat → http_request → Int × http_request
  | 0, _, req => (1, req)
  | n + 1, text, req =>
    if text.head? = some 13 then (1, req)
    else
      match strstr text CRLF with
      | none => (1, req)
      | some line_len =>
        if line_len = 0 then (1, req)
        else if line_len ≥ MAX_HEADER_LINE then (HTTP_HEADERS_TOO_LARGE, req)
        else
          match strchr (text.take line_len) 58 with
          | none => (HTTP_PARSE_ERROR, req)
          | some _ =>
            parse_headers_loop n (text.drop (line_len + 2)) (store_header (text.take line_len) req)

/-- `parse_headers`: the returned `int` and the request record as the call leaves it. -/
def parse_headers (request_data : List Nat) (req : http_request) : Int × http_request :=
  match strstr request_data CRLF with
  | none => (HTTP_PARSE_ERROR, req)
  | some first =>
    parse_headers_loop MAX_HEADERS (request_data.drop (first + 2)) { req with headers := [] }

/-- `validate_http_request`. -/
def validate_http_request (req : http_request) : Int :=
  if req.version = bytes "HTTP/1.1" then
    if req.headers.any (fun h => decide (strn_case_cmp h (bytes "Host:") 5 = 0)) then 1 else 0
  else 1

/-- `isdigit`. -/
def isdigit (c : Nat) : Bool := decide (48 ≤ c) && decide (c ≤ 57)

/-- `strtoul(s, NULL, 10)` with a 64-bit `unsigned long`: white space is skipped,
a sign is accepted, the digits that follow are converted; without a digit the
result is 0, a value that does not fit gives `ULONG_MAX`, and after a minus sign
the value is negated as an `unsigned long`. -/
def strtoul (s : List Nat) : Nat :=
  let s1 := s.dropWhile isspace
  let negative := decide (s1.head? = some 45)
  let s2 := if s1.head? = some 45 ∨ s1.head? = some 43 then s1.drop 1 else s1
  let digits := s2.takeWhile isdigit
  let value := digits.foldl (fun acc d => acc * 10 + (d - 48)) 0
  if digits = [] then 0
  else if value > 18446744073709551615 then 18446744073709551615
  else if negative then (if value = 0 then 0 else 18446744073709551616 - value)
  else value

/-- `get_content_length`; `errno_einval` tells whether `errno == EINVAL` holds
when it is tested after `strtoul`. -/
def get_content_length (errno_einval : Bool) (req : http_request) : Nat :=
  match req.headers.find? (fun h => decide (strn_case_cmp h (bytes "Content-Length:") 15 = 0)) with
  | none => 0
  | some header =>
    let value := (header.drop 15).dropWhile isblank
    let length := strtoul value
    if length = 0 ∧ errno_einval = true then 0 else length

/-- What `read_http_body` leaves behind: the returned `int`, the request record,
the receive buffer, and the `recv` results that were not consumed. -/
structure body_read where
  rc : Int
  req : http_request
  buffer : List Nat
  unread : List RecvResult
  deriving DecidableEq, Repr

/-- The buffer after `chunk` has been stored at `offset` (bytes between the end
of the content and `offset`, never written, are shown as 0). -/
def store_at (buffer : List Nat) (offset : Nat) (chunk : List Nat) : List Nat :=
  buffer.take offset ++ List.replicate (offset - buffer.length) 0 ++ chunk

/-- The number of bytes requested by one body read. -/
def body_to_read (headers_length content_length body_already_read : Nat) : Nat :=
  let bytes_needed := content_length - body_already_read
  let buffer_space := size_sub MAX_REQUEST_SIZE (headers_length + body_already_read)
  if bytes_needed < buffer_space then bytes_needed else buffer_space

/-- The `while` loop of `read_http_body`; `none` means that the script of `recv`
results ran out while the loop was still reading. -/
def read_http_body_loop (headers_length : Nat) :
    List RecvResult → Nat → List Nat → http_request → Option body_read
  | [], body_already_read, buffer, req =>
    if body_already_read < req.content_length then
      if body_to_read headers_length req.content_length body_already_read = 0 then
        some ⟨HTTP_BODY_TOO_LARGE, req, buffer, []⟩
      else none
    else some ⟨0, { req with body_length := req.content_length }, buffer, []⟩
  | r :: script, body_already_read, buffer, req =>
    if body_already_read < req.content_length then
      let to_read := body_to_read headers_length req.content_length body_already_read
      if to_read = 0 then some ⟨HTTP_BODY_TOO_LARGE, req, buffer, r :: script⟩
      else
        let rd := read_with_timeout r to_read
        let nread := rd.1
        if nread = HTTP_IO_TIMEOUT then some ⟨HTTP_IO_TIMEOUT_PARTIAL, req, buffer, script⟩
        else if nread = 0 then some ⟨HTTP_IO_EOF_PARTIAL, req, buffer, script⟩
        else if nread < 0 then some ⟨nread, req, buffer, script⟩
        else
          read_http_body_loop headers_length script (body_already_read + nread.toNat)
            (store_at buffer (headers_length + body_already_read) rd.2) req
    else some ⟨0, { req with body_length := req.content_length }, buffer, r :: script⟩

/-- `read_http_body`. -/
def read_http_body (errno_einval : Bool) (script : List RecvResult) (buffer : List Nat)
    (headers_end_pos total_read : Nat) (req : http_request) : Option body_read :=
  let req1 := { req with content_length := get_content_length errno_einval req }
  if req1.content_length = 0 then
    some ⟨0, { req1 with body := none, body_length := 0 }, buffer, script⟩
  else if req1.content_length > MAX_REQUEST_SIZE then
    some ⟨HTTP_BODY_TOO_LARGE, req1, buffer, script⟩
  else
    let headers_length := headers_end_pos + 4
    let body_already_read := if total_read > headers_length then total_read - headers_length else 0
    read_http_body_loop headers_length script body_already_read buffer
      { req1 with body := some headers_length }

/-- The passes through the loop body of `read_http_body`, in order: for each pass
`body_already_read` at its start, `to_read`, and the value returned by
`read_with_timeout` (`none` when no read is made because `to_read` is 0, or when
the script has no result for the read).  The control flow is that of
`read_http_body_loop`. -/
def read_http_body_iterations (headers_length : Nat) :
    List RecvResult → Nat → Nat → List (Nat × Nat × Option Int)
  | [], body_already_read, content_length =>
    if body_already_read < content_length then
      [(body_already_read, body_to_read headers_length content_length body_already_read, none)]
    else []
  | r :: script, body_already_read, content_length =>
    if body_already_read < content_length then
      let to_read := body_to_read headers_length content_length body_already_read
      if to_read = 0 then [(body_already_read, to_read, none)]
      else
        let rd := read_with_timeout r to_read
        let nread := rd.1
        (body_already_read, to_read, some nread) ::
          (if nread = HTTP_IO_TIMEOUT then []
          else if nread = 0 then []
          else if nread < 0 then []
          else
            read_http_body_iterations headers_length script (body_already_read + nread.toNat)
              content_length)
    else []

/-! ## The session loop (`handle_client`, `https-server.c`) -/

def READ_TIMEOUT_SEC : Nat := 30
def KEEP_ALIVE_TIMEOUT_SEC : Nat := 5

/-- The calls of `read_with_timeout` that the loop of `read_http_headers` makes,
in order: for each call the offset `total_read` at which it stores, the size it
asks for, and the value returned.  The control flow is that of
`read_http_headers_loop`. -/
def read_http_headers_calls (buffer_size : Nat) :
    List RecvResult → Nat → List Nat → List (Nat × Nat × Int)
  | [], _, _ => []
  | r :: script, total_read, buffer =>
    if total_read < size_sub buffer_size 1 then
      let rd := read_with_timeout r (size_sub (size_sub buffer_size total_read) 1)
      let nread := rd.1
      (total_read, size_sub (size_sub buffer_size total_read) 1, nread) ::
        (if nread = HTTP_IO_TIMEOUT then []
        else if nread = HTTP_IO_ERROR then []
        else if nread = 0 then []
        else if nread < 0 then []
        else
          let total_read1 := total_read + nread.toNat
          let buffer1 := buffer ++ rd.2
          match strstr (c_str buffer1) CRLFCRLF with
          | some _ => []
          | none =>
            if total_read1 > MAX_REQUEST_SIZE / 2 then []
            else read_http_headers_calls buffer_size script total_read1 buffer1)
    else []

/-- `is_safe_path`. -/
def is_safe_path (path : List Nat) : Int :=
  if strstr path (bytes "..") ≠ none then 0
  else if path.head? ≠ some 47 then 0
  else 1

/-- `map_path_to_file`: the returned `int` and the string left in `file_path`. -/
def map_path_to_file (url_path : List Nat) (max_len : Nat) : Int × List Nat :=
  if url_path = bytes "/" then (0, (bytes "./www/index.html").take (max_len - 1))
  else if (bytes "./www" ++ url_path).length ≥ max_len then
    (HTTP_URI_TOO_LONG, (bytes "./www" ++ url_path).take (max_len - 1))
  else (0, bytes "./www" ++ url_path)

/-- What `handle_client` does that can be seen from outside. -/
inductive Event where
  /-- Bytes passed to `send` by `send_error_response` or
  `send_error_response_with_headers`. -/
  | sent (response : List Nat)
  /-- The call `send_file_response(client_fd, file_path, method, connection_header)`. -/
  | send_file_response (file_path method connection_header : List Nat)
  /-- The call `handle_post_request(client_fd, &request, connection_header)`. -/
  | handle_post_request (request : http_request) (connection_header : List Nat)
  /-- The call `set_socket_timeout(client_fd, seconds)`. -/
  | set_socket_timeout (seconds : Nat)
  /-- The store `*first_line_end = 0` through a `NULL` pointer. -/
  | null_store
  deriving DecidableEq, Repr

/-- One pass through the body of the `do ... while (1)` loop: what it did, whether
the loop goes on (`again`), and the `recv` results it left unread. -/
structure pass_result where
  events : List Event
  again : Bool
  unread : List RecvResult
  deriving DecidableEq, Repr

/-- The event of an error response: nothing when the function returned without
sending. -/
def written (w : Option (List Nat)) : List Event :=
  match w with
  | some response => [Event.sent response]
  | none => []

/-- Steps 7 and 8 of `handle_client` and the test that ends the loop body: the
path check, the dispatch on the method, and the `Connection` test. -/
def handle_client_dispatch (date : List Nat) (request : http_request)
    (unread : List RecvResult) : pass_result :=
  let again := decide (strn_case_cmp request.connection_header (bytes "keep-alive") 10 = 0)
  if is_safe_path request.path = 0 then
    ⟨written (send_error_response date 400 (bytes "Bad Request") request.connection_header
      (some request.method)), false, unread⟩
  else if request.method = bytes "GET" ∨ request.method = bytes "HEAD" then
    if (map_path_to_file request.path 1024).1 ≠ 0 then
      ⟨written (send_error_response date 414 (bytes "URI Too Long") (bytes "close")
        (some request.method)), false, unread⟩
    else
      ⟨[Event.send_file_response (map_path_to_file request.path 1024).2 request.method
        request.connection_header], again, unread⟩
  else if request.method = bytes "POST" then
    ⟨[Event.handle_post_request request request.connection_header], again, unread⟩
  else
    ⟨written (send_error_response_with_headers date 405 (bytes "Method Not Allowed")
      request.connection_header (some build_allow_header) (some request.method)), again, unread⟩

/-- Steps 3 to 6 of `handle_client`, entered with the offsets of the first
`\r\n\r\n` and the first `\r\n` of the buffer: the request line, the headers, the
validation and the body, each followed by its classifier. -/
def handle_client_phases (errno_einval : Bool) (date : List Nat) (buffer : List Nat)
    (total_read : Int) (header_end first_line_end : Nat) (unread : List RecvResult) :
    Option pass_result :=
  let rl := parse_request_line ((c_str buffer).take first_line_end) {}
  let h2 := handle_request_line_status rl.1 date (some rl.2.method)
  if h2.1 = 0 then some ⟨written h2.2, false, unread⟩
  else
    let ph := parse_headers (c_str buffer) rl.2
    let h3 := handle_parse_headers_status ph.1 date (some ph.2.method)
    if h3.1 = 0 then some ⟨written h3.2, false, unread⟩
    else
      let h4 := handle_validate_status (validate_http_request ph.2) date (some ph.2.method)
      if h4.1 = 0 then some ⟨written h4.2, false, unread⟩
      else
        match read_http_body errno_einval unread buffer header_end total_read.toNat ph.2 with
        | none => none
        | some b =>
          let h5 := handle_read_body_status b.rc date (some b.req.connection_header)
            (some b.req.method)
          if h5.1 = 0 then some ⟨written h5.2, false, b.unread⟩
          else some (handle_client_dispatch date b.req b.unread)

/-- One pass through the loop body of `handle_client`, with `request = {0}` at
its start.  `none`: the script of `recv` results ran out while a read was
pending. -/
def handle_client_pass (errno_einval : Bool) (date : List Nat) (script : List RecvResult) :
    Option pass_result :=
  match read_http_headers MAX_REQUEST_SIZE script with
  | none => none
  | some (total_read, buffer) =>
    let unread := script.drop (read_http_headers_calls MAX_REQUEST_SIZE script 0 []).length
    let h1 := handle_read_headers_status total_read date (some [])
    if h1.1 = 0 then some ⟨written h1.2, false, unread⟩
    else
      match strstr (c_str buffer) CRLFCRLF, strstr (c_str buffer) CRLF with
      | some header_end, some first_line_end =>
        handle_client_phases errno_einval date buffer total_read header_end first_line_end
          unread
      | _, _ => some ⟨[Event.null_store], false, unread⟩

/-- The `do ... while (1)` loop of `handle_client`, for at most `fuel` passes. -/
def handle_client_loop (errno_einval : Bool) (date : List Nat) :
    Nat → List RecvResult → Option (List Event)
  | 0, _ => none
  | fuel + 1, script =>
    match handle_client_pass errno_einval date script with
    | none => none
    | some p =>
      if p.again then
        (handle_client_loop errno_einval date fuel p.unread).map
          (fun rest => p.events ++ Event.set_socket_timeout KEEP_ALIVE_TIMEOUT_SEC :: rest)
      else some p.events

/-- `handle_client` on a socket that yields the `recv` results of `script`; every
pass reads at least once, so one pass more than the script has entries is
enough. -/
def handle_client (errno_einval : Bool) (date : List Nat) (script : List RecvResult) :
    Option (List Event) :=
  (handle_client_loop errno_einval date (script.length + 1) script).map
    (fun events => Event.set_socket_timeout READ_TIMEOUT_SEC :: events)

/-! ## Invariants of `trim_internal_whitespaces`, used in the proofs -/

/-- The state reached by running the loop on the bytes written so far. -/
def reread (out : List Nat) : TrimState :=
  out.reverse.foldl trim_internal_step trim_start

/-- The loop copies the written bytes unchanged and ends outside quotes. -/
def reread_stable (out : List Nat) : Prop :=
  (reread out).out = out ∧ (reread out).inside_quotes = false ∧
    (reread out).escape_next = false

/-- The written bytes stay stable when blanks are removed from their end. -/
def stable_under_pop (out : List Nat) : Prop :=
  ∀ bl rest : List Nat, out = bl ++ rest → (∀ b ∈ bl, isblank b = true) → reread_stable rest

/-- The loop invariant: running the loop on the written bytes leads to the very
same state, and outside quotes the written bytes are stable under removal of
blanks from their end. -/
def trim_invariant (s : TrimState) : Prop :=
  reread s.out = s ∧
    (s.inside_quotes = false → s.escape_next = false ∧ stable_under_pop s.out)

/-- The value of a header after `normalize_header_value`: trimmed, lower-cased
when the row of the name says so, and with blanks around delimiters removed when
the row says so. -/
def normalized_value (header_name value : List Nat) : List Nat :=
  let value0 := trim_outer_whitespaces value
  let value1 :=
    if is_header_value_case_insensitive header_name ≠ 0 then normalize_string_lower value0
    else value0
  if should_trim_ows header_name ≠ 0 then trim_internal_whitespaces value1 else value1

/-- The loop of `parse_headers` told on the list of the lines it visits, `n`
being `MAX_HEADERS - header_count`. -/
def headers_outcome : Nat → List (List Nat) → http_request → Int × http_request
  | 0, _, req => (1, req)
  | _ + 1, [], req => (1, req)
  | n + 1, l :: ls, req =>
    if l.length ≥ MAX_HEADER_LINE then (HTTP_HEADERS_TOO_LARGE, req)
    else if 58 ∉ l then (HTTP_PARSE_ERROR, req)
    else headers_outcome n ls (store_header l req)

/-! ## Notions taken from the specification, used to state the properties -/

/-- The length of a quoted span after its opening quote: it runs to the next `"`
that is not preceded by an unconsumed backslash, that quote included, or to the
end of the value.  `escaped` tells whether the byte before was an unconsumed
backslash. -/
def quoted_span_length : Bool → List Nat → Nat
  | _, [] => 0
  | true, _ :: rest => quoted_span_length false rest + 1
  | false, c :: rest =>
    if c = 92 then quoted_span_length true rest + 1
    else if c = 34 then 1
    else quoted_span_length false rest + 1

/-- Whether the end of `text` lies outside every quoted span, for a text that
starts inside a span (`inside`) after an unconsumed backslash (`escaped`) or not. -/
def outside_quotes_from : Bool → Bool → List Nat → Bool
  | inside, _, [] => !inside
  | false, _, c :: rest => outside_quotes_from (c == 34) false rest
  | true, true, _ :: rest => outside_quotes_from true false rest
  | true, false, c :: rest =>
    if c = 92 then outside_quotes_from true true rest
    else if c = 34 then outside_quotes_from false false rest
    else outside_quotes_from true false rest

/-- Whether the end of `text` lies outside every quoted span. -/
def outside_quotes (text : List Nat) : Bool := outside_quotes_from false false text

/-- The row of `header_mappings` whose name equals `name` when case is ignored. -/
def matching_row (name : List Nat) : Option (List Nat × Int × Int) :=
  header_mappings.find?
    (fun r => decide (normalize_string_lower r.1 = normalize_string_lower name))

/-- Optional white space: a space or a tab. -/
def is_ows (c : Nat) : Bool := c == 32 || c == 9

/-- One of the delimiters `;`, `,`, `=`. -/
def is_delimiter (c : Nat) : Bool := c == 59 || c == 44 || c == 61

/-- The text `before` ends with an unquoted delimiter followed by nothing but
white space. -/
def follows_delimiter (before : List Nat) : Bool :=
  match before.reverse.dropWhile is_ows with
  | d :: rest => is_delimiter d && outside_quotes rest.reverse
  | [] => false

/-- The text `after` begins with nothing but white space followed by a
delimiter. -/
def begins_with_delimiter (after : List Nat) : Bool :=
  match after.dropWhile is_ows with
  | d :: _ => is_delimiter d
  | [] => false

/-- The text `after`, which stands behind `before`, begins with nothing but white
space followed by an unquoted delimiter. -/
def precedes_delimiter (before after : List Nat) : Bool :=
  begins_with_delimiter after && outside_quotes (before ++ after.takeWhile is_ows)

/-- The byte `c`, standing between `before` and `after`, is white space next to
an unquoted delimiter: nothing but white space separates it from an unquoted
`;`, `,` or `=` before it or after it. -/
def is_delimiter_ows (before : List Nat) (c : Nat) (after : List Nat) : Bool :=
  is_ows c && (follows_delimiter before || precedes_delimiter (before ++ [c]) after)

/-- The text `after`, which stands behind `before`, without its white space next
to unquoted delimiters; every other byte is kept. -/
def remove_delimiter_ows (before : List Nat) : List Nat → List Nat
  | [] => []
  | c :: after =>
    if is_delimiter_ows before c after then remove_delimiter_ows (before ++ [c]) after
    else c :: remove_delimiter_ows (before ++ [c]) after

/-- The value that the specification asks for: the surrounding white space is
trimmed; the value is lower-cased when the matching row has
`value_case_insensitive` set; the white space next to unquoted `;`, `,`, `=` is
removed when that row has `trim_ows` set; a name without a row gets the outer
trim only. -/
def expected_value (name value : List Nat) : List Nat :=
  match matching_row name with
  | none => trim_outer_whitespaces value
  | some row =>
    let value1 :=
      if row.2.1 ≠ 0 then normalize_string_lower (trim_outer_whitespaces value)
      else trim_outer_whitespaces value
    if row.2.2 ≠ 0 then remove_delimiter_ows [] value1 else value1

/-- The header lines `lines` as they stand in a head, each ended by `\r\n`. -/
def header_block : List (List Nat) → List Nat
  | [] => []
  | l :: ls => l ++ CRLF ++ header_block ls

/-- A line that `parse_headers` visits: it is not empty, does not begin with
`\r`, and holds no `\r\n`. -/
def is_visited_line (l : List Nat) : Bool :=
  !l.isEmpty && decide (l.head? ≠ some 13) && decide (strstr l CRLF = none)

/-- A text at which `parse_headers` stops visiting: it begins with `\r` (the
blank line `\r\n`, or a line that starts with a bare `\r`), or it holds no
`\r\n` at all. -/
def ends_header_lines (tail : List Nat) : Bool :=
  decide (tail.head? = some 13) || decide (strstr tail CRLF = none)

/-- A header line that makes `parse_headers` fail: 8192 bytes or longer, or
without a `:`. -/
def is_bad_line (l : List Nat) : Bool :=
  decide (l.length ≥ MAX_HEADER_LINE) || decide (58 ∉ l)

/-- Whether the header entry `h` has a `:` and the name before its first `:`
equals `key` when case is ignored. -/
def is_named (key h : List Nat) : Bool :=
  match strchr h 58 with
  | some i => decide (normalize_string_lower (h.take i) = normalize_string_lower key)
  | none => false

/-- The value of the header entry `h`: what follows its first `:`. -/
def header_value (h : List Nat) : List Nat :=
  match strchr h 58 with
  | some i => h.drop (i + 1)
  | none => []

/-- A stored header entry whose value goes to the `connection_header` field:
its name is `connection` and its value is shorter than 32 bytes. -/
def fits_connection_field (h : List Nat) : Bool :=
  is_named (bytes "connection") h && decide ((header_value h).length < 32)

/-- The error body of the specification:
`<html><body><h1>CODE REASON</h1></body></html>`. -/
def full_error_body (status_code : Int) (status_text : List Nat) : List Nat :=
  bytes "<html><body><h1>" ++ fmt_d status_code ++ bytes " " ++ status_text ++
    bytes "</h1></body></html>"

/-- A response written out piece by piece: the status line, the `Date` line,
extra header lines, the `Content-Type`, `Content-Length` and `Connection` lines,
then `blank` (the empty line `\r\n` in a framed message) and the body. -/
def response_layout (date : List Nat) (status_code : Int) (status_text extra : List Nat)
    (content_length : Nat) (connection_header blank body : List Nat) : List Nat :=
  (bytes "HTTP/1.1 " ++ fmt_d status_code ++ bytes " " ++ status_text ++ CRLF) ++
    (bytes "Date: " ++ date ++ CRLF) ++ extra ++
    (bytes "Content-Type: text/html" ++ CRLF) ++
    (bytes "Content-Length: " ++ fmt_d (content_length : Int) ++ CRLF) ++
    (bytes "Connection: " ++ connection_header ++ CRLF) ++ blank ++ body

/-- The event hands to a dispatcher only what comes from a path that
`is_safe_path` accepts. -/
def dispatches_safe_path (ev : Event) : Prop :=
  (∀ r c, ev = Event.handle_post_request r c → is_safe_path r.path = 1) ∧
  (∀ f m c, ev = Event.send_file_response f m c →
    ∃ path, is_safe_path path = 1 ∧ f = (map_path_to_file path 1024).2)

/-! ## Theorems -/

/-! ### C strings and substring search -/

theorem size_sub_of_le {a b : Nat} (h : b ≤ a) : size_sub a b = a - b := by
  simp [size_sub, h]

theorem to_int_of_lt {n : Nat} (h : n < 2147483648) : to_int n = (n : Int) := by
  simp [to_int, h]

/-- `strstr` fails exactly when the needle does not occur. -/
theorem strstr_eq_none_iff (hay needle : List Nat) :
    strstr hay needle = none ↔ ¬ needle <:+: hay := by
  induction hay with
  | nil =>
    by_cases h : needle = [] <;> simp [strstr, h]
  | cons a t ih =>
    rw [strstr, List.infix_cons_iff]
    by_cases h : needle <+: a :: t
    · simp [h]
    · simp [h, ih]

theorem c_str_initial (b : List Nat) : c_str b <+: b :=
  List.takeWhile_prefix _

theorem c_str_eq_self {b : List Nat} (h : ∀ c ∈ b, c ≠ 0) : c_str b = b := by
  rw [c_str, List.takeWhile_eq_self_iff]
  intro x hx
  simpa using h x hx

/-- No terminator in the bytes means none in the C string they start. -/
theorem strstr_c_str_eq_none {b needle : List Nat} (h : ¬ needle <:+: b) :
    strstr (c_str b) needle = none := by
  rw [strstr_eq_none_iff]
  exact fun hi => h (hi.trans (c_str_initial b).isInfix)

/-- One iteration of the loop that stores a non-empty chunk, finds no terminator
and stays below the size guard goes on with the next `recv` result. -/
theorem read_http_headers_loop_continue (buffer_size total_read : Nat) (buffer bs : List Nat)
    (script : List RecvResult)
    (hlt : total_read < size_sub buffer_size 1)
    (hne : bs.take (size_sub (size_sub buffer_size total_read) 1) ≠ [])
    (hs : strstr (c_str (buffer ++ bs.take (size_sub (size_sub buffer_size total_read) 1)))
      CRLFCRLF = none)
    (hle : total_read + (bs.take (size_sub (size_sub buffer_size total_read) 1)).length
      ≤ MAX_REQUEST_SIZE / 2) :
    read_http_headers_loop buffer_size (.data bs :: script) total_read buffer =
      read_http_headers_loop buffer_size script
        (total_read + (bs.take (size_sub (size_sub buffer_size total_read) 1)).length)
        (buffer ++ bs.take (size_sub (size_sub buffer_size total_read) 1)) := by
  have hpos : 0 < (bs.take (size_sub (size_sub buffer_size total_read) 1)).length :=
    List.length_pos.mpr hne
  have h1 : ¬ (((bs.take (size_sub (size_sub buffer_size total_read) 1)).length : Nat) : Int)
      = HTTP_IO_TIMEOUT := by simp only [HTTP_IO_TIMEOUT]; omega
  have h2 : ¬ (((bs.take (size_sub (size_sub buffer_size total_read) 1)).length : Nat) : Int)
      = HTTP_IO_ERROR := by simp only [HTTP_IO_ERROR]; omega
  have h3 : ¬ (((bs.take (size_sub (size_sub buffer_size total_read) 1)).length : Nat) : Int)
      = 0 := by omega
  have h4 : ¬ (((bs.take (size_sub (size_sub buffer_size total_read) 1)).length : Nat) : Int)
      < 0 := by omega
  have h5 : ¬ (total_read + (bs.take (size_sub (size_sub buffer_size total_read) 1)).length
      > MAX_REQUEST_SIZE / 2) := by omega
  rw [read_http_headers_loop, if_pos hlt]
  simp only [read_with_timeout]
  rw [if_neg h1, if_neg h2, if_neg h3, if_neg h4]
  simp only [Int.toNat_ofNat]
  rw [hs]
  simp only [if_neg h5]

/-- If the loop is still reading after a non-empty script, the first entry was a
non-empty chunk without terminator below the size guard. -/
theorem read_http_headers_loop_cons_none (buffer_size total_read : Nat) (buffer : List Nat)
    (a : RecvResult) (script : List RecvResult)
    (h : read_http_headers_loop buffer_size (a :: script) total_read buffer = none) :
    ∃ bs, a = .data bs ∧ total_read < size_sub buffer_size 1 ∧
      bs.take (size_sub (size_sub buffer_size total_read) 1) ≠ [] ∧
      strstr (c_str (buffer ++ bs.take (size_sub (size_sub buffer_size total_read) 1)))
        CRLFCRLF = none ∧
      total_read + (bs.take (size_sub (size_sub buffer_size total_read) 1)).length
        ≤ MAX_REQUEST_SIZE / 2 ∧
      read_http_headers_loop buffer_size script
        (total_read + (bs.take (size_sub (size_sub buffer_size total_read) 1)).length)
        (buffer ++ bs.take (size_sub (size_sub buffer_size total_read) 1)) = none := by
  rw [read_http_headers_loop] at h
  split at h
  · rename_i hlt
    cases a with
    | data bs =>
      refine ⟨bs, rfl, hlt, ?_⟩
      simp only [read_with_timeout] at h
      split at h
      · simp at h
      split at h
      · simp at h
      split at h
      · simp at h
      split at h
      · simp at h
      rename_i h3 _
      split at h
      · simp at h
      rename_i hs
      split at h
      · simp at h
      rename_i hle
      simp only [Int.toNat_ofNat] at h hle
      refine ⟨?_, hs, by omega, h⟩
      intro hnil
      apply h3
      simp [hnil]
    | eagain => simp [read_with_timeout] at h
    | fail => simp [read_with_timeout, HTTP_IO_ERROR, HTTP_IO_TIMEOUT] at h
  · simp at h

/-- A prefix of the script that leaves the loop reading has delivered at least
one byte per entry, so the running count is zero only for the empty prefix. -/
theorem read_http_headers_loop_append (buffer_size : Nat) (r : RecvResult)
    (hr : r = .eagain ∨ r = .data []) (rest : List RecvResult) :
    ∀ (pre : List RecvResult) (total_read : Nat) (buffer : List Nat),
      read_http_headers_loop buffer_size pre total_read buffer = none →
      (read_http_headers_loop buffer_size (pre ++ r :: rest) total_read buffer).map Prod.fst =
        some (if total_read + (delivered pre).length = 0
          then (if r = .eagain then HTTP_IO_TIMEOUT else HTTP_IO_EOF)
          else (if r = .eagain then HTTP_IO_TIMEOUT_PARTIAL else HTTP_IO_EOF_PARTIAL)) := by
  intro pre
  induction pre with
  | nil =>
    intro total_read buffer h
    simp only [read_http_headers_loop] at h
    split at h
    · rename_i hlt
      rcases hr with rfl | rfl
      · simp [read_http_headers_loop, hlt, read_with_timeout, delivered]
      · simp [read_http_headers_loop, hlt, read_with_timeout, delivered, HTTP_IO_TIMEOUT,
          HTTP_IO_ERROR]
    · simp at h
  | cons a pre ih =>
    intro total_read buffer h
    obtain ⟨bs, rfl, hlt, hne, hs, hle, hrest⟩ :=
      read_http_headers_loop_cons_none buffer_size total_read buffer a pre h
    rw [List.cons_append, read_http_headers_loop_continue _ _ _ _ _ hlt hne hs hle,
      ih _ _ hrest]
    have hpos : 0 < (bs.take (size_sub (size_sub buffer_size total_read) 1)).length :=
      List.length_pos.mpr hne
    have hbs : 0 < bs.length := by
      have := List.length_take (size_sub (size_sub buffer_size total_read) 1) bs
      omega
    have e1 : ¬ (total_read + (bs.take (size_sub (size_sub buffer_size total_read) 1)).length
        + (delivered pre).length = 0) := by omega
    have e2 : ¬ (total_read + (delivered (.data bs :: pre)).length = 0) := by
      simp only [delivered, List.length_append]; omega
    rw [if_neg e1, if_neg e2]

/-- **C1.** In `read_http_headers`, whatever reads came before without ending the
call: a timeout on the next read returns `HTTP_IO_TIMEOUT` if zero bytes have been
accumulated so far and `HTTP_IO_TIMEOUT_PARTIAL` otherwise, and a peer close (a read
of 0 bytes) returns `HTTP_IO_EOF` if zero bytes have been accumulated and
`HTTP_IO_EOF_PARTIAL` otherwise; the reads scripted after it are never performed. -/
theorem read_http_headers_idle_or_midway (buffer_size : Nat) (pre rest : List RecvResult)
    (h : read_http_headers buffer_size pre = none) :
    read_http_headers_rc buffer_size (pre ++ .eagain :: rest) =
        some (if (delivered pre).length = 0 then HTTP_IO_TIMEOUT else HTTP_IO_TIMEOUT_PARTIAL) ∧
    read_http_headers_rc buffer_size (pre ++ .data [] :: rest) =
        some (if (delivered pre).length = 0 then HTTP_IO_EOF else HTTP_IO_EOF_PARTIAL) := by
  have h1 := read_http_headers_loop_append buffer_size .eagain (Or.inl rfl) rest pre 0 [] h
  have h2 := read_http_headers_loop_append buffer_size (.data []) (Or.inr rfl) rest pre 0 [] h
  simp only [Nat.zero_add, if_true] at h1
  simp only [Nat.zero_add, reduceCtorEq, if_false] at h2
  exact ⟨h1, h2⟩

/-- Witness for C1: ten bytes without terminator, then the peer closes (or the
read times out). -/
theorem read_http_headers_idle_or_midway_witness :
    read_http_headers 65536 [.data (bytes "GET / HTTP")] = none ∧
    (delivered [.data (bytes "GET / HTTP")]).length = 10 ∧
    read_http_headers_rc 65536 ([.data (bytes "GET / HTTP")] ++ .eagain :: []) =
        some HTTP_IO_TIMEOUT_PARTIAL ∧
    read_http_headers_rc 65536 ([.data (bytes "GET / HTTP")] ++ .data [] :: []) =
        some HTTP_IO_EOF_PARTIAL :=
  ⟨by decide, by decide,
    (read_http_headers_idle_or_midway 65536 [.data (bytes "GET / HTTP")] [] (by decide)).1,
    (read_http_headers_idle_or_midway 65536 [.data (bytes "GET / HTTP")] [] (by decide)).2⟩

/-- One iteration of the loop that stores a non-empty chunk after which the
buffer holds a terminator returns the new byte count. -/
theorem read_http_headers_loop_found (buffer_size total_read : Nat) (buffer bs : List Nat)
    (script : List RecvResult)
    (hlt : total_read < size_sub buffer_size 1)
    (hne : bs.take (size_sub (size_sub buffer_size total_read) 1) ≠ [])
    (hs : strstr (c_str (buffer ++ bs.take (size_sub (size_sub buffer_size total_read) 1)))
      CRLFCRLF ≠ none) :
    read_http_headers_loop buffer_size (.data bs :: script) total_read buffer =
      some (to_int (total_read +
          (bs.take (size_sub (size_sub buffer_size total_read) 1)).length),
        buffer ++ bs.take (size_sub (size_sub buffer_size total_read) 1)) := by
  have hpos : 0 < (bs.take (size_sub (size_sub buffer_size total_read) 1)).length :=
    List.length_pos.mpr hne
  have h1 : ¬ (((bs.take (size_sub (size_sub buffer_size total_read) 1)).length : Nat) : Int)
      = HTTP_IO_TIMEOUT := by simp only [HTTP_IO_TIMEOUT]; omega
  have h2 : ¬ (((bs.take (size_sub (size_sub buffer_size total_read) 1)).length : Nat) : Int)
      = HTTP_IO_ERROR := by simp only [HTTP_IO_ERROR]; omega
  have h3 : ¬ (((bs.take (size_sub (size_sub buffer_size total_read) 1)).length : Nat) : Int)
      = 0 := by omega
  have h4 : ¬ (((bs.take (size_sub (size_sub buffer_size total_read) 1)).length : Nat) : Int)
      < 0 := by omega
  obtain ⟨i, hi⟩ := Option.ne_none_iff_exists'.mp hs
  rw [read_http_headers_loop, if_pos hlt]
  simp only [read_with_timeout]
  rw [if_neg h1, if_neg h2, if_neg h3, if_neg h4]
  simp only [Int.toNat_ofNat]
  rw [hi]

/-- One iteration of the loop that stores a non-empty chunk, finds no terminator
and is past the size guard returns `HTTP_HEADERS_TOO_LARGE`. -/
theorem read_http_headers_loop_guard (buffer_size total_read : Nat) (buffer bs : List Nat)
    (script : List RecvResult)
    (hlt : total_read < size_sub buffer_size 1)
    (hne : bs.take (size_sub (size_sub buffer_size total_read) 1) ≠ [])
    (hs : strstr (c_str (buffer ++ bs.take (size_sub (size_sub buffer_size total_read) 1)))
      CRLFCRLF = none)
    (hgt : total_read + (bs.take (size_sub (size_sub buffer_size total_read) 1)).length
      > MAX_REQUEST_SIZE / 2) :
    read_http_headers_loop buffer_size (.data bs :: script) total_read buffer =
      some (HTTP_HEADERS_TOO_LARGE,
        buffer ++ bs.take (size_sub (size_sub buffer_size total_read) 1)) := by
  have hpos : 0 < (bs.take (size_sub (size_sub buffer_size total_read) 1)).length :=
    List.length_pos.mpr hne
  have h1 : ¬ (((bs.take (size_sub (size_sub buffer_size total_read) 1)).length : Nat) : Int)
      = HTTP_IO_TIMEOUT := by simp only [HTTP_IO_TIMEOUT]; omega
  have h2 : ¬ (((bs.take (size_sub (size_sub buffer_size total_read) 1)).length : Nat) : Int)
      = HTTP_IO_ERROR := by simp only [HTTP_IO_ERROR]; omega
  have h3 : ¬ (((bs.take (size_sub (size_sub buffer_size total_read) 1)).length : Nat) : Int)
      = 0 := by omega
  have h4 : ¬ (((bs.take (size_sub (size_sub buffer_size total_read) 1)).length : Nat) : Int)
      < 0 := by omega
  rw [read_http_headers_loop, if_pos hlt]
  simp only [read_with_timeout]
  rw [if_neg h1, if_neg h2, if_neg h3, if_neg h4]
  simp only [Int.toNat_ofNat]
  rw [hs]
  simp only [if_pos hgt]

/-- The request size passed by the session for a count within the buffer. -/
theorem request_size_eq (total_read : Nat) (h : total_read ≤ 65535) :
    size_sub (size_sub 65536 total_read) 1 = 65535 - total_read := by
  rw [size_sub_of_le (show total_read ≤ 65536 by omega),
    size_sub_of_le (show 1 ≤ 65536 - total_read by omega)]
  omega

/-- The size guard of the header framer, stated for the loop at any count. -/
theorem read_http_headers_loop_too_large (bs : List Nat) (rest : List RecvResult) :
    ∀ (pre : List RecvResult) (total_read : Nat) (buffer : List Nat),
      (∀ r ∈ pre, ∃ c, r = .data c ∧ c ≠ []) →
      total_read + (delivered pre).length ≤ 32768 →
      32768 < total_read + (delivered pre).length + bs.length →
      ¬ CRLFCRLF <:+: (buffer ++ delivered pre ++ bs) →
      (read_http_headers_loop 65536 (pre ++ .data bs :: rest) total_read buffer).map Prod.fst =
        some HTTP_HEADERS_TOO_LARGE := by
  intro pre
  induction pre with
  | nil =>
    intro total_read buffer _ hle hgt hterm
    simp only [delivered, List.length_nil, Nat.add_zero, List.append_nil] at hle hgt hterm
    have hsz := request_size_eq total_read (by omega)
    have hlt : total_read < size_sub 65536 1 := by rw [size_sub_of_le (by omega)]; omega
    have hlen : (bs.take (size_sub (size_sub 65536 total_read) 1)).length =
        min (65535 - total_read) bs.length := by rw [hsz, List.length_take]
    have hne : bs.take (size_sub (size_sub 65536 total_read) 1) ≠ [] := by
      intro h0
      rw [h0] at hlen
      simp only [List.length_nil] at hlen
      omega
    have hs : strstr (c_str (buffer ++ bs.take (size_sub (size_sub 65536 total_read) 1)))
        CRLFCRLF = none := by
      apply strstr_c_str_eq_none
      intro hi
      apply hterm
      exact hi.trans ((List.prefix_append_right_inj buffer).mpr (List.take_prefix _ bs)).isInfix
    rw [List.nil_append, read_http_headers_loop_guard _ _ _ _ _ hlt hne hs
      (by rw [hlen]; simp only [MAX_REQUEST_SIZE]; omega)]
    rfl
  | cons a pre ih =>
    intro total_read buffer hpre hle hgt hterm
    obtain ⟨c, rfl, hc⟩ := hpre a (List.mem_cons_self _ _)
    simp only [delivered, List.length_append] at hle hgt
    have hcpos : 0 < c.length := List.length_pos.mpr hc
    have hsz := request_size_eq total_read (by omega)
    have hlt : total_read < size_sub 65536 1 := by rw [size_sub_of_le (by omega)]; omega
    have htake : c.take (size_sub (size_sub 65536 total_read) 1) = c := by
      rw [hsz]; exact List.take_of_length_le (by omega)
    have happ : buffer ++ delivered (.data c :: pre) ++ bs = (buffer ++ c) ++ delivered pre ++ bs := by
      simp [delivered, List.append_assoc]
    have hs : strstr (c_str (buffer ++ c)) CRLFCRLF = none := by
      apply strstr_c_str_eq_none
      intro hi
      apply hterm
      rw [happ, List.append_assoc]
      exact hi.trans (List.prefix_append _ _).isInfix
    have hstep := read_http_headers_loop_continue 65536 total_read buffer c
      (pre ++ .data bs :: rest) hlt (by rw [htake]; exact hc) (by rw [htake]; exact hs)
      (by rw [htake]; simp only [MAX_REQUEST_SIZE]; omega)
    rw [htake] at hstep
    rw [List.cons_append, hstep]
    apply ih
    · intro r hr
      exact hpre r (List.mem_cons_of_mem _ hr)
    · omega
    · omega
    · rw [← happ]; exact hterm

/-- **C2 (amended).** For every sequence of successful reads: at the first read
after which the accumulated byte count exceeds 32768, `read_http_headers` returns
`HTTP_HEADERS_TOO_LARGE` provided the bytes accumulated through that read contain no
`\r\n\r\n`; nothing scripted after that read is consumed, so no success or later
result is possible. -/
theorem read_http_headers_too_large (pre : List RecvResult) (bs : List Nat)
    (rest : List RecvResult)
    (hpre : ∀ r ∈ pre, ∃ c, r = .data c ∧ c ≠ [])
    (hbelow : (delivered pre).length ≤ 32768)
    (hcross : 32768 < (delivered pre).length + bs.length)
    (hterm : ¬ CRLFCRLF <:+: (delivered pre ++ bs)) :
    read_http_headers_rc 65536 (pre ++ .data bs :: rest) = some HTTP_HEADERS_TOO_LARGE := by
  have h := read_http_headers_loop_too_large bs rest pre 0 [] hpre (by omega) (by omega)
    (by simpa using hterm)
  exact h

/-- A run of the byte `a` holds no `\r`. -/
theorem cr_not_mem_replicate (n : Nat) : (13 : Nat) ∉ List.replicate n 97 := by
  intro hm
  have := List.eq_of_mem_replicate hm
  omega

/-- What a single run of `n` bytes `a` delivers. -/
theorem delivered_run (n : Nat) :
    (delivered [.data (List.replicate n 97)]).length = n ∧
    (13 : Nat) ∉ delivered [.data (List.replicate n 97)] ++ [97] ∧
    (0 < n → ∀ r ∈ [RecvResult.data (List.replicate n 97)], ∃ c, r = .data c ∧ c ≠ []) := by
  refine ⟨by simp [delivered], ?_, ?_⟩
  · intro hm
    simp only [delivered, List.append_nil, List.mem_append, List.mem_singleton] at hm
    rcases hm with hm | hm
    · exact cr_not_mem_replicate _ hm
    · omega
  · intro hn r hr
    rw [List.mem_singleton] at hr
    refine ⟨_, hr, ?_⟩
    intro h0
    have := congrArg List.length h0
    rw [List.length_replicate] at this
    simp only [List.length_nil] at this
    omega

/-- Witness for C2 (amended): 32768 bytes `a` in a first read, one more in a second. -/
theorem read_http_headers_too_large_witness :
    read_http_headers_rc 65536
      ([.data (List.replicate 32768 97)] ++ .data [97] :: [.data (bytes "\r\n\r\n")]) =
      some HTTP_HEADERS_TOO_LARGE :=
  read_http_headers_too_large [.data (List.replicate 32768 97)] [97]
    [.data (bytes "\r\n\r\n")]
    ((delivered_run 32768).2.2 (by decide))
    (Nat.le_of_eq (delivered_run 32768).1)
    (by rw [(delivered_run 32768).1]; decide)
    (fun hi => (delivered_run 32768).2.1 (hi.subset (List.mem_cons_self _ _)))

/-- **C2 (counterexample).** One read of 32772 bytes whose first 32768 bytes are `a`
and whose last four are `\r\n\r\n`: the first 32768 bytes hold no terminator and
the count exceeds 32768 after this read, yet the call succeeds with 32772. -/
theorem read_http_headers_too_large_counterexample :
    ¬ CRLFCRLF <:+: (List.replicate 32768 97 ++ CRLFCRLF).take 32768 ∧
    32768 < (List.replicate 32768 97 ++ CRLFCRLF).length ∧
    read_http_headers_rc 65536 [.data (List.replicate 32768 97 ++ CRLFCRLF)] = some 32772 ∧
    read_http_headers_rc 65536 [.data (List.replicate 32768 97 ++ CRLFCRLF)] ≠
      some HTTP_HEADERS_TOO_LARGE := by
  have hl : (List.replicate 32768 97).length = 32768 := List.length_replicate _ _
  have htake : (List.replicate 32768 97 ++ CRLFCRLF).take 32768 = List.replicate 32768 97 := by
    rw [List.take_append_of_le_length (Nat.le_of_eq hl.symm)]
    exact List.take_of_length_le (Nat.le_of_eq hl)
  have hlen : (List.replicate 32768 97 ++ CRLFCRLF).length = 32772 := by
    rw [List.length_append, hl]; rfl
  have hrc : read_http_headers_rc 65536 [.data (List.replicate 32768 97 ++ CRLFCRLF)] =
      some 32772 := by
    have hsz := request_size_eq 0 (by omega)
    have hfull : (List.replicate 32768 97 ++ CRLFCRLF).take (size_sub (size_sub 65536 0) 1) =
        List.replicate 32768 97 ++ CRLFCRLF := by
      rw [hsz]; exact List.take_of_length_le (by rw [hlen]; omega)
    have hfound := read_http_headers_loop_found 65536 0 [] (List.replicate 32768 97 ++ CRLFCRLF) []
      (by rw [size_sub_of_le (by omega)]; omega)
      (by
        rw [hfull]
        intro h0
        have := congrArg List.length h0
        rw [hlen] at this
        exact absurd this (by decide))
      (by
        rw [hfull, List.nil_append, c_str_eq_self, Ne, strstr_eq_none_iff, not_not]
        · exact (List.suffix_append _ _).isInfix
        · intro c hc
          rw [List.mem_append] at hc
          rcases hc with hc | hc
          · rw [List.eq_of_mem_replicate hc]; omega
          · simp only [CRLFCRLF, List.mem_cons, List.mem_singleton, List.not_mem_nil,
              or_false] at hc
            omega)
    rw [hfull, hlen] at hfound
    rw [read_http_headers_rc, read_http_headers, hfound]
    rfl
  refine ⟨?_, by rw [hlen]; omega, hrc, ?_⟩
  · rw [htake]
    intro hi
    exact cr_not_mem_replicate _ (hi.subset (List.mem_cons_self _ _))
  · rw [hrc]
    intro h
    exact absurd (Option.some.inj h) (by decide)

/-! ### `sscanf` conversions -/

theorem all_space_iff {s : List Nat} : all_space s = true ↔ ∀ c ∈ s, isspace c = true := by
  simp [all_space]

theorem is_gap_iff {s : List Nat} :
    is_gap s = true ↔ s ≠ [] ∧ ∀ c ∈ s, isspace c = true := by
  cases s <;> simp [is_gap]

theorem is_token_iff {s : List Nat} :
    is_token s = true ↔ s ≠ [] ∧ ∀ c ∈ s, isspace c = false := by
  cases s <;> simp [is_token]

theorem starts_with_space_gap_append {g : List Nat} (hg : is_gap g = true) (s : List Nat) :
    starts_with_space (g ++ s) = true := by
  cases g with
  | nil => simp [is_gap] at hg
  | cons c g =>
    simp only [is_gap, List.all_cons, Bool.and_eq_true] at hg
    simpa [starts_with_space] using hg.2.1

theorem all_space_of_gap {g : List Nat} (hg : is_gap g = true) : all_space g = true :=
  all_space_iff.mpr (is_gap_iff.mp hg).2

/-- Leading white space is skipped up to the first byte of a field. -/
theorem dropWhile_space_append (g tok rest : List Nat) (hg : all_space g = true)
    (ht : is_token tok = true) :
    (g ++ (tok ++ rest)).dropWhile isspace = tok ++ rest := by
  induction g with
  | nil =>
    cases tok with
    | nil => simp [is_token] at ht
    | cons c tok =>
      simp only [is_token, List.all_cons, Bool.and_eq_true, Bool.not_eq_true'] at ht
      simp [List.dropWhile, ht.2.1]
  | cons c g ih =>
    simp only [all_space, List.all_cons, Bool.and_eq_true] at hg
    have hg2 : all_space g = true := hg.2
    simp [List.dropWhile, hg.1, ih hg2]

/-- A field is read up to the white space that follows it. -/
theorem takeWhile_token_append (tok rest : List Nat)
    (ht : ∀ c ∈ tok, isspace c = false) (hr : starts_with_space rest = true) :
    (tok ++ rest).takeWhile (fun c => !isspace c) = tok := by
  induction tok with
  | nil =>
    cases rest with
    | nil => rfl
    | cons c rest =>
      simp only [starts_with_space] at hr
      simp [List.takeWhile, hr]
  | cons c tok ih =>
    have hc : isspace c = false := ht c (List.mem_cons_self _ _)
    have ih2 := ih (fun d hd => ht d (List.mem_cons_of_mem _ hd))
    simp [List.takeWhile, hc, ih2]

theorem drop_take_length_append (w : Nat) (tok rest : List Nat) :
    (tok ++ rest).drop (tok.take w).length = tok.drop w ++ rest := by
  rw [List.length_take, List.drop_append_eq_append_drop]
  by_cases h : w ≤ tok.length
  · rw [Nat.min_eq_left h, Nat.sub_eq_zero_of_le h, List.drop_zero]
  · have h2 : tok.length ≤ w := by omega
    rw [Nat.min_eq_right h2, Nat.sub_self, List.drop_zero, List.drop_length,
      List.drop_eq_nil_of_le h2]

/-- One `%s` conversion on white space, a field, and what follows the field:
the field is stored up to the width and the rest of it is left unread. -/
theorem scan_s_token (w : Nat) (g tok rest : List Nat) (hw : 0 < w)
    (hg : all_space g = true) (ht : is_token tok = true)
    (hr : starts_with_space rest = true) :
    scan_s w (g ++ (tok ++ rest)) = some (tok.take w, tok.drop w ++ rest) := by
  have ht2 := is_token_iff.mp ht
  have hne : tok.take w ≠ [] := by
    intro h0
    have := congrArg List.length h0
    rw [List.length_take] at this
    have := List.length_pos.mpr ht2.1
    simp only [List.length_nil] at *
    omega
  simp only [scan_s, dropWhile_space_append g tok rest hg ht,
    takeWhile_token_append tok rest ht2.2 hr, if_neg hne, drop_take_length_append]

/-- One `%s` conversion on white space alone is an input failure. -/
theorem scan_s_space (w : Nat) (g : List Nat) (hg : all_space g = true) :
    scan_s w g = none := by
  have h : g.dropWhile isspace = [] := by
    rw [List.dropWhile_eq_nil_iff]
    exact all_space_iff.mp hg
  simp [scan_s, h]

/-! ### `sscanf` on whole request lines -/

theorem is_token_drop {t : List Nat} (ht : is_token t = true) {n : Nat} (h : n < t.length) :
    is_token (t.drop n) = true := by
  rw [is_token_iff] at ht ⊢
  refine ⟨?_, fun c hc => ht.2 c (List.mem_of_mem_drop hc)⟩
  intro h0
  have := congrArg List.length h0
  rw [List.length_drop] at this
  simp only [List.length_nil] at this
  omega

/-- Three fields, the first at most 15 bytes long: three conversions; the target
is cut at 2047 bytes and, when it was cut, its remainder is stored as version. -/
theorem sscanf_request_line_three (g0 m g1 t g2 v tail : List Nat)
    (hg0 : all_space g0 = true) (hm : is_token m = true) (hml : m.length ≤ 15)
    (hg1 : is_gap g1 = true) (ht : is_token t = true) (hg2 : is_gap g2 = true)
    (hv : is_token v = true) (htail : starts_with_space tail = true) :
    sscanf_request_line (g0 ++ (m ++ (g1 ++ (t ++ (g2 ++ (v ++ tail)))))) =
      (3, m, t.take 2047,
        if t.length ≤ 2047 then v.take 15 else (t.drop 2047).take 15) := by
  have h1 := scan_s_token 15 g0 m (g1 ++ (t ++ (g2 ++ (v ++ tail)))) (by omega) hg0 hm
    (starts_with_space_gap_append hg1 _)
  rw [List.take_of_length_le hml, List.drop_eq_nil_of_le hml, List.nil_append] at h1
  have h2 := scan_s_token 2047 g1 t (g2 ++ (v ++ tail)) (by omega) (all_space_of_gap hg1) ht
    (starts_with_space_gap_append hg2 _)
  by_cases hl : t.length ≤ 2047
  · have h3 := scan_s_token 15 g2 v tail (by omega) (all_space_of_gap hg2) hv htail
    rw [List.drop_eq_nil_of_le hl, List.nil_append] at h2
    simp only [sscanf_request_line, h1, h2, h3, if_pos hl]
  · have h3 := scan_s_token 15 [] (t.drop 2047) (g2 ++ (v ++ tail)) (by omega) rfl
      (is_token_drop ht (by omega)) (starts_with_space_gap_append hg2 _)
    rw [List.nil_append] at h3
    simp only [sscanf_request_line, h1, h2, h3, if_neg hl]

/-- Two fields within the widths: two conversions. -/
theorem sscanf_request_line_two (g0 m g1 t tail : List Nat)
    (hg0 : all_space g0 = true) (hm : is_token m = true) (hml : m.length ≤ 15)
    (hg1 : is_gap g1 = true) (ht : is_token t = true) (htl : t.length ≤ 2047)
    (htail : all_space tail = true) :
    (sscanf_request_line (g0 ++ (m ++ (g1 ++ (t ++ tail))))).1 = 2 := by
  have hst : starts_with_space tail = true := by
    cases tail with
    | nil => rfl
    | cons c tail =>
      simp only [all_space, List.all_cons, Bool.and_eq_true] at htail
      simpa [starts_with_space] using htail.1
  have h1 := scan_s_token 15 g0 m (g1 ++ (t ++ tail)) (by omega) hg0 hm
    (starts_with_space_gap_append hg1 _)
  rw [List.take_of_length_le hml, List.drop_eq_nil_of_le hml, List.nil_append] at h1
  have h2 := scan_s_token 2047 g1 t tail (by omega) (all_space_of_gap hg1) ht hst
  rw [List.drop_eq_nil_of_le htl, List.nil_append] at h2
  simp only [sscanf_request_line, h1, h2, scan_s_space 15 tail htail]

/-- One field within the width: one conversion. -/
theorem sscanf_request_line_one (g0 m tail : List Nat)
    (hg0 : all_space g0 = true) (hm : is_token m = true) (hml : m.length ≤ 15)
    (htail : all_space tail = true) :
    (sscanf_request_line (g0 ++ (m ++ tail))).1 = 1 := by
  have hst : starts_with_space tail = true := by
    cases tail with
    | nil => rfl
    | cons c tail =>
      simp only [all_space, List.all_cons, Bool.and_eq_true] at htail
      simpa [starts_with_space] using htail.1
  have h1 := scan_s_token 15 g0 m tail (by omega) hg0 hm hst
  rw [List.take_of_length_le hml, List.drop_eq_nil_of_le hml, List.nil_append] at h1
  simp only [sscanf_request_line, h1, scan_s_space 2047 tail htail]

/-- No field at all: `EOF`. -/
theorem sscanf_request_line_none (g0 : List Nat) (hg0 : all_space g0 = true) :
    (sscanf_request_line g0).1 = -1 := by
  simp only [sscanf_request_line, scan_s_space 15 g0 hg0]

/-! ### The path/query split -/

theorem strchr_lt_length {s : List Nat} {c i : Nat} (h : strchr s c = some i) :
    i < s.length := by
  induction s generalizing i with
  | nil => simp [strchr] at h
  | cons a s ih =>
    rw [strchr] at h
    split at h
    · simp only [Option.some.injEq] at h
      simp only [List.length_cons]
      omega
    · cases hs : strchr s c with
      | none => simp [hs] at h
      | some j =>
        simp only [hs, Option.map_some', Option.some.injEq] at h
        have := ih hs
        simp only [List.length_cons]
        omega

theorem strchr_take {s : List Nat} {c n i : Nat} (h : strchr (s.take n) c = some i) :
    strchr s c = some i := by
  induction s generalizing n i with
  | nil => simp [strchr] at h
  | cons a s ih =>
    cases n with
    | zero => simp [strchr] at h
    | succ n =>
      rw [List.take_succ_cons, strchr] at h
      rw [strchr]
      split at h
      · rename_i hac
        simpa [hac] using h
      · rename_i hac
        rw [if_neg hac]
        cases hs : strchr (s.take n) c with
        | none => simp [hs] at h
        | some j =>
          simp only [hs, Option.map_some', Option.some.injEq] at h
          rw [ih hs, Option.map_some', h]

theorem strchr_append_of_not_mem (p q : List Nat) (c : Nat) (hp : c ∉ p) :
    strchr (p ++ c :: q) c = some p.length := by
  induction p with
  | nil => simp [strchr]
  | cons a p ih =>
    have hac : a ≠ c := fun h => hp (h ▸ List.mem_cons_self _ _)
    have hp2 : c ∉ p := fun h => hp (List.mem_cons_of_mem _ h)
    simp [strchr, hac, ih hp2]

theorem strchr_eq_none_of_not_mem (s : List Nat) (c : Nat) (hs : c ∉ s) :
    strchr s c = none := by
  induction s with
  | nil => rfl
  | cons a s ih =>
    have hac : a ≠ c := fun h => hs (h ▸ List.mem_cons_self _ _)
    have hs2 : c ∉ s := fun h => hs (List.mem_cons_of_mem _ h)
    simp [strchr, hac, ih hs2]

/-- A target within the limits is still within them after the cut at 2047 bytes. -/
theorem target_within_limits_take {t : List Nat} (h : target_within_limits t = true) :
    target_within_limits (t.take 2047) = true := by
  unfold target_within_limits
  cases hs : strchr (t.take 2047) 63 with
  | none =>
    simp only [decide_eq_true_eq, MAX_PATH, List.length_take]
    omega
  | some i =>
    have hlt := strchr_lt_length hs
    have hst := strchr_take hs
    simp only [target_within_limits, hst, Bool.and_eq_true, decide_eq_true_eq] at h
    simp only [Bool.and_eq_true, decide_eq_true_eq, MAX_PATH, MAX_QUERY, List.length_drop,
      List.length_take] at h hlt ⊢
    omega

/-- With three conversions and a target within the limits, `parse_request_line`
reaches the checks on method and version, the query already stored. -/
theorem parse_request_line_of_sscanf (line m fp ver : List Nat) (req : http_request)
    (hsc : sscanf_request_line line = (3, m, fp, ver))
    (huri : target_within_limits fp = true) :
    parse_request_line line req =
      parse_request_line_checks m fp ver (target_path fp).length
        { req with
          path := if (strchr fp 63).isSome then req.path.take (target_path fp).length
            else req.path,
          query := target_query fp } := by
  unfold target_within_limits at huri
  simp only [parse_request_line, hsc, target_path, target_query]
  cases hs : strchr fp 63 with
  | none =>
    simp only [hs, decide_eq_true_eq] at huri
    have h1 : ¬ fp.length ≥ MAX_PATH := by omega
    simp only [ne_eq, not_true_eq_false, if_false, if_neg h1, Option.isSome_none,
      Bool.false_eq_true]
  | some i =>
    simp only [hs, Bool.and_eq_true, decide_eq_true_eq] at huri
    have hi := strchr_lt_length hs
    have h1 : ¬ (i ≥ MAX_PATH ∨ (fp.drop (i + 1)).length ≥ MAX_QUERY) := by omega
    have h2 : (fp.take i).length = i := by rw [List.length_take]; omega
    simp only [ne_eq, not_true_eq_false, if_false, if_neg h1, h2, Option.isSome_some, if_true]

/-! ### The checks on method and version -/

theorem allowed_methods_cases {m : List Nat} (hm : m ∈ allowed_methods) :
    m = bytes "GET" ∨ m = bytes "POST" ∨ m = bytes "HEAD" := by
  simpa [allowed_methods] using hm

/-- What the checks see of a method from the allow-list. -/
theorem allowed_method_facts {m : List Nat} (hm : m ∈ allowed_methods) :
    m.length ≤ 4 ∧ is_token m = true ∧ is_method_allowed m = 1 ∧
      m.any (fun c => decide (c < 65) || decide (c > 90)) = false := by
  rcases allowed_methods_cases hm with rfl | rfl | rfl <;> decide

theorem is_method_allowed_of_not_mem {m : List Nat} (hm : m ∉ allowed_methods) :
    is_method_allowed m = 0 := by
  have h : allowed_methods.any (fun a => decide (m = a)) = false := by
    rw [List.any_eq_false]
    intro a ha
    simp only [decide_eq_true_eq]
    intro h
    exact hm (h ▸ ha)
  simp [is_method_allowed, h]

theorem strncmp_eq_http_iff (v : List Nat) :
    strncmp_eq v (bytes "HTTP/") 5 = true ↔ bytes "HTTP/" <+: v := by
  have h5 : (bytes "HTTP/").take 5 = bytes "HTTP/" := by decide
  have hl : (bytes "HTTP/").length = 5 := by decide
  simp only [strncmp_eq, decide_eq_true_eq, h5]
  constructor
  · intro h
    rw [← h]
    exact List.take_prefix _ _
  · rintro ⟨r, rfl⟩
    rw [List.take_append_of_le_length (by omega), List.take_of_length_le (by omega)]

theorem target_path_take (t : List Nat) : t.take (target_path t).length = target_path t := by
  unfold target_path
  cases hs : strchr t 63 with
  | none => simp
  | some i =>
    have := strchr_lt_length hs
    simp only [List.length_take]
    rw [Nat.min_eq_left (by omega)]

/-- Three fields within the widths, an allowed method and a target within the
limits: the result is decided by the `HTTP/` test on the version alone. -/
theorem parse_request_line_well_formed (g0 m g1 t g2 v tail : List Nat) (req : http_request)
    (hg0 : all_space g0 = true) (hm : m ∈ allowed_methods)
    (hg1 : is_gap g1 = true) (ht : is_token t = true) (htl : t.length ≤ 2047)
    (hlim : target_within_limits t = true) (hg2 : is_gap g2 = true)
    (hv : is_token v = true) (hvl : v.length < 16)
    (htail : starts_with_space tail = true) :
    parse_request_line (g0 ++ (m ++ (g1 ++ (t ++ (g2 ++ (v ++ tail)))))) req =
      if bytes "HTTP/" <+: v then
        (1, { req with method := m, path := target_path t, query := target_query t,
                       version := v })
      else
        (0, { req with
              path := if (strchr t 63).isSome then req.path.take (target_path t).length
                else req.path,
              query := target_query t }) := by
  obtain ⟨hm4, hmt, hma, hmu⟩ := allowed_method_facts hm
  have hsc := sscanf_request_line_three g0 m g1 t g2 v tail hg0 hmt (by omega) hg1 ht hg2 hv
    htail
  rw [if_pos htl, List.take_of_length_le htl, List.take_of_length_le (by omega)] at hsc
  rw [parse_request_line_of_sscanf _ m t v req hsc hlim]
  have h1 : ¬ (m.length ≥ MAX_METHOD ∨ v.length ≥ MAX_VERSION) := by
    simp only [MAX_METHOD, MAX_VERSION]; omega
  have h2 : ¬ is_method_allowed m = 0 := by rw [hma]; decide
  simp only [parse_request_line_checks, if_neg h1, if_neg h2, hmu, Bool.false_eq_true,
    if_false, target_path_take]
  by_cases hp : bytes "HTTP/" <+: v
  · have h3 := (strncmp_eq_http_iff v).mpr hp
    simp only [h3, Bool.not_true, Bool.false_eq_true, if_false, if_pos hp]
  · have h3 : strncmp_eq v (bytes "HTTP/") 5 = false := by
      rw [← Bool.not_eq_true, strncmp_eq_http_iff]; exact hp
    simp only [h3, Bool.not_false, if_true, if_neg hp]

/-- **C5.** For every request line of three fields (whatever white space
surrounds them) whose request-target is within the length limits and whose method
token, shorter than 16 bytes, is not exactly one of `GET`, `POST`, `HEAD`,
`parse_request_line` returns `HTTP_METHOD_NOT_ALLOWED`, whatever characters the
token is made of. -/
theorem parse_request_line_method_not_allowed (g0 m g1 t g2 v tail : List Nat)
    (req : http_request)
    (hg0 : all_space g0 = true) (hm : is_token m = true) (hml : m.length < 16)
    (hna : m ∉ allowed_methods)
    (hg1 : is_gap g1 = true) (ht : is_token t = true)
    (hlim : target_within_limits t = true) (hg2 : is_gap g2 = true)
    (hv : is_token v = true) (htail : all_space tail = true) :
    (parse_request_line (g0 ++ m ++ g1 ++ t ++ g2 ++ v ++ tail) req).1 =
      HTTP_METHOD_NOT_ALLOWED := by
  have hst : starts_with_space tail = true := by
    cases tail with
    | nil => rfl
    | cons c tail =>
      simp only [all_space, List.all_cons, Bool.and_eq_true] at htail
      simpa [starts_with_space] using htail.1
  have hsc := sscanf_request_line_three g0 m g1 t g2 v tail hg0 hm (by omega) hg1 ht hg2 hv hst
  simp only [List.append_assoc]
  rw [parse_request_line_of_sscanf _ m (t.take 2047) _ req hsc (target_within_limits_take hlim)]
  have hver : (if t.length ≤ 2047 then v.take 15 else (t.drop 2047).take 15).length ≤ 15 := by
    split <;> simp only [List.length_take] <;> omega
  have h1 : ¬ (m.length ≥ MAX_METHOD ∨
      (if t.length ≤ 2047 then v.take 15 else (t.drop 2047).take 15).length ≥ MAX_VERSION) := by
    simp only [MAX_METHOD, MAX_VERSION]; omega
  simp only [parse_request_line_checks, if_neg h1, is_method_allowed_of_not_mem hna, if_true]

/-- Witness for C5: `PUT /x HTTP/1.1`. -/
theorem parse_request_line_method_not_allowed_witness :
    (parse_request_line
      ([] ++ bytes "PUT" ++ bytes " " ++ bytes "/x" ++ bytes " " ++ bytes "HTTP/1.1" ++ [])
      {}).1 = HTTP_METHOD_NOT_ALLOWED :=
  parse_request_line_method_not_allowed [] (bytes "PUT") (bytes " ") (bytes "/x") (bytes " ")
    (bytes "HTTP/1.1") [] {} (by decide) (by decide) (by decide) (by decide) (by decide)
    (by decide) (by decide) (by decide) (by decide) (by decide)

theorem token_of_bytes {s : List Nat} (hne : s ≠ [])
    (hs : ∀ c ∈ s, isspace c = false) : is_token s = true :=
  is_token_iff.mpr ⟨hne, hs⟩

/-- The shape of a target `p?q`. -/
theorem target_with_query (p q : List Nat) (hp : ∀ c ∈ p, isspace c = false ∧ c ≠ 63)
    (hq : ∀ c ∈ q, isspace c = false) :
    is_token (p ++ 63 :: q) = true ∧ strchr (p ++ 63 :: q) 63 = some p.length ∧
      target_path (p ++ 63 :: q) = p ∧ target_query (p ++ 63 :: q) = q := by
  have hs : strchr (p ++ 63 :: q) 63 = some p.length :=
    strchr_append_of_not_mem p q 63 (fun h => (hp 63 h).2 rfl)
  refine ⟨?_, hs, ?_, ?_⟩
  · apply token_of_bytes (by simp)
    intro c hc
    rw [List.mem_append, List.mem_cons] at hc
    rcases hc with hc | rfl | hc
    · exact (hp c hc).1
    · decide
    · exact hq c hc
  · simp only [target_path, hs, List.take_left']
  · simp only [target_query, hs]
    have e : p ++ 63 :: q = (p ++ [63]) ++ q := by simp
    rw [e]
    exact List.drop_left' (by simp)

/-- While the whole request-target `p?q` fits the `%2047s` conversion, a request
line made of a method in {`GET`, `POST`, `HEAD`}, one space, the target with a
part `q` shorter than 1024 bytes, one space, and a version token shorter than 16
bytes that starts with `HTTP/` is accepted, with method, path `p`, query `q` and
version stored. -/
theorem parse_request_line_splits_short_target (m p q v : List Nat) (req : http_request)
    (hm : m ∈ allowed_methods)
    (hp : ∀ c ∈ p, isspace c = false ∧ c ≠ 63) (hq : ∀ c ∈ q, isspace c = false)
    (htot : (p ++ 63 :: q).length ≤ 2047) (hql : q.length < 1024)
    (hv : is_token v = true) (hvl : v.length < 16) (hvp : bytes "HTTP/" <+: v) :
    parse_request_line (m ++ [32] ++ (p ++ 63 :: q) ++ [32] ++ v) req =
      (1, { req with method := m, path := p, query := q, version := v }) := by
  obtain ⟨htok, hs, hpath, hquery⟩ := target_with_query p q hp hq
  have hlim : target_within_limits (p ++ 63 :: q) = true := by
    have hq2 : (List.drop (p.length + 1) (p ++ 63 :: q)) = q := by
      have := hquery
      simpa only [target_query, hs] using this
    simp only [List.length_append, List.length_cons] at htot
    simp only [target_within_limits, hs, hq2, Bool.and_eq_true, decide_eq_true_eq, MAX_PATH,
      MAX_QUERY]
    omega
  have h := parse_request_line_well_formed [] m [32] (p ++ 63 :: q) [32] v [] req rfl hm
    (by decide) htok htot hlim (by decide) hv hvl rfl
  rw [if_pos hvp, hpath, hquery] at h
  have e : m ++ [32] ++ (p ++ 63 :: q) ++ [32] ++ v =
      [] ++ (m ++ ([32] ++ (p ++ 63 :: q ++ ([32] ++ (v ++ []))))) := by simp
  rw [e, h]

/-- The request line `GET /a?b=1 HTTP/1.1` gives path `/a` and query `b=1`. -/
theorem parse_request_line_splits_query_short :
    parse_request_line (bytes "GET" ++ [32] ++ (bytes "/a" ++ 63 :: bytes "b=1") ++ [32] ++
        bytes "HTTP/1.1") {} =
      (1, { method := bytes "GET", path := bytes "/a", query := bytes "b=1",
            version := bytes "HTTP/1.1" }) :=
  parse_request_line_splits_short_target (bytes "GET") (bytes "/a") (bytes "b=1") (bytes "HTTP/1.1")
    {} (by decide) (by decide) (by decide) (by decide) (by decide) (by decide) (by decide)
    (by decide)

/-- A request-target longer than 2047 bytes is cut after 2047 bytes by the
`%2047s` conversion and its remainder is stored as version; with an allowed
method, no `?` in the first 2047 bytes and no `H` in the remainder, the call
returns 0. -/
theorem parse_request_line_cut_target (m a b v : List Nat) (req : http_request)
    (hm : m ∈ allowed_methods)
    (ha : ∀ c ∈ a, isspace c = false ∧ c ≠ 63) (hal : a.length = 2047)
    (hb : is_token b = true) (hbH : 72 ∉ b) (hv : is_token v = true) :
    (parse_request_line (m ++ [32] ++ (a ++ b) ++ [32] ++ v) req).1 = 0 := by
  obtain ⟨hm4, hmt, hma, hmu⟩ := allowed_method_facts hm
  have hb2 := is_token_iff.mp hb
  have hbpos : 0 < b.length := List.length_pos.mpr hb2.1
  have htok : is_token (a ++ b) = true := by
    apply token_of_bytes (by simp [hb2.1])
    intro c hc
    rw [List.mem_append] at hc
    rcases hc with hc | hc
    · exact (ha c hc).1
    · exact hb2.2 c hc
  have hsc := sscanf_request_line_three [] m [32] (a ++ b) [32] v [] rfl hmt (by omega)
    (by decide) htok (by decide) hv rfl
  have hlen : ¬ (a ++ b).length ≤ 2047 := by
    rw [List.length_append]; omega
  rw [if_neg hlen, List.take_left' hal, List.drop_left' hal] at hsc
  have hlim : target_within_limits a = true := by
    have hs : strchr a 63 = none := strchr_eq_none_of_not_mem a 63 (fun h => (ha 63 h).2 rfl)
    simp only [target_within_limits, hs, decide_eq_true_eq, MAX_PATH]
    omega
  have e : m ++ [32] ++ (a ++ b) ++ [32] ++ v =
      [] ++ (m ++ ([32] ++ (a ++ b ++ ([32] ++ (v ++ []))))) := by simp
  rw [e, parse_request_line_of_sscanf _ m a (b.take 15) req hsc hlim]
  have h1 : ¬ (m.length ≥ MAX_METHOD ∨ (b.take 15).length ≥ MAX_VERSION) := by
    simp only [MAX_METHOD, MAX_VERSION, List.length_take]; omega
  have h2 : ¬ is_method_allowed m = 0 := by rw [hma]; decide
  have h3 : strncmp_eq (b.take 15) (bytes "HTTP/") 5 = false := by
    rw [← Bool.not_eq_true, strncmp_eq_http_iff]
    intro hpre
    have h72 : (72 : Nat) ∈ bytes "HTTP/" := by decide
    exact hbH (List.mem_of_mem_take (hpre.subset h72))
  simp only [parse_request_line_checks, if_neg h1, if_neg h2, hmu, Bool.false_eq_true,
    if_false, h3, Bool.not_false, if_true]

/-- A slash followed by a run of the letter `a`: no white space, no `?`. -/
theorem slash_run_bytes (n : Nat) :
    ∀ c ∈ 47 :: List.replicate n 97, isspace c = false ∧ c ≠ 63 := by
  intro c hc
  rw [List.mem_cons] at hc
  rcases hc with rfl | hc
  · decide
  · rw [List.eq_of_mem_replicate hc]; decide

/-- What `sscanf` stores for a request-target longer than 2047 bytes: the first
2047 bytes as target, and the first 15 bytes of the remainder as version. -/
theorem sscanf_request_line_cut_target (m a b v : List Nat)
    (hm : is_token m = true) (hml : m.length ≤ 15)
    (ha : ∀ c ∈ a, isspace c = false ∧ c ≠ 63) (hal : a.length = 2047)
    (hb : is_token b = true) (hv : is_token v = true) :
    sscanf_request_line (m ++ [32] ++ (a ++ b) ++ [32] ++ v) = (3, m, a, b.take 15) := by
  have hb2 := is_token_iff.mp hb
  have hbpos : 0 < b.length := List.length_pos.mpr hb2.1
  have htok : is_token (a ++ b) = true := by
    apply token_of_bytes (by simp [hb2.1])
    intro c hc
    rw [List.mem_append] at hc
    rcases hc with hc | hc
    · exact (ha c hc).1
    · exact hb2.2 c hc
  have hsc := sscanf_request_line_three [] m [32] (a ++ b) [32] v [] rfl hm hml
    (by decide) htok (by decide) hv rfl
  have hlen : ¬ (a ++ b).length ≤ 2047 := by
    rw [List.length_append]; omega
  rw [if_neg hlen, List.take_left' hal, List.drop_left' hal] at hsc
  have e : m ++ [32] ++ (a ++ b) ++ [32] ++ v =
      [] ++ (m ++ ([32] ++ (a ++ b ++ ([32] ++ (v ++ []))))) := by simp
  rw [e, hsc]

/-- **C4 (failing input).** `GET /aa…a?b HTTP/1.1` with a part before the `?` of
2047 bytes (shorter than 2048, the limit that the code tests) and a part after it
of one byte (shorter than 1024): the `%2047s` conversion stores the 2047 bytes
before the `?` as target and leaves `?b` to be stored as version, and the call
does not succeed, it returns 0. -/
theorem parse_request_line_splits_query_cut :
    (47 :: List.replicate 2046 97).length < 2048 ∧ [98].length < 1024 ∧
    sscanf_request_line (bytes "GET" ++ [32] ++
        ((47 :: List.replicate 2046 97) ++ [63, 98]) ++ [32] ++ bytes "HTTP/1.1") =
      (3, bytes "GET", 47 :: List.replicate 2046 97, [63, 98]) ∧
    (parse_request_line (bytes "GET" ++ [32] ++
      ((47 :: List.replicate 2046 97) ++ [63, 98]) ++ [32] ++ bytes "HTTP/1.1") {}).1 = 0 := by
  refine ⟨?_, by decide, ?_, ?_⟩
  · rw [List.length_cons, List.length_replicate]; omega
  · exact sscanf_request_line_cut_target (bytes "GET") (47 :: List.replicate 2046 97) [63, 98]
      (bytes "HTTP/1.1") (by decide) (by decide) (slash_run_bytes 2046)
      (by rw [List.length_cons, List.length_replicate]) (by decide) (by decide)
  · exact parse_request_line_cut_target (bytes "GET") (47 :: List.replicate 2046 97) [63, 98]
      (bytes "HTTP/1.1") {} (by decide) (slash_run_bytes 2046)
      (by rw [List.length_cons, List.length_replicate]) (by decide) (by decide) (by decide)

theorem starts_with_space_of_all_space {s : List Nat} (h : all_space s = true) :
    starts_with_space s = true := by
  cases s with
  | nil => rfl
  | cons c s =>
    simp only [all_space, List.all_cons, Bool.and_eq_true] at h
    simpa [starts_with_space] using h.1

/-- **C6 (amended).** For every request line of three fields with an allowed
method, a request-target of at most 2047 bytes within the length limits and a
version token shorter than 16 bytes: if the version token starts with `HTTP/`,
`parse_request_line` succeeds and stores the token as it is, whatever follows the
prefix (no digit-dot-digit form is required); if it does not start with `HTTP/`,
`parse_request_line` does not succeed (its result is not positive). -/
theorem parse_request_line_version_check (g0 m g1 t g2 v tail : List Nat) (req : http_request)
    (hg0 : all_space g0 = true) (hm : m ∈ allowed_methods)
    (hg1 : is_gap g1 = true) (ht : is_token t = true) (htl : t.length ≤ 2047)
    (hlim : target_within_limits t = true) (hg2 : is_gap g2 = true)
    (hv : is_token v = true) (hvl : v.length < 16) (htail : all_space tail = true) :
    (bytes "HTTP/" <+: v →
      (parse_request_line (g0 ++ m ++ g1 ++ t ++ g2 ++ v ++ tail) req).1 = 1 ∧
      (parse_request_line (g0 ++ m ++ g1 ++ t ++ g2 ++ v ++ tail) req).2.version = v) ∧
    (¬ bytes "HTTP/" <+: v →
      (parse_request_line (g0 ++ m ++ g1 ++ t ++ g2 ++ v ++ tail) req).1 ≤ 0) := by
  have h := parse_request_line_well_formed g0 m g1 t g2 v tail req hg0 hm hg1 ht htl hlim hg2
    hv hvl (starts_with_space_of_all_space htail)
  simp only [List.append_assoc]
  constructor
  · intro hp
    rw [h, if_pos hp]
    exact ⟨rfl, rfl⟩
  · intro hp
    rw [h, if_neg hp]

/-- Witness for C6 (amended): `GET / HTTP/abc` is accepted, `GET / FOO/1.1` is not. -/
theorem parse_request_line_version_check_witness :
    ((parse_request_line
        ([] ++ bytes "GET" ++ bytes " " ++ bytes "/" ++ bytes " " ++ bytes "HTTP/abc" ++ [])
        {}).1 = 1 ∧
      (parse_request_line
        ([] ++ bytes "GET" ++ bytes " " ++ bytes "/" ++ bytes " " ++ bytes "HTTP/abc" ++ [])
        {}).2.version = bytes "HTTP/abc") ∧
    (parse_request_line
        ([] ++ bytes "GET" ++ bytes " " ++ bytes "/" ++ bytes " " ++ bytes "FOO/1.1" ++ [])
        {}).1 ≤ 0 :=
  ⟨(parse_request_line_version_check [] (bytes "GET") (bytes " ") (bytes "/") (bytes " ")
      (bytes "HTTP/abc") [] {} (by decide) (by decide) (by decide) (by decide) (by decide)
      (by decide) (by decide) (by decide) (by decide) (by decide)).1 (by decide),
   (parse_request_line_version_check [] (bytes "GET") (bytes " ") (bytes "/") (bytes " ")
      (bytes "FOO/1.1") [] {} (by decide) (by decide) (by decide) (by decide) (by decide)
      (by decide) (by decide) (by decide) (by decide) (by decide)).2 (by decide)⟩

/-- **C6 (counterexample).** The version token of `GET / HTTP/abc` has not the
form `HTTP/` digit dot digit, yet the call succeeds; it does not return
`HTTP_VERSION_UNSUPPORTED`. -/
theorem parse_request_line_version_check_counterexample :
    parse_request_line (bytes "GET / HTTP/abc") {} =
      (1, { method := bytes "GET", path := bytes "/", version := bytes "HTTP/abc" }) ∧
    (parse_request_line (bytes "GET / HTTP/abc") {}).1 ≠ HTTP_VERSION_UNSUPPORTED := by
  decide

/-- **C7 (failing input).** `GET /aa…a HTTP/1.1` with a request-target of 2048
bytes without `?`: the call returns 0, not `HTTP_URI_TOO_LONG`. -/
theorem parse_request_line_long_target :
    ((47 :: List.replicate 2046 97) ++ [97]).length = 2048 ∧
    (parse_request_line (bytes "GET" ++ [32] ++
      ((47 :: List.replicate 2046 97) ++ [97]) ++ [32] ++ bytes "HTTP/1.1") {}).1 = 0 := by
  refine ⟨?_, ?_⟩
  · rw [List.length_append, List.length_cons, List.length_replicate]; rfl
  · exact parse_request_line_cut_target (bytes "GET") (47 :: List.replicate 2046 97) [97]
      (bytes "HTTP/1.1") {} (by decide) (slash_run_bytes 2046)
      (by rw [List.length_cons, List.length_replicate]) (by decide) (by decide) (by decide)

/-- **C8 (amended).** `parse_request_line` returns `HTTP_PARSE_ERROR` for every
request line with fewer than three white-space-separated fields whose first field
is at most 15 bytes and whose second field is at most 2047 bytes long: no field at
all, one field, or two fields.  Text after the third field is not rejected: with
such first two fields, the result is the same as for the line that ends with its
third field. -/
theorem parse_request_line_field_count (g0 m g1 t g2 v g3 extra tail : List Nat)
    (req : http_request)
    (hg0 : all_space g0 = true) (hm : is_token m = true) (hml : m.length ≤ 15)
    (hg1 : is_gap g1 = true) (ht : is_token t = true) (htl : t.length ≤ 2047)
    (hg2 : is_gap g2 = true) (hv : is_token v = true) (hg3 : is_gap g3 = true)
    (htail : all_space tail = true) :
    (parse_request_line g0 req).1 = HTTP_PARSE_ERROR ∧
    (parse_request_line (g0 ++ m ++ tail) req).1 = HTTP_PARSE_ERROR ∧
    (parse_request_line (g0 ++ m ++ g1 ++ t ++ tail) req).1 = HTTP_PARSE_ERROR ∧
    parse_request_line (g0 ++ m ++ g1 ++ t ++ g2 ++ v ++ g3 ++ extra) req =
      parse_request_line (g0 ++ m ++ g1 ++ t ++ g2 ++ v) req := by
  have h0 := sscanf_request_line_none g0 hg0
  have h1 := sscanf_request_line_one g0 m tail hg0 hm hml htail
  have h2 := sscanf_request_line_two g0 m g1 t tail hg0 hm hml hg1 ht htl htail
  have h3 := sscanf_request_line_three g0 m g1 t g2 v (g3 ++ extra) hg0 hm hml hg1 ht hg2 hv
    (starts_with_space_gap_append hg3 _)
  have h4 := sscanf_request_line_three g0 m g1 t g2 v [] hg0 hm hml hg1 ht hg2 hv rfl
  simp only [List.append_assoc, List.append_nil] at h1 h2 h3 h4 ⊢
  refine ⟨?_, ?_, ?_, ?_⟩
  · simp [parse_request_line, h0]
  · simp [parse_request_line, h1]
  · simp [parse_request_line, h2]
  · simp only [parse_request_line, h3, h4]

/-- Witness for C8 (amended): the empty line, `GET`, `GET /`, and
`GET / HTTP/1.1 extra` against `GET / HTTP/1.1`. -/
theorem parse_request_line_field_count_witness :
    (parse_request_line [] {}).1 = HTTP_PARSE_ERROR ∧
    (parse_request_line ([] ++ bytes "GET" ++ []) {}).1 = HTTP_PARSE_ERROR ∧
    (parse_request_line ([] ++ bytes "GET" ++ bytes " " ++ bytes "/" ++ []) {}).1 =
      HTTP_PARSE_ERROR ∧
    parse_request_line ([] ++ bytes "GET" ++ bytes " " ++ bytes "/" ++ bytes " " ++
        bytes "HTTP/1.1" ++ bytes " " ++ bytes "extra") {} =
      parse_request_line ([] ++ bytes "GET" ++ bytes " " ++ bytes "/" ++ bytes " " ++
        bytes "HTTP/1.1") {} :=
  parse_request_line_field_count [] (bytes "GET") (bytes " ") (bytes "/") (bytes " ")
    (bytes "HTTP/1.1") (bytes " ") (bytes "extra") [] {} (by decide) (by decide) (by decide)
    (by decide) (by decide) (by decide) (by decide) (by decide) (by decide) (by decide)

/-- **C8 (counterexample).** `GET / HTTP/1.1 extra` has four fields and is
accepted; `ABCDEFGHIJKLMNOP /x` has two fields, the first of 16 bytes, and gives
`HTTP_METHOD_NOT_ALLOWED`: neither returns `HTTP_PARSE_ERROR`. -/
theorem parse_request_line_field_count_counterexample :
    (parse_request_line (bytes "GET / HTTP/1.1 extra") {}).1 = 1 ∧
    (parse_request_line (bytes "ABCDEFGHIJKLMNOP /x") {}).1 = HTTP_METHOD_NOT_ALLOWED := by
  decide

/-- **C9 (failing inputs).** `GET / HTTP/1.1xxxxxxxx` has a version token of 16
bytes: the call succeeds with the version cut to 15 bytes.  The method token of
`ABCDEFGHIJKLMNOP / HTTP/1.1` has 16 bytes: the call returns
`HTTP_METHOD_NOT_ALLOWED`.  Neither returns `HTTP_PARSE_ERROR`. -/
theorem parse_request_line_long_tokens :
    parse_request_line (bytes "GET / HTTP/1.1xxxxxxxx") {} =
      (1, { method := bytes "GET", path := bytes "/", version := bytes "HTTP/1.1xxxxxxx" }) ∧
    (parse_request_line (bytes "ABCDEFGHIJKLMNOP / HTTP/1.1") {}).1 =
      HTTP_METHOD_NOT_ALLOWED := by
  decide

/-! ### Error responses -/

theorem standard_headers_length_le (status_code : Int) (status_text conn : List Nat)
    (method : Option (List Nat)) :
    (standard_headers status_code status_text conn method).length ≤
      headers_room status_code status_text + conn.length := by
  have hh : is_head (some (bytes "HEAD")) = true := by decide
  have hn : is_head none = false := rfl
  cases hm : is_head method <;>
    simp only [headers_room, standard_headers, hm, hh, hn, List.length_append, List.length_nil,
      Bool.false_eq_true, if_false, if_true] <;> omega

theorem date_line_length (date : List Nat) : (date_line date).length = date.length + 8 := by
  have h1 : (bytes "Date: ").length = 6 := by decide
  have h2 : (bytes "\r\n").length = 2 := by decide
  simp only [date_line, List.length_append, h1, h2]
  omega

/-- A response whose pieces fit the buffer is sent whole. -/
theorem send_error_response_sized_fits (size : Nat) (date : List Nat) (status_code : Int)
    (status_text conn : List Nat) (extra_headers : Option (List Nat))
    (method : Option (List Nat)) (hdate : date.length ≤ 63)
    (hfit : (status_line status_code status_text).length + 71 + (extra_headers.getD []).length +
      (headers_room status_code status_text + conn.length) +
      (error_body status_code status_text).length < size) :
    send_error_response_sized size date status_code status_text conn extra_headers method =
      some (error_response date status_code status_text conn (extra_headers.getD []) method) := by
  have hstd := standard_headers_length_le status_code status_text conn method
  have hdl := date_line_length date
  have h1 : (status_line status_code status_text).length < size := by omega
  have h2 : ¬ (status_line status_code status_text).length + (date_line date).length > size := by
    omega
  simp only [send_error_response_sized, add_date_header, if_pos h1, if_neg h2]
  have h3 : ¬ ((status_line status_code status_text).length + (date_line date).length +
      (extra_headers.getD []).length +
      (standard_headers status_code status_text conn method).length ≥ size) := by omega
  have h4 : (status_line status_code status_text).length + (date_line date).length +
      (extra_headers.getD []).length +
      (standard_headers status_code status_text conn method).length +
      (error_body status_code status_text).length < size := by omega
  rw [if_neg h3]
  cases hm : is_head method
  · simp only [Bool.not_false, if_true, if_pos h4, error_response, hm, Bool.false_eq_true,
      if_false]
  · simp only [Bool.not_true, Bool.false_eq_true, if_false, error_response, hm, if_true,
      List.append_nil]

theorem send_error_response_fits (date : List Nat) (status_code : Int)
    (status_text conn : List Nat) (method : Option (List Nat)) (hdate : date.length ≤ 63)
    (hfit : (status_line status_code status_text).length + 71 +
      (headers_room status_code status_text + conn.length) +
      (error_body status_code status_text).length < 1024) :
    send_error_response date status_code status_text conn method =
      some (error_response date status_code status_text conn [] method) :=
  send_error_response_sized_fits 1024 date status_code status_text conn none method hdate
    (by simp only [Option.getD_none, List.length_nil]; omega)

set_option maxRecDepth 100000 in
/-- The sizes of the pieces of the responses that the classifiers send. -/
theorem response_sizes :
    (∀ p ∈ [((400 : Int), bytes "Bad Request"), (408, bytes "Request Timeout"),
        (411, bytes "Length Required"), (413, bytes "Payload Too Large"),
        (414, bytes "URI Too Long"), (431, bytes "Request Header Fields Too Large"),
        (501, bytes "Not Implemented"), (505, bytes "HTTP Version Not Supported"),
        (405, bytes "Method Not Allowed")],
      (status_line p.1 p.2).length + 71 + build_allow_header.length +
        (headers_room p.1 p.2 + 31) + (error_body p.1 p.2).length < 1024) ∧
    (bytes "close").length = 5 := by
  decide

/-- Every response of the classifiers fits `headers[1024]`, also with a
`Connection` value of up to 31 bytes and with the `Allow` header added. -/
theorem response_fits (status_code : Int) (status_text : List Nat)
    (h : (status_code, status_text) ∈
      [((400 : Int), bytes "Bad Request"), (408, bytes "Request Timeout"),
        (411, bytes "Length Required"), (413, bytes "Payload Too Large"),
        (414, bytes "URI Too Long"), (431, bytes "Request Header Fields Too Large"),
        (501, bytes "Not Implemented"), (505, bytes "HTTP Version Not Supported"),
        (405, bytes "Method Not Allowed")]) :
    (status_line status_code status_text).length + 71 + build_allow_header.length +
      (headers_room status_code status_text + 31) +
      (error_body status_code status_text).length < 1024 :=
  response_sizes.1 (status_code, status_text) h

/-- A classifier response with `Connection: close` is sent whole. -/
theorem send_close_response (date : List Nat) (status_code : Int) (status_text : List Nat)
    (method : Option (List Nat)) (hdate : date.length ≤ 63)
    (h : (status_code, status_text) ∈
      [((400 : Int), bytes "Bad Request"), (408, bytes "Request Timeout"),
        (411, bytes "Length Required"), (413, bytes "Payload Too Large"),
        (414, bytes "URI Too Long"), (431, bytes "Request Header Fields Too Large"),
        (501, bytes "Not Implemented"), (505, bytes "HTTP Version Not Supported"),
        (405, bytes "Method Not Allowed")]) :
    send_error_response date status_code status_text (bytes "close") method =
      some (error_response date status_code status_text (bytes "close") [] method) := by
  have hf := response_fits status_code status_text h
  have hc := response_sizes.2
  exact send_error_response_fits date status_code status_text _ method hdate (by omega)

/-- The 405 response with the `Allow` header is sent whole. -/
theorem send_allow_response (date : List Nat) (method : Option (List Nat))
    (hdate : date.length ≤ 63) :
    send_error_response_with_headers date 405 (bytes "Method Not Allowed") (bytes "close")
        (some build_allow_header) method =
      some (error_response date 405 (bytes "Method Not Allowed") (bytes "close")
        build_allow_header method) := by
  have hf := response_fits 405 (bytes "Method Not Allowed") (by decide)
  have hc := response_sizes.2
  exact send_error_response_sized_fits 1536 date 405 _ _ (some build_allow_header) method hdate
    (by simp only [Option.getD_some]; omega)

/-- **C3.** The phase classifiers perform the action listed in the mapping table,
for every date stamp of at most 63 bytes (the `strftime` buffer) and every method
string.  Header-read phase: `HTTP_IO_EOF` and `HTTP_IO_TIMEOUT` write nothing;
`HTTP_IO_TIMEOUT_PARTIAL` gives 408, `HTTP_IO_EOF_PARTIAL` 400,
`HTTP_HEADERS_TOO_LARGE` 431, `HTTP_PARSE_ERROR` 400.  Request-line phase:
`HTTP_URI_TOO_LONG` 414, `HTTP_VERSION_UNSUPPORTED` 505, `HTTP_METHOD_NOT_ALLOWED`
405 with the `Allow` header, `HTTP_NOT_IMPLEMENTED` 501, `HTTP_PARSE_ERROR` 400.
Header-parse phase: 431 and 400.  Validate phase: `HTTP_LENGTH_REQUIRED` 411,
`HTTP_NOT_IMPLEMENTED` 501, `HTTP_METHOD_NOT_ALLOWED` 405 with `Allow`,
`HTTP_PARSE_ERROR` 400.  Body-read phase: `HTTP_BODY_TOO_LARGE` 413 (with the given
`Connection` value of at most 31 bytes, or `close` for `NULL`),
`HTTP_IO_TIMEOUT_PARTIAL` 408, `HTTP_IO_EOF_PARTIAL` 400.  Every one of them
returns 0, with `Connection: close` apart from 413; a success status (positive, or
non-negative in the body-read phase) returns 1 and writes nothing. -/
theorem phase_classifiers_table (date : List Nat) (method : Option (List Nat))
    (hdate : date.length ≤ 63) :
    (handle_read_headers_status HTTP_IO_EOF date method = (0, none) ∧
     handle_read_headers_status HTTP_IO_TIMEOUT date method = (0, none) ∧
     handle_read_headers_status HTTP_IO_TIMEOUT_PARTIAL date method =
       (0, some (error_response date 408 (bytes "Request Timeout") (bytes "close") [] method)) ∧
     handle_read_headers_status HTTP_IO_EOF_PARTIAL date method =
       (0, some (error_response date 400 (bytes "Bad Request") (bytes "close") [] method)) ∧
     handle_read_headers_status HTTP_HEADERS_TOO_LARGE date method =
       (0, some (error_response date 431 (bytes "Request Header Fields Too Large")
         (bytes "close") [] method)) ∧
     handle_read_headers_status HTTP_PARSE_ERROR date method =
       (0, some (error_response date 400 (bytes "Bad Request") (bytes "close") [] method))) ∧
    (handle_request_line_status HTTP_URI_TOO_LONG date method =
       (0, some (error_response date 414 (bytes "URI Too Long") (bytes "close") [] method)) ∧
     handle_request_line_status HTTP_VERSION_UNSUPPORTED date method =
       (0, some (error_response date 505 (bytes "HTTP Version Not Supported") (bytes "close")
         [] method)) ∧
     handle_request_line_status HTTP_METHOD_NOT_ALLOWED date method =
       (0, some (error_response date 405 (bytes "Method Not Allowed") (bytes "close")
         (bytes "Allow: GET, POST, HEAD\r\n") method)) ∧
     handle_request_line_status HTTP_NOT_IMPLEMENTED date method =
       (0, some (error_response date 501 (bytes "Not Implemented") (bytes "close") [] method)) ∧
     handle_request_line_status HTTP_PARSE_ERROR date method =
       (0, some (error_response date 400 (bytes "Bad Request") (bytes "close") [] method))) ∧
    (handle_parse_headers_status HTTP_HEADERS_TOO_LARGE date method =
       (0, some (error_response date 431 (bytes "Request Header Fields Too Large")
         (bytes "close") [] method)) ∧
     handle_parse_headers_status HTTP_PARSE_ERROR date method =
       (0, some (error_response date 400 (bytes "Bad Request") (bytes "close") [] method))) ∧
    (handle_validate_status HTTP_LENGTH_REQUIRED date method =
       (0, some (error_response date 411 (bytes "Length Required") (bytes "close") [] method)) ∧
     handle_validate_status HTTP_NOT_IMPLEMENTED date method =
       (0, some (error_response date 501 (bytes "Not Implemented") (bytes "close") [] method)) ∧
     handle_validate_status HTTP_METHOD_NOT_ALLOWED date method =
       (0, some (error_response date 405 (bytes "Method Not Allowed") (bytes "close")
         (bytes "Allow: GET, POST, HEAD\r\n") method)) ∧
     handle_validate_status HTTP_PARSE_ERROR date method =
       (0, some (error_response date 400 (bytes "Bad Request") (bytes "close") [] method))) ∧
    ((∀ conn : List Nat, conn.length ≤ 31 →
       handle_read_body_status HTTP_BODY_TOO_LARGE date (some conn) method =
         (0, some (error_response date 413 (bytes "Payload Too Large") conn [] method))) ∧
     handle_read_body_status HTTP_BODY_TOO_LARGE date none method =
       (0, some (error_response date 413 (bytes "Payload Too Large") (bytes "close") []
         method)) ∧
     (∀ conn : Option (List Nat),
       handle_read_body_status HTTP_IO_TIMEOUT_PARTIAL date conn method =
         (0, some (error_response date 408 (bytes "Request Timeout") (bytes "close") []
           method)) ∧
       handle_read_body_status HTTP_IO_EOF_PARTIAL date conn method =
         (0, some (error_response date 400 (bytes "Bad Request") (bytes "close") []
           method)))) ∧
    (∀ rc : Int, 0 < rc →
       handle_read_headers_status rc date method = (1, none) ∧
       handle_request_line_status rc date method = (1, none) ∧
       handle_parse_headers_status rc date method = (1, none) ∧
       handle_validate_status rc date method = (1, none)) ∧
    (∀ (rc : Int) (conn : Option (List Nat)), 0 ≤ rc →
       handle_read_body_status rc date conn method = (1, none)) := by
  have h400 := send_close_response date 400 (bytes "Bad Request") method hdate (by decide)
  have h408 := send_close_response date 408 (bytes "Request Timeout") method hdate (by decide)
  have h411 := send_close_response date 411 (bytes "Length Required") method hdate (by decide)
  have h413 := send_close_response date 413 (bytes "Payload Too Large") method hdate
    (by decide)
  have h414 := send_close_response date 414 (bytes "URI Too Long") method hdate (by decide)
  have h431 := send_close_response date 431 (bytes "Request Header Fields Too Large") method
    hdate (by decide)
  have h501 := send_close_response date 501 (bytes "Not Implemented") method hdate (by decide)
  have h505 := send_close_response date 505 (bytes "HTTP Version Not Supported") method hdate
    (by decide)
  have h405 := send_allow_response date method hdate
  have hallow : build_allow_header = bytes "Allow: GET, POST, HEAD\r\n" := by decide
  rw [hallow] at h405
  refine ⟨⟨?_, ?_, ?_, ?_, ?_, ?_⟩, ⟨?_, ?_, ?_, ?_, ?_⟩, ⟨?_, ?_⟩, ⟨?_, ?_, ?_, ?_⟩,
    ⟨?_, ?_, ?_⟩, ?_, ?_⟩
  · rfl
  · rfl
  · rw [← h408]; rfl
  · rw [← h400]; rfl
  · rw [← h431]; rfl
  · rw [← h400]; rfl
  · rw [← h414]; rfl
  · rw [← h505]; rfl
  · rw [← h405, ← hallow]; rfl
  · rw [← h501]; rfl
  · rw [← h400]; rfl
  · rw [← h431]; rfl
  · rw [← h400]; rfl
  · rw [← h411]; rfl
  · rw [← h501]; rfl
  · rw [← h405, ← hallow]; rfl
  · rw [← h400]; rfl
  · intro conn hconn
    have hf := response_fits 413 (bytes "Payload Too Large") (by decide)
    rw [← send_error_response_fits date 413 (bytes "Payload Too Large") conn method hdate
      (by omega)]
    rfl
  · rw [← h413]; rfl
  · intro conn
    constructor
    · rw [← h408]; rfl
    · rw [← h400]; rfl
  · intro rc hrc
    refine ⟨?_, ?_, ?_, ?_⟩ <;>
      simp only [handle_read_headers_status, handle_request_line_status,
        handle_parse_headers_status, handle_validate_status, gt_iff_lt, hrc, if_true]
  · intro rc conn hrc
    simp only [handle_read_body_status, ge_iff_le, hrc, if_true]

/-- Witness for C3: a date stamp in IMF-fixdate form and the method `GET`, on the
408 row of the header-read phase. -/
theorem phase_classifiers_table_witness :
    (bytes "Sun, 06 Nov 1994 08:49:37 GMT").length ≤ 63 ∧
    handle_read_headers_status HTTP_IO_TIMEOUT_PARTIAL (bytes "Sun, 06 Nov 1994 08:49:37 GMT")
        (some (bytes "GET")) =
      (0, some (error_response (bytes "Sun, 06 Nov 1994 08:49:37 GMT") 408
        (bytes "Request Timeout") (bytes "close") [] (some (bytes "GET")))) :=
  ⟨by decide,
    (phase_classifiers_table (bytes "Sun, 06 Nov 1994 08:49:37 GMT") (some (bytes "GET"))
      (by decide)).1.2.2.1⟩

/-! ### `trim_internal_whitespaces` is idempotent -/

theorem reread_cons (c : Nat) (out : List Nat) :
    reread (c :: out) = trim_internal_step (reread out) c := by
  simp [reread, List.foldl_append]

theorem isblank_delimiter {c : Nat} (h : c = 59 ∨ c = 44 ∨ c = 61) : isblank c = false := by
  rcases h with rfl | rfl | rfl <;> decide

theorem dropWhile_isblank_idem (l : List Nat) :
    (l.dropWhile isblank).dropWhile isblank = l.dropWhile isblank := by
  induction l with
  | nil => rfl
  | cons a l ih =>
    by_cases h : isblank a = true
    · simp [List.dropWhile, h, ih]
    · simp [List.dropWhile, h]

theorem stable_under_pop_nonblank {c : Nat} {out : List Nat} (hc : isblank c = false)
    (h : reread_stable (c :: out)) : stable_under_pop (c :: out) := by
  intro bl rest hsplit hbl
  cases bl with
  | nil =>
    rw [List.nil_append] at hsplit
    subst hsplit
    exact h
  | cons b bl =>
    simp only [List.cons_append, List.cons.injEq] at hsplit
    have := hbl b (List.mem_cons_self _ _)
    rw [← hsplit.1, hc] at this
    exact absurd this (by decide)

theorem stable_under_pop_cons {c : Nat} {out : List Nat}
    (h : reread_stable (c :: out)) (hp : stable_under_pop out) :
    stable_under_pop (c :: out) := by
  intro bl rest hsplit hbl
  cases bl with
  | nil =>
    rw [List.nil_append] at hsplit
    subst hsplit
    exact h
  | cons b bl =>
    simp only [List.cons_append, List.cons.injEq] at hsplit
    exact hp bl rest hsplit.2 (fun x hx => hbl x (List.mem_cons_of_mem _ hx))

theorem stable_dropWhile {out : List Nat} (hp : stable_under_pop out) :
    reread_stable (out.dropWhile isblank) :=
  hp (out.takeWhile isblank) (out.dropWhile isblank) (List.takeWhile_append_dropWhile _ _).symm
    (fun _ hb => List.mem_takeWhile_imp hb)

theorem trim_invariant_start : trim_invariant trim_start := by
  refine ⟨rfl, fun _ => ⟨rfl, ?_⟩⟩
  intro bl rest hsplit _
  have hrest : rest = [] := by
    have := congrArg List.length hsplit
    simp only [trim_start, List.length_nil, List.length_append] at this
    exact List.eq_nil_of_length_eq_zero (by omega)
  subst hrest
  exact ⟨rfl, rfl, rfl⟩

/-- The loop invariant is kept by every byte read. -/
theorem trim_invariant_step (s : TrimState) (c : Nat) (h : trim_invariant s) :
    trim_invariant (trim_internal_step s c) := by
  obtain ⟨hre, hout⟩ := h
  by_cases hq : s.inside_quotes = true
  · -- inside quotes every byte is copied
    have hstep : reread (c :: s.out) = trim_internal_step s c := by rw [reread_cons, hre]
    by_cases he : s.escape_next = true
    · have hs : trim_internal_step s c =
          { out := c :: s.out, inside_quotes := true, escape_next := false,
            skipping := false } := by
        simp [trim_internal_step, hq, he]
      rw [hs] at hstep ⊢
      exact ⟨hstep, fun h => absurd h (by simp)⟩
    · by_cases h92 : c = 92
      · have hs : trim_internal_step s c =
            { out := c :: s.out, inside_quotes := true, escape_next := true,
              skipping := false } := by
          simp [trim_internal_step, hq, he, h92]
        rw [hs] at hstep ⊢
        exact ⟨hstep, fun h => absurd h (by simp)⟩
      · by_cases h34 : c = 34
        · have hs : trim_internal_step s c =
              { out := c :: s.out, inside_quotes := false, escape_next := false,
                skipping := false } := by
            simp [trim_internal_step, hq, he, h34]
          rw [hs] at hstep ⊢
          refine ⟨hstep, fun _ => ⟨rfl, ?_⟩⟩
          apply stable_under_pop_nonblank (by rw [h34]; decide)
          show reread_stable (c :: s.out)
          unfold reread_stable
          rw [hstep]
          exact ⟨rfl, rfl, rfl⟩
        · have hs : trim_internal_step s c =
              { out := c :: s.out, inside_quotes := true, escape_next := false,
                skipping := false } := by
            simp [trim_internal_step, hq, he, h92, h34]
          rw [hs] at hstep ⊢
          exact ⟨hstep, fun h => absurd h (by simp)⟩
  · -- outside quotes
    have hq2 : s.inside_quotes = false := by simpa using hq
    obtain ⟨hesc, hpop⟩ := hout hq2
    by_cases hskip : (s.skipping && isblank c) = true
    · have hs : trim_internal_step s c = s := by
        simp only [trim_internal_step, hq2, Bool.false_eq_true, if_false, hskip, if_true]
      rw [hs]
      exact ⟨hre, fun _ => ⟨hesc, hpop⟩⟩
    · by_cases h34 : c = 34
      · have hs : trim_internal_step s c =
            { out := c :: s.out, inside_quotes := true, escape_next := s.escape_next,
              skipping := false } := by
          simp only [trim_internal_step, hq2, Bool.false_eq_true, if_false, hskip]
          rw [if_pos h34]
        have hstep : reread (c :: s.out) = trim_internal_step s c := by rw [reread_cons, hre]
        rw [hs] at hstep ⊢
        exact ⟨hstep, fun h => absurd h (by simp)⟩
      · by_cases hd : c = 59 ∨ c = 44 ∨ c = 61
        · have hs : trim_internal_step s c =
              { out := c :: s.out.dropWhile isblank, inside_quotes := false,
                escape_next := s.escape_next, skipping := true } := by
            simp only [trim_internal_step, hq2, Bool.false_eq_true, if_false, hskip, h34, hd,
              if_true]
          obtain ⟨ho, hqo, heo⟩ := stable_dropWhile hpop
          have hcb := isblank_delimiter hd
          have hstep : reread (c :: s.out.dropWhile isblank) =
              { out := c :: s.out.dropWhile isblank, inside_quotes := false,
                escape_next := false, skipping := true } := by
            rw [reread_cons]
            simp only [trim_internal_step, hqo, Bool.false_eq_true, if_false, hcb,
              Bool.and_false, h34, hd, if_true, ho, heo, dropWhile_isblank_idem]
          rw [hs, hesc]
          refine ⟨hstep, fun _ => ⟨rfl, ?_⟩⟩
          apply stable_under_pop_nonblank hcb
          show reread_stable (c :: s.out.dropWhile isblank)
          unfold reread_stable
          rw [hstep]
          exact ⟨rfl, rfl, rfl⟩
        · have hs : trim_internal_step s c =
              { out := c :: s.out, inside_quotes := false, escape_next := s.escape_next,
                skipping := false } := by
            simp only [trim_internal_step, hq2, Bool.false_eq_true, if_false, hskip, h34, hd]
          have hstep : reread (c :: s.out) = trim_internal_step s c := by
            rw [reread_cons, hre]
          rw [hs] at hstep ⊢
          rw [hesc] at hstep ⊢
          refine ⟨hstep, fun _ => ⟨rfl, ?_⟩⟩
          apply stable_under_pop_cons _ hpop
          unfold reread_stable
          rw [hstep]
          exact ⟨rfl, rfl, rfl⟩

theorem trim_invariant_foldl (v : List Nat) :
    ∀ s : TrimState, trim_invariant s → trim_invariant (v.foldl trim_internal_step s) := by
  induction v with
  | nil => intro s h; exact h
  | cons c v ih => intro s h; exact ih _ (trim_invariant_step s c h)

/-- `trim_internal_whitespaces` applied twice gives the same as applied once. -/
theorem trim_internal_whitespaces_idem (value : List Nat) :
    trim_internal_whitespaces (trim_internal_whitespaces value) =
      trim_internal_whitespaces value := by
  by_cases hv : value = []
  · simp [trim_internal_whitespaces, hv]
  · have hinv := (trim_invariant_foldl value trim_start trim_invariant_start).1
    simp only [trim_internal_whitespaces, if_neg hv]
    by_cases h0 : (value.foldl trim_internal_step trim_start).out.reverse = []
    · rw [if_pos h0]
    · rw [if_neg h0]
      show (reread (value.foldl trim_internal_step trim_start).out).out.reverse = _
      rw [hinv]

/-! ### Outer trimming -/

theorem dropWhile_eq_self_of_head {p : Nat → Bool} {l : List Nat}
    (h : ∀ c, l.head? = some c → p c = false) : l.dropWhile p = l := by
  cases l with
  | nil => rfl
  | cons a l =>
    have := h a rfl
    simp [List.dropWhile, this]

theorem head_dropWhile_false (p : Nat → Bool) (l : List Nat) (c : Nat)
    (h : (l.dropWhile p).head? = some c) : p c = false := by
  have := List.head?_dropWhile_not p l
  rw [h] at this
  exact this

theorem head_of_initial {l1 l2 : List Nat} (h : l1 <+: l2) (c : Nat)
    (hc : l1.head? = some c) : l2.head? = some c := by
  obtain ⟨t, rfl⟩ := h
  cases l1 with
  | nil => simp at hc
  | cons a l1 => simpa using hc

/-- What is left by `trim_outer_whitespaces` begins with no blank. -/
theorem trim_outer_head (x : List Nat) (c : Nat)
    (h : (trim_outer_whitespaces x).head? = some c) : isblank c = false := by
  have hpre : trim_outer_whitespaces x <+: x.dropWhile isblank := by
    have hsuf := List.dropWhile_suffix (l := (x.dropWhile isblank).reverse) is_trailing_ws
    have := List.reverse_prefix.mpr hsuf
    rwa [List.reverse_reverse] at this
  exact head_dropWhile_false isblank x c (head_of_initial hpre c h)

/-- What is left by `trim_outer_whitespaces` ends with no white space. -/
theorem trim_outer_last (x : List Nat) (d : Nat)
    (h : (trim_outer_whitespaces x).getLast? = some d) : is_trailing_ws d = false := by
  rw [trim_outer_whitespaces, List.getLast?_reverse] at h
  exact head_dropWhile_false is_trailing_ws _ d h

/-- A string that begins with no blank and ends with no white space is left as
it is by `trim_outer_whitespaces`. -/
theorem trim_outer_eq_self {y : List Nat}
    (h1 : ∀ c, y.head? = some c → isblank c = false)
    (h2 : ∀ d, y.getLast? = some d → is_trailing_ws d = false) :
    trim_outer_whitespaces y = y := by
  rw [trim_outer_whitespaces, dropWhile_eq_self_of_head h1, dropWhile_eq_self_of_head,
    List.reverse_reverse]
  intro d hd
  rw [List.head?_reverse] at hd
  exact h2 d hd

theorem trim_outer_idem (x : List Nat) :
    trim_outer_whitespaces (trim_outer_whitespaces x) = trim_outer_whitespaces x :=
  trim_outer_eq_self (trim_outer_head x) (trim_outer_last x)

theorem trim_outer_subset (x : List Nat) : trim_outer_whitespaces x ⊆ x := by
  intro c hc
  rw [trim_outer_whitespaces, List.mem_reverse] at hc
  have h1 := (List.dropWhile_sublist is_trailing_ws).subset hc
  rw [List.mem_reverse] at h1
  exact (List.dropWhile_sublist isblank).subset h1

/-! ### Lower-casing -/

theorem tolower_idem (c : Nat) : tolower (tolower c) = tolower c := by
  unfold tolower
  split_ifs <;> omega

theorem isblank_tolower (c : Nat) : isblank (tolower c) = isblank c := by
  unfold tolower isblank
  split_ifs with h
  · have e1 : (c + 32 == 32 || c + 32 == 9) = false := by simp; omega
    have e2 : (c == 32 || c == 9) = false := by simp; omega
    rw [e1, e2]
  · rfl

theorem is_trailing_ws_tolower (c : Nat) : is_trailing_ws (tolower c) = is_trailing_ws c := by
  unfold tolower is_trailing_ws
  split_ifs with h
  · have e1 : (c + 32 == 32 || c + 32 == 9 || c + 32 == 13 || c + 32 == 10) = false := by
      simp; omega
    have e2 : (c == 32 || c == 9 || c == 13 || c == 10) = false := by simp; omega
    rw [e1, e2]
  · rfl

theorem tolower_eq_colon {c : Nat} (h : tolower c = 58) : c = 58 := by
  unfold tolower at h
  split_ifs at h <;> omega

theorem lower_idem (x : List Nat) :
    normalize_string_lower (normalize_string_lower x) = normalize_string_lower x := by
  simp [normalize_string_lower, List.map_map, Function.comp_def, tolower_idem]

theorem lower_eq_self {x : List Nat} (h : ∀ c ∈ x, tolower c = c) :
    normalize_string_lower x = x := by
  rw [normalize_string_lower]
  conv_rhs => rw [← List.map_id x]
  exact List.map_congr_left h

theorem lower_fixed (x : List Nat) : ∀ c ∈ normalize_string_lower x, tolower c = c := by
  intro c hc
  rw [normalize_string_lower, List.mem_map] at hc
  obtain ⟨a, _, rfl⟩ := hc
  exact tolower_idem a

theorem lower_head (x : List Nat) (h : ∀ c, x.head? = some c → isblank c = false) :
    ∀ c, (normalize_string_lower x).head? = some c → isblank c = false := by
  intro c hc
  cases x with
  | nil => simp [normalize_string_lower] at hc
  | cons a x =>
    simp only [normalize_string_lower, List.map_cons, List.head?_cons, Option.some.injEq] at hc
    rw [← hc, isblank_tolower]
    exact h a rfl

theorem lower_last (x : List Nat) (h : ∀ d, x.getLast? = some d → is_trailing_ws d = false) :
    ∀ d, (normalize_string_lower x).getLast? = some d → is_trailing_ws d = false := by
  intro d hd
  rw [normalize_string_lower, List.getLast?_map] at hd
  cases hx : x.getLast? with
  | none => simp [hx] at hd
  | some a =>
    simp only [hx, Option.map_some', Option.some.injEq] at hd
    rw [← hd, is_trailing_ws_tolower]
    exact h a hx

/-! ### What `trim_internal_whitespaces` keeps -/

theorem trim_step_out_subset (s : TrimState) (c x : Nat)
    (hx : x ∈ (trim_internal_step s c).out) : x = c ∨ x ∈ s.out := by
  unfold trim_internal_step at hx
  split_ifs at hx
  all_goals first
    | exact Or.inr hx
    | (rw [List.mem_cons] at hx
       rcases hx with h | h
       · exact Or.inl h
       · first
         | exact Or.inr h
         | exact Or.inr ((List.dropWhile_sublist isblank).subset h))

theorem trim_foldl_out_subset (v : List Nat) :
    ∀ (s : TrimState) (x : Nat), x ∈ (v.foldl trim_internal_step s).out → x ∈ v ∨ x ∈ s.out := by
  induction v with
  | nil => intro s x hx; exact Or.inr hx
  | cons c v ih =>
    intro s x hx
    rcases ih _ x hx with h | h
    · exact Or.inl (List.mem_cons_of_mem _ h)
    · rcases trim_step_out_subset s c x h with h | h
      · exact Or.inl (h ▸ List.mem_cons_self _ _)
      · exact Or.inr h

/-- Every byte of the result is a byte of the value. -/
theorem trim_internal_subset (value : List Nat) : trim_internal_whitespaces value ⊆ value := by
  intro x hx
  unfold trim_internal_whitespaces at hx
  split_ifs at hx
  · exact hx
  · rw [List.mem_reverse] at hx
    rcases trim_foldl_out_subset value trim_start x hx with h | h
    · exact h
    · simp [trim_start] at h

/-- A byte that is no blank is written, whatever the state. -/
theorem trim_step_top (s : TrimState) (c : Nat) (hc : isblank c = false) :
    (trim_internal_step s c).out.head? = some c := by
  unfold trim_internal_step
  split_ifs with h1 h2 h3 h4 h5 h6 h7 <;> first
    | rfl
    | (simp only [Bool.and_eq_true] at h5; rw [hc] at h5; exact absurd h5.2 (by decide))

theorem getLast_dropWhile_isblank (l : List Nat) (b : Nat) (hl : l.getLast? = some b)
    (hb : isblank b = false) : (l.dropWhile isblank).getLast? = some b := by
  induction l with
  | nil => simp at hl
  | cons a l ih =>
    by_cases ha : isblank a = true
    · have hne : l ≠ [] := by
        intro h0
        subst h0
        simp only [List.getLast?_singleton, Option.some.injEq] at hl
        rw [hl, hb] at ha
        exact absurd ha (by decide)
      obtain ⟨a2, l2, rfl⟩ := List.exists_cons_of_ne_nil hne
      rw [List.getLast?_cons_cons] at hl
      simp only [List.dropWhile_cons, ha, if_true] at ih ⊢
      exact ih hl
    · simp only [List.dropWhile_cons, ha, Bool.false_eq_true, if_false]
      exact hl

/-- The first byte written, when it is no blank, stays the first. -/
theorem trim_step_bottom (s : TrimState) (c b : Nat) (hs : s.out.getLast? = some b)
    (hb : isblank b = false) : (trim_internal_step s c).out.getLast? = some b := by
  have hne : s.out ≠ [] := by
    intro h0
    rw [h0] at hs
    simp at hs
  obtain ⟨a, l, hal⟩ := List.exists_cons_of_ne_nil hne
  have hpush : (c :: s.out).getLast? = some b := by
    rw [hal, List.getLast?_cons_cons, ← hal]
    exact hs
  have hdrop : (c :: s.out.dropWhile isblank).getLast? = some b := by
    have h1 := getLast_dropWhile_isblank s.out b hs hb
    have hne2 : s.out.dropWhile isblank ≠ [] := by
      intro h0
      rw [h0] at h1
      simp at h1
    obtain ⟨a2, l2, hal2⟩ := List.exists_cons_of_ne_nil hne2
    rw [hal2, List.getLast?_cons_cons, ← hal2]
    exact h1
  unfold trim_internal_step
  split_ifs <;> first
    | exact hs
    | exact hpush
    | exact hdrop

theorem trim_foldl_bottom (v : List Nat) :
    ∀ (s : TrimState) (b : Nat), s.out.getLast? = some b → isblank b = false →
      (v.foldl trim_internal_step s).out.getLast? = some b := by
  induction v with
  | nil => intro s b hs _; exact hs
  | cons c v ih =>
    intro s b hs hb
    exact ih _ b (trim_step_bottom s c b hs hb) hb

theorem trim_start_step (c : Nat) :
    (trim_internal_step trim_start c).out = [c] := by
  unfold trim_internal_step trim_start
  simp only [Bool.false_eq_true, if_false, Bool.false_and, List.dropWhile_nil]
  split_ifs <;> rfl

/-- A trimmed value is still trimmed after `trim_internal_whitespaces`. -/
theorem trim_internal_keeps_ends {x : List Nat}
    (h1 : ∀ c, x.head? = some c → isblank c = false)
    (h2 : ∀ d, x.getLast? = some d → is_trailing_ws d = false) :
    (∀ c, (trim_internal_whitespaces x).head? = some c → isblank c = false) ∧
    (∀ d, (trim_internal_whitespaces x).getLast? = some d → is_trailing_ws d = false) := by
  cases x with
  | nil => exact ⟨h1, h2⟩
  | cons a x =>
    have ha : isblank a = false := h1 a rfl
    have hne : a :: x ≠ [] := by simp
    simp only [trim_internal_whitespaces, if_neg hne, List.head?_reverse, List.getLast?_reverse]
    constructor
    · intro c hc
      have hb := trim_foldl_bottom x (trim_internal_step trim_start a) a
        (by rw [trim_start_step a]; rfl) ha
      rw [List.foldl_cons] at hc
      rw [hb] at hc
      rw [← Option.some.inj hc]
      exact ha
    · intro d hd
      obtain ⟨init, e, hie⟩ : ∃ init e, a :: x = init ++ [e] := by
        rcases List.eq_nil_or_concat (a :: x) with h | ⟨init, e, h⟩
        · exact absurd h hne
        · exact ⟨init, e, by simpa using h⟩
      have he : is_trailing_ws e = false := h2 e (by rw [hie]; exact List.getLast?_concat _)
      have heb : isblank e = false := by
        unfold is_trailing_ws at he
        unfold isblank
        simp only [Bool.or_eq_false_iff] at he ⊢
        exact ⟨he.1.1.1, he.1.1.2⟩
      rw [hie, List.foldl_append, List.foldl_cons, List.foldl_nil, trim_step_top _ e heb] at hd
      rw [← Option.some.inj hd]
      exact he

/-! ### Normalizing a value twice -/

theorem normalized_value_def (n y : List Nat) :
    normalized_value n y =
      (if should_trim_ows n ≠ 0 then
        trim_internal_whitespaces
          (if is_header_value_case_insensitive n ≠ 0 then
            normalize_string_lower (trim_outer_whitespaces y) else trim_outer_whitespaces y)
       else
          (if is_header_value_case_insensitive n ≠ 0 then
            normalize_string_lower (trim_outer_whitespaces y) else trim_outer_whitespaces y)) :=
  rfl

/-- A normalized value is trimmed. -/
theorem normalized_value_ends (n v : List Nat) :
    (∀ c, (normalized_value n v).head? = some c → isblank c = false) ∧
    (∀ d, (normalized_value n v).getLast? = some d → is_trailing_ws d = false) := by
  have h1 := trim_outer_head v
  have h2 := trim_outer_last v
  rw [normalized_value_def]
  by_cases hci : is_header_value_case_insensitive n ≠ 0 <;>
    by_cases hows : should_trim_ows n ≠ 0
  · simp only [if_pos hci, if_pos hows]
    exact trim_internal_keeps_ends (lower_head _ h1) (lower_last _ h2)
  · simp only [if_pos hci, if_neg hows]
    exact ⟨lower_head _ h1, lower_last _ h2⟩
  · simp only [if_neg hci, if_pos hows]
    exact trim_internal_keeps_ends h1 h2
  · simp only [if_neg hci, if_neg hows]
    exact ⟨h1, h2⟩

/-- Normalizing a normalized value changes nothing. -/
theorem normalized_value_idem (n v : List Nat) :
    normalized_value n (normalized_value n v) = normalized_value n v := by
  have hends := normalized_value_ends n v
  have htrim := trim_outer_eq_self hends.1 hends.2
  rw [normalized_value_def n (normalized_value n v), htrim]
  have hlow2 : (if is_header_value_case_insensitive n ≠ 0 then
      normalize_string_lower (normalized_value n v) else normalized_value n v) =
      normalized_value n v := by
    by_cases hci : is_header_value_case_insensitive n ≠ 0
    · rw [if_pos hci]
      apply lower_eq_self
      rw [normalized_value_def]
      by_cases hows : should_trim_ows n ≠ 0
      · simp only [if_pos hci, if_pos hows]
        intro c hc
        exact lower_fixed _ c (trim_internal_subset _ hc)
      · simp only [if_pos hci, if_neg hows]
        exact lower_fixed _
    · rw [if_neg hci]
  rw [hlow2]
  by_cases hows : should_trim_ows n ≠ 0
  · rw [if_pos hows]
    conv_rhs => rw [normalized_value_def, if_pos hows]
    conv_lhs => rw [normalized_value_def, if_pos hows]
    exact trim_internal_whitespaces_idem _
  · rw [if_neg hows]

/-! ### Normalizing a header line twice -/

theorem strchr_some_split {s : List Nat} {c i : Nat} (h : strchr s c = some i) :
    c ∉ s.take i ∧ s = s.take i ++ c :: s.drop (i + 1) := by
  induction s generalizing i with
  | nil => simp [strchr] at h
  | cons a s ih =>
    rw [strchr] at h
    split at h
    · rename_i hac
      simp only [Option.some.injEq] at h
      subst h
      simp [hac]
    · rename_i hac
      cases hs : strchr s c with
      | none => simp [hs] at h
      | some j =>
        simp only [hs, Option.map_some', Option.some.injEq] at h
        subst h
        obtain ⟨h1, h2⟩ := ih hs
        constructor
        · rw [List.take_succ_cons, List.mem_cons]
          rintro (h | h)
          · exact hac h.symm
          · exact h1 h
        · rw [List.take_succ_cons, List.drop_succ_cons, List.cons_append, ← h2]

theorem lower_name_append (n v : List Nat) (hn : 58 ∉ n) :
    lower_name (n ++ 58 :: v) = normalize_string_lower n ++ 58 :: v := by
  induction n with
  | nil => simp [lower_name, normalize_string_lower]
  | cons a n ih =>
    have ha : a ≠ 58 := fun h => hn (h ▸ List.mem_cons_self _ _)
    have hn2 : 58 ∉ n := fun h => hn (List.mem_cons_of_mem _ h)
    have ih2 := ih hn2
    simp only [normalize_string_lower] at ih2 ⊢
    simp [lower_name, ha, ih2]

/-- The normalized name of a header line: the part before the first `:`, trimmed
and lower-cased. -/
theorem normalized_name_facts (name : List Nat) (hn : 58 ∉ name) :
    58 ∉ normalize_string_lower (trim_outer_whitespaces name) ∧
    trim_outer_whitespaces (normalize_string_lower (trim_outer_whitespaces name)) =
      normalize_string_lower (trim_outer_whitespaces name) ∧
    normalize_string_lower (normalize_string_lower (trim_outer_whitespaces name)) =
      normalize_string_lower (trim_outer_whitespaces name) := by
  refine ⟨?_, ?_, lower_idem _⟩
  · intro h
    rw [normalize_string_lower, List.mem_map] at h
    obtain ⟨a, ha, h58⟩ := h
    have := tolower_eq_colon h58
    subst this
    exact hn (trim_outer_subset name ha)
  · exact trim_outer_eq_self (lower_head _ (trim_outer_head name))
      (lower_last _ (trim_outer_last name))

theorem normalize_header_name_shape (line : List Nat) (i : Nat)
    (hs : strchr line 58 = some i) :
    normalize_header_name line =
      normalize_string_lower (trim_outer_whitespaces (line.take i)) ++
        58 :: line.drop (i + 1) := by
  have hne : line ≠ [] := by
    intro h0
    rw [h0] at hs
    simp [strchr] at hs
  have h58 : 58 ∉ trim_outer_whitespaces (line.take i) :=
    fun h => (strchr_some_split hs).1 (trim_outer_subset _ h)
  simp only [normalize_header_name, if_neg hne, hs]
  exact lower_name_append _ _ h58

theorem normalize_header_value_shape (n v : List Nat) (hn : 58 ∉ n) :
    normalize_header_value (n ++ 58 :: v) =
      n ++ 58 :: (if n.length = 0 ∨ n.length ≥ 128 then v else normalized_value n v) := by
  have hs := strchr_append_of_not_mem n v 58 hn
  have ht : (n ++ 58 :: v).take n.length = n := List.take_left' rfl
  have hd : (n ++ 58 :: v).drop (n.length + 1) = v := by
    have e : n ++ 58 :: v = (n ++ [58]) ++ v := by simp
    rw [e]
    exact List.drop_left' (by simp)
  simp only [normalize_header_value, hs]
  by_cases h0 : n.length = 0
  · simp only [h0, if_true, true_or]
  · by_cases h128 : n.length ≥ 128
    · simp only [h0, if_false, h128, if_true, or_true]
    · simp only [h0, if_false, h128, false_or, ht, hd]
      rfl

/-- **C10.** Header normalization is idempotent: for every header line (with or
without a `:`), applying `normalize_header` (that is `normalize_header_name`, then
`normalize_header_value`) twice gives the same string as applying it once. -/
theorem normalize_header_idempotent (line : List Nat) :
    normalize_header (normalize_header line) = normalize_header line := by
  cases hs : strchr line 58 with
  | none =>
    have h1 : normalize_header_name line = line := by
      simp only [normalize_header_name, hs]
      split_ifs <;> rfl
    have h2 : normalize_header_value line = line := by
      simp only [normalize_header_value, hs]
    simp only [normalize_header, h1, h2]
  | some i =>
    obtain ⟨hn, htrim, hlow⟩ := normalized_name_facts (line.take i) (strchr_some_split hs).1
    have hfirst : normalize_header line =
        normalize_string_lower (trim_outer_whitespaces (line.take i)) ++
          58 :: (if (normalize_string_lower (trim_outer_whitespaces (line.take i))).length = 0 ∨
                (normalize_string_lower (trim_outer_whitespaces (line.take i))).length ≥ 128
              then line.drop (i + 1)
              else normalized_value
                (normalize_string_lower (trim_outer_whitespaces (line.take i)))
                (line.drop (i + 1))) := by
      rw [normalize_header, normalize_header_name_shape line i hs,
        normalize_header_value_shape _ _ hn]
    rw [hfirst]
    generalize normalize_string_lower (trim_outer_whitespaces (line.take i)) = n at *
    generalize line.drop (i + 1) = v at *
    have hs2 : strchr (n ++ 58 :: (if n.length = 0 ∨ n.length ≥ 128 then v
        else normalized_value n v)) 58 = some n.length :=
      strchr_append_of_not_mem n _ 58 hn
    have ht : (n ++ 58 :: (if n.length = 0 ∨ n.length ≥ 128 then v
        else normalized_value n v)).take n.length = n := List.take_left' rfl
    have hd : (n ++ 58 :: (if n.length = 0 ∨ n.length ≥ 128 then v
        else normalized_value n v)).drop (n.length + 1) =
        (if n.length = 0 ∨ n.length ≥ 128 then v else normalized_value n v) := by
      have e : n ++ 58 :: (if n.length = 0 ∨ n.length ≥ 128 then v
          else normalized_value n v) =
          (n ++ [58]) ++ (if n.length = 0 ∨ n.length ≥ 128 then v
            else normalized_value n v) := by simp
      rw [e]
      exact List.drop_left' (by simp)
    rw [normalize_header, normalize_header_name_shape _ n.length hs2, ht, hd, htrim, hlow,
      normalize_header_value_shape _ _ hn]
    by_cases hskip : n.length = 0 ∨ n.length ≥ 128
    · simp only [if_pos hskip]
    · simp only [if_neg hskip, normalized_value_idem]

/-! ### Quoted spans in `trim_internal_whitespaces` -/

/-- The flags of the loop follow the quoted spans of the text read. -/
theorem trim_foldl_flags (text : List Nat) :
    ∀ s : TrimState, (s.inside_quotes = false → s.escape_next = false) →
      (text.foldl trim_internal_step s).inside_quotes =
          !outside_quotes_from s.inside_quotes s.escape_next text ∧
      ((text.foldl trim_internal_step s).inside_quotes = false →
        (text.foldl trim_internal_step s).escape_next = false) := by
  induction text with
  | nil =>
    intro s hs
    exact ⟨by simp [outside_quotes_from], hs⟩
  | cons c text ih =>
    intro s hs
    rw [List.foldl_cons]
    by_cases hq : s.inside_quotes = true
    · by_cases he : s.escape_next = true
      · have hstep : trim_internal_step s c =
            { out := c :: s.out, inside_quotes := true, escape_next := false,
              skipping := false } := by
          simp [trim_internal_step, hq, he]
        have := ih (trim_internal_step s c) (by rw [hstep]; simp)
        rw [hstep] at this ⊢
        simpa [hq, he, outside_quotes_from] using this
      · have he2 : s.escape_next = false := by simpa using he
        by_cases h92 : c = 92
        · have hstep : trim_internal_step s c =
              { out := c :: s.out, inside_quotes := true, escape_next := true,
                skipping := false } := by
            simp [trim_internal_step, hq, he2, h92]
          have := ih (trim_internal_step s c) (by rw [hstep]; simp)
          rw [hstep] at this ⊢
          simpa [hq, he2, outside_quotes_from, h92] using this
        · by_cases h34 : c = 34
          · have hstep : trim_internal_step s c =
                { out := c :: s.out, inside_quotes := false, escape_next := false,
                  skipping := false } := by
              simp [trim_internal_step, hq, he2, h34]
            have := ih (trim_internal_step s c) (by rw [hstep]; simp)
            rw [hstep] at this ⊢
            simpa [hq, he2, outside_quotes_from, h34] using this
          · have hstep : trim_internal_step s c =
                { out := c :: s.out, inside_quotes := true, escape_next := false,
                  skipping := false } := by
              simp [trim_internal_step, hq, he2, h92, h34]
            have := ih (trim_internal_step s c) (by rw [hstep]; simp)
            rw [hstep] at this ⊢
            simpa [hq, he2, outside_quotes_from, h92, h34] using this
    · have hq2 : s.inside_quotes = false := by simpa using hq
      have he2 := hs hq2
      have hnext : (trim_internal_step s c).inside_quotes = (c == 34) ∧
          (trim_internal_step s c).escape_next = false := by
        unfold trim_internal_step
        simp only [hq2, Bool.false_eq_true, if_false, he2]
        split_ifs with h1 h2 h3
        · have hb : isblank c = true := by
            simp only [Bool.and_eq_true] at h1
            exact h1.2
          have hc : (c == 34) = false := by
            rw [beq_eq_false_iff_ne]
            intro h
            rw [h] at hb
            exact absurd hb (by decide)
          exact ⟨by rw [hq2, hc], he2⟩
        · exact ⟨by simp [h2], rfl⟩
        · have hc : (c == 34) = false := by rw [beq_eq_false_iff_ne]; exact h2
          exact ⟨by rw [hc], rfl⟩
        · have hc : (c == 34) = false := by rw [beq_eq_false_iff_ne]; exact h2
          exact ⟨by rw [hc], rfl⟩
      have := ih (trim_internal_step s c) (fun _ => hnext.2)
      rw [hnext.1, hnext.2] at this
      rw [hq2]
      simpa [outside_quotes_from] using this

/-- Inside quotes the bytes of the span are written one by one; when the span
ends before the value does, the loop is outside quotes and the last byte written
is the closing quote. -/
theorem trim_foldl_span (rest : List Nat) :
    ∀ s : TrimState, s.inside_quotes = true →
      ((rest.take (quoted_span_length s.escape_next rest)).foldl trim_internal_step s).out =
          (rest.take (quoted_span_length s.escape_next rest)).reverse ++ s.out ∧
      (quoted_span_length s.escape_next rest < rest.length →
        ((rest.take (quoted_span_length s.escape_next rest)).foldl trim_internal_step
            s).inside_quotes = false ∧
        ((rest.take (quoted_span_length s.escape_next rest)).foldl trim_internal_step
            s).out.head? = some 34) := by
  induction rest with
  | nil =>
    intro s _
    simp [quoted_span_length]
  | cons c rest ih =>
    intro s hq
    by_cases he : s.escape_next = true
    · have hstep : trim_internal_step s c =
          { out := c :: s.out, inside_quotes := true, escape_next := false,
            skipping := false } := by
        simp [trim_internal_step, hq, he]
      have := ih (trim_internal_step s c) (by rw [hstep])
      rw [hstep] at this
      simp only [he, quoted_span_length, List.take_succ_cons, List.foldl_cons, hstep,
        List.reverse_cons, List.append_assoc, List.singleton_append, List.length_cons,
        Nat.add_lt_add_iff_right]
      exact this
    · have he2 : s.escape_next = false := by simpa using he
      by_cases h92 : c = 92
      · have hstep : trim_internal_step s c =
            { out := c :: s.out, inside_quotes := true, escape_next := true,
              skipping := false } := by
          simp [trim_internal_step, hq, he2, h92]
        have := ih (trim_internal_step s c) (by rw [hstep])
        rw [hstep] at this
        simp only [he2, quoted_span_length, if_pos h92, List.take_succ_cons, List.foldl_cons,
          hstep, List.reverse_cons, List.append_assoc, List.singleton_append, List.length_cons,
          Nat.add_lt_add_iff_right]
        exact this
      · by_cases h34 : c = 34
        · have hstep : trim_internal_step s c =
              { out := c :: s.out, inside_quotes := false, escape_next := false,
                skipping := false } := by
            simp [trim_internal_step, hq, he2, h34]
          simp only [he2, quoted_span_length, if_neg h92, if_pos h34, List.take_succ_cons,
            List.take_zero, List.foldl_cons, List.foldl_nil, hstep, List.reverse_cons,
            List.reverse_nil, List.nil_append, List.singleton_append, List.head?_cons]
          simp [h34]
        · have hstep : trim_internal_step s c =
              { out := c :: s.out, inside_quotes := true, escape_next := false,
                skipping := false } := by
            simp [trim_internal_step, hq, he2, h92, h34]
          have := ih (trim_internal_step s c) (by rw [hstep])
          rw [hstep] at this
          simp only [he2, quoted_span_length, if_neg h92, if_neg h34, List.take_succ_cons,
            List.foldl_cons, hstep, List.reverse_cons, List.append_assoc,
            List.singleton_append, List.length_cons, Nat.add_lt_add_iff_right]
          exact this

theorem dropWhile_isblank_above (base : List Nat) (t : Nat) (hb : base.head? = some t)
    (ht : isblank t = false) (more : List Nat) :
    ∃ more2, (more ++ base).dropWhile isblank = more2 ++ base := by
  induction more with
  | nil =>
    refine ⟨[], ?_⟩
    show base.dropWhile isblank = base
    apply dropWhile_eq_self_of_head
    intro c hc
    rw [hb] at hc
    rw [← Option.some.inj hc]
    exact ht
  | cons a more ih =>
    by_cases ha : isblank a = true
    · obtain ⟨m2, hm2⟩ := ih
      exact ⟨m2, by simp only [List.cons_append, List.dropWhile_cons, ha, if_true, hm2]⟩
    · exact ⟨a :: more, by simp [List.dropWhile_cons, ha]⟩

/-- Written bytes that end with a byte that is no blank are never removed. -/
theorem trim_foldl_above (base : List Nat) (t : Nat) (hb : base.head? = some t)
    (ht : isblank t = false) (post : List Nat) :
    ∀ s : TrimState, (∃ more, s.out = more ++ base) →
      ∃ more, (post.foldl trim_internal_step s).out = more ++ base := by
  induction post with
  | nil => intro s h; exact h
  | cons c post ih =>
    intro s h
    rw [List.foldl_cons]
    apply ih
    obtain ⟨more, hmore⟩ := h
    obtain ⟨m2, hm2⟩ := dropWhile_isblank_above base t hb ht more
    unfold trim_internal_step
    split_ifs
    all_goals first
      | exact ⟨more, hmore⟩
      | exact ⟨c :: more, by rw [hmore]; rfl⟩
      | exact ⟨c :: m2, by rw [hmore, hm2]; rfl⟩

theorem trim_internal_eq_out (value : List Nat) :
    trim_internal_whitespaces value = (value.foldl trim_internal_step trim_start).out.reverse := by
  unfold trim_internal_whitespaces
  split_ifs with h
  · rw [h]; rfl
  · rfl

/-- **C11.** For every header value, `trim_internal_whitespaces` copies every
double-quoted span byte for byte: when a `"` follows a text `pre` whose end lies
outside every quoted span, the result is the result for `pre`, then the span (the
opening quote and the bytes up to the next `"` that is not preceded by an
unconsumed backslash, or up to the end of the value) unchanged, then the bytes
written for the rest; no blank of the span is removed and `,`, `;`, `=` inside it
are no delimiters. -/
theorem trim_internal_keeps_quoted (pre rest : List Nat) (h : outside_quotes pre = true) :
    ∃ tail, trim_internal_whitespaces (pre ++ 34 :: rest) =
      trim_internal_whitespaces pre ++ 34 :: rest.take (quoted_span_length false rest) ++
        tail := by
  obtain ⟨hq1, he1⟩ := trim_foldl_flags pre trim_start (fun _ => rfl)
  have hq : (pre.foldl trim_internal_step trim_start).inside_quotes = false := by
    rw [hq1]
    show (!outside_quotes pre) = false
    rw [h]; rfl
  have he := he1 hq
  have hopen : trim_internal_step (pre.foldl trim_internal_step trim_start) 34 =
      { out := 34 :: (pre.foldl trim_internal_step trim_start).out, inside_quotes := true,
        escape_next := false, skipping := false } := by
    have hb : isblank 34 = false := by decide
    simp only [trim_internal_step, hq, Bool.false_eq_true, if_false, hb, Bool.and_false,
      if_true, he]
  obtain ⟨hout, hclosed⟩ := trim_foldl_span rest
    (trim_internal_step (pre.foldl trim_internal_step trim_start) 34) (by rw [hopen])
  rw [hopen] at hout hclosed
  simp only at hout hclosed
  have hsplit : pre ++ 34 :: rest =
      pre ++ 34 :: (rest.take (quoted_span_length false rest) ++
        rest.drop (quoted_span_length false rest)) := by
    rw [List.take_append_drop]
  rw [trim_internal_eq_out, trim_internal_eq_out, hsplit, List.foldl_append, List.foldl_cons,
    List.foldl_append, hopen]
  by_cases hend : quoted_span_length false rest < rest.length
  · obtain ⟨hq3, htop⟩ := hclosed hend
    obtain ⟨more, hmore⟩ := trim_foldl_above _ 34 htop (by decide)
      (rest.drop (quoted_span_length false rest)) _ ⟨[], rfl⟩
    refine ⟨more.reverse, ?_⟩
    rw [hmore, hout]
    simp
  · refine ⟨[], ?_⟩
    rw [List.drop_eq_nil_of_le (by omega), List.foldl_nil, hout]
    simp

set_option maxRecDepth 100000 in
/-- Witness for C11: the value of
`Content-Disposition: attachment; filename="a, b; c=d"`. -/
theorem trim_internal_keeps_quoted_witness :
    outside_quotes (bytes "attachment; filename=") = true ∧
    (bytes "a, b; c=d\"").take (quoted_span_length false (bytes "a, b; c=d\"")) =
      bytes "a, b; c=d\"" ∧
    normalize_header (bytes "Content-Disposition: attachment; filename=\"a, b; c=d\"") =
      bytes "content-disposition:attachment;filename=\"a, b; c=d\"" ∧
    ∃ tail, trim_internal_whitespaces (bytes "attachment; filename=" ++
        34 :: bytes "a, b; c=d\"") =
      trim_internal_whitespaces (bytes "attachment; filename=") ++
        34 :: (bytes "a, b; c=d\"").take (quoted_span_length false (bytes "a, b; c=d\"")) ++
        tail :=
  ⟨by decide, by decide, by decide,
    trim_internal_keeps_quoted (bytes "attachment; filename=") (bytes "a, b; c=d\"")
      (by decide)⟩

/-! ### `trim_internal_whitespaces` removes the white space next to unquoted delimiters -/

theorem is_ows_eq_isblank : is_ows = isblank := rfl

theorem is_delimiter_iff (c : Nat) : is_delimiter c = true ↔ (c = 59 ∨ c = 44 ∨ c = 61) := by
  simp [is_delimiter, or_assoc]

theorem is_delimiter_not_blank {c : Nat} (h : isblank c = true) : is_delimiter c = false := by
  rw [← Bool.not_eq_true, is_delimiter_iff]
  intro hd
  rw [isblank_delimiter hd] at h
  exact absurd h (by decide)

theorem not_quote_of_blank {c : Nat} (h : isblank c = true) : c ≠ 34 ∧ c ≠ 92 := by
  constructor <;> (intro hc; rw [hc] at h; exact absurd h (by decide))

theorem follows_delimiter_snoc (before : List Nat) (c : Nat) :
    follows_delimiter (before ++ [c]) =
      if isblank c = true then follows_delimiter before
      else is_delimiter c && outside_quotes before := by
  unfold follows_delimiter
  rw [List.reverse_append, List.reverse_singleton, List.singleton_append, List.dropWhile_cons,
    is_ows_eq_isblank]
  by_cases h : isblank c = true
  · simp only [h, if_true]
  · simp only [h, Bool.false_eq_true, if_false, List.reverse_reverse]

theorem begins_with_delimiter_cons (c : Nat) (after : List Nat) :
    begins_with_delimiter (c :: after) =
      if isblank c = true then begins_with_delimiter after else is_delimiter c := by
  unfold begins_with_delimiter
  rw [List.dropWhile_cons, is_ows_eq_isblank]
  by_cases h : isblank c = true
  · simp only [h, if_true]
  · simp only [h, Bool.false_eq_true, if_false]

/-- White space does not change the side of the quotes on which a text ends. -/
theorem outside_quotes_from_blanks (x : List Nat) (hx : ∀ c ∈ x, isblank c = true) :
    ∀ e, outside_quotes_from true e x = false ∧ outside_quotes_from false e x = true := by
  induction x with
  | nil => intro e; cases e <;> exact ⟨rfl, rfl⟩
  | cons c x ih =>
    intro e
    have hc := not_quote_of_blank (hx c (List.mem_cons_self _ _))
    have ih2 := ih (fun d hd => hx d (List.mem_cons_of_mem _ hd))
    have h34 : (c == 34) = false := by rw [beq_eq_false_iff_ne]; exact hc.1
    refine ⟨?_, ?_⟩
    · cases e with
      | true => simpa only [outside_quotes_from] using (ih2 false).1
      | false =>
        simp only [outside_quotes_from, if_neg hc.2, if_neg hc.1]
        exact (ih2 false).1
    · simp only [outside_quotes_from, h34]
      exact (ih2 false).2

/-- The side of the quotes on which `before ++ x` ends, told from the side on
which `before` ends. -/
theorem outside_quotes_append (before x : List Nat) :
    outside_quotes (before ++ x) =
      outside_quotes_from (!outside_quotes before)
        (before.foldl trim_internal_step trim_start).escape_next x := by
  have h1 := (trim_foldl_flags (before ++ x) trim_start (fun _ => rfl)).1
  have h2 := trim_foldl_flags before trim_start (fun _ => rfl)
  have h3 := (trim_foldl_flags x (before.foldl trim_internal_step trim_start) h2.2).1
  rw [List.foldl_append] at h1
  rw [h1, h2.1] at h3
  have h4 : outside_quotes_from trim_start.inside_quotes trim_start.escape_next (before ++ x) =
      outside_quotes (before ++ x) := rfl
  have h5 : outside_quotes_from trim_start.inside_quotes trim_start.escape_next before =
      outside_quotes before := rfl
  rw [h4, h5] at h3
  simpa using h3

theorem outside_quotes_append_blanks (before x : List Nat) (hx : ∀ c ∈ x, isblank c = true) :
    outside_quotes (before ++ x) = outside_quotes before := by
  rw [outside_quotes_append]
  cases h : outside_quotes before with
  | true => exact (outside_quotes_from_blanks x hx _).2
  | false => exact (outside_quotes_from_blanks x hx _).1

theorem takeWhile_isblank_all (l : List Nat) : ∀ c ∈ l.takeWhile isblank, isblank c = true := by
  intro c hc
  exact (List.mem_takeWhile_imp hc)

/-- The flag of the loop that skips white space after a delimiter says that the
text read ends with an unquoted delimiter followed by white space only. -/
theorem trim_step_skipping (s : TrimState) (c : Nat) (before : List Nat)
    (hq : s.inside_quotes = !outside_quotes before)
    (hk : s.skipping = follows_delimiter before)
    (hi : s.inside_quotes = true → s.skipping = false) :
    (trim_internal_step s c).skipping = follows_delimiter (before ++ [c]) ∧
    ((trim_internal_step s c).inside_quotes = true →
      (trim_internal_step s c).skipping = false) := by
  rw [follows_delimiter_snoc]
  by_cases hin : s.inside_quotes = true
  · have hout : outside_quotes before = false := by
      rw [hin] at hq
      cases h : outside_quotes before with
      | true => rw [h] at hq; exact absurd hq (by decide)
      | false => rfl
    have hsk : (trim_internal_step s c).skipping = false := by
      unfold trim_internal_step
      simp only [hin, if_true]
      split_ifs <;> rfl
    refine ⟨?_, fun _ => hsk⟩
    rw [hsk, hout, Bool.and_false, ← hk, hi hin]
    simp
  · have hin2 : s.inside_quotes = false := by simpa using hin
    have hout : outside_quotes before = true := by
      rw [hin2] at hq
      cases h : outside_quotes before with
      | true => rfl
      | false => rw [h] at hq; exact absurd hq (by decide)
    rw [hout, Bool.and_true, ← hk]
    by_cases hb : isblank c = true
    · have hc := not_quote_of_blank hb
      have hd : ¬ (c = 59 ∨ c = 44 ∨ c = 61) := by
        intro h
        have := is_delimiter_not_blank hb
        rw [(is_delimiter_iff c).mpr h] at this
        exact absurd this (by decide)
      by_cases hs : s.skipping = true
      · have hstep : trim_internal_step s c = s := by
          simp [trim_internal_step, hin2, hs, hb]
        rw [hstep, if_pos hb]
        exact ⟨rfl, hi⟩
      · have hs2 : s.skipping = false := by simpa using hs
        have hstep : trim_internal_step s c =
            { out := c :: s.out, inside_quotes := false, escape_next := s.escape_next,
              skipping := false } := by
          simp [trim_internal_step, hin2, hs2, hc.1, hd]
        rw [hstep, if_pos hb, hs2]
        exact ⟨rfl, fun h => rfl⟩
    · have hb2 : isblank c = false := by simpa using hb
      rw [if_neg hb]
      unfold trim_internal_step
      simp only [hin2, Bool.false_eq_true, if_false, hb2, Bool.and_false]
      split_ifs with h34 hd
      · refine ⟨?_, fun _ => rfl⟩
        rw [h34]; rfl
      · exact ⟨((is_delimiter_iff c).mpr hd).symm, fun h => absurd h (by simp)⟩
      · refine ⟨?_, fun _ => rfl⟩
        have : is_delimiter c = false := by
          rw [← Bool.not_eq_true, is_delimiter_iff]; exact hd
        rw [this]

/-- The state of the loop after the text `before`. -/
theorem trim_foldl_skipping (before : List Nat) :
    (before.foldl trim_internal_step trim_start).skipping = follows_delimiter before ∧
    ((before.foldl trim_internal_step trim_start).inside_quotes = true →
      (before.foldl trim_internal_step trim_start).skipping = false) := by
  induction before using List.reverseRecOn with
  | nil => exact ⟨rfl, fun _ => rfl⟩
  | append_singleton l a ih =>
    rw [List.foldl_append, List.foldl_cons, List.foldl_nil]
    have hq := (trim_foldl_flags l trim_start (fun _ => rfl)).1
    exact trim_step_skipping _ a l hq ih.1 ih.2

theorem trim_step_inside_out (s : TrimState) (c : Nat) (h : s.inside_quotes = true) :
    (trim_internal_step s c).out = c :: s.out := by
  unfold trim_internal_step
  simp only [h, if_true]
  split_ifs <;> rfl

theorem reverse_pending_nonblank (flag : Bool) (c : Nat) (o : List Nat)
    (hc : isblank c = false) :
    (if flag = true then (c :: o).dropWhile isblank else c :: o).reverse = o.reverse ++ [c] := by
  rw [List.dropWhile_cons, hc]
  simp

/-- One byte read: the bytes written, less the white space at their end when an
unquoted delimiter comes next, grow by the byte read unless it is white space
next to an unquoted delimiter. -/
theorem trim_step_pending (before : List Nat) (c : Nat) (after : List Nat) :
    (if (outside_quotes (before ++ [c]) && begins_with_delimiter after) = true then
        (trim_internal_step (before.foldl trim_internal_step trim_start) c).out.dropWhile isblank
      else (trim_internal_step (before.foldl trim_internal_step trim_start) c).out).reverse =
    (if (outside_quotes before && begins_with_delimiter (c :: after)) = true then
        (before.foldl trim_internal_step trim_start).out.dropWhile isblank
      else (before.foldl trim_internal_step trim_start).out).reverse ++
      (if is_delimiter_ows before c after = true then [] else [c]) := by
  obtain ⟨hq, he⟩ := trim_foldl_flags before trim_start (fun _ => rfl)
  have hq2 : (before.foldl trim_internal_step trim_start).inside_quotes =
      !outside_quotes before := hq
  obtain ⟨hk, hi⟩ := trim_foldl_skipping before
  generalize before.foldl trim_internal_step trim_start = s at hq2 he hk hi ⊢
  clear hq
  have hows : is_ows c = isblank c := rfl
  have hprec : precedes_delimiter (before ++ [c]) after =
      (begins_with_delimiter after && outside_quotes (before ++ [c])) := by
    unfold precedes_delimiter
    rw [is_ows_eq_isblank, outside_quotes_append_blanks _ _ (takeWhile_isblank_all after)]
  rw [begins_with_delimiter_cons]
  unfold is_delimiter_ows
  rw [hows, hprec]
  by_cases hb : isblank c = true
  · have hside : outside_quotes (before ++ [c]) = outside_quotes before :=
      outside_quotes_append_blanks before [c] (by simpa using hb)
    rw [hside, if_pos hb, hb, Bool.true_and, ← hk]
    by_cases hin : s.inside_quotes = true
    · have hout : outside_quotes before = false := by
        rw [hin] at hq2
        cases h : outside_quotes before with
        | true => rw [h] at hq2; exact absurd hq2 (by decide)
        | false => rfl
      rw [hout, trim_step_inside_out s c hin, hi hin]
      simp
    · have hin2 : s.inside_quotes = false := by simpa using hin
      have hout : outside_quotes before = true := by
        rw [hin2] at hq2
        cases h : outside_quotes before with
        | true => rfl
        | false => rw [h] at hq2; exact absurd hq2 (by decide)
      have hc := not_quote_of_blank hb
      have hd : ¬ (c = 59 ∨ c = 44 ∨ c = 61) := by
        intro h
        have := is_delimiter_not_blank hb
        rw [(is_delimiter_iff c).mpr h] at this
        exact absurd this (by decide)
      rw [hout]
      by_cases hs : s.skipping = true
      · have hstep : trim_internal_step s c = s := by
          simp [trim_internal_step, hin2, hs, hb]
        rw [hstep, hs]
        simp
      · have hs2 : s.skipping = false := by simpa using hs
        have hstep : trim_internal_step s c =
            { out := c :: s.out, inside_quotes := false, escape_next := s.escape_next,
              skipping := false } := by
          simp [trim_internal_step, hin2, hs2, hc.1, hd]
        rw [hstep, hs2]
        simp only [Bool.true_and, Bool.false_or, Bool.and_true, List.dropWhile_cons, hb, if_true]
        by_cases hbd : begins_with_delimiter after = true
        · simp [hbd]
        · simp [hbd]
  · have hb2 : isblank c = false := by simpa using hb
    rw [if_neg hb, hb2, Bool.false_and]
    simp only [Bool.false_eq_true, if_false]
    by_cases hin : s.inside_quotes = true
    · have hout : outside_quotes before = false := by
        rw [hin] at hq2
        cases h : outside_quotes before with
        | true => rw [h] at hq2; exact absurd hq2 (by decide)
        | false => rfl
      rw [trim_step_inside_out s c hin, reverse_pending_nonblank _ c _ hb2, hout]
      simp
    · have hin2 : s.inside_quotes = false := by simpa using hin
      have hout : outside_quotes before = true := by
        rw [hin2] at hq2
        cases h : outside_quotes before with
        | true => rfl
        | false => rw [h] at hq2; exact absurd hq2 (by decide)
      rw [hout, Bool.true_and]
      by_cases h34 : c = 34
      · have hstep : (trim_internal_step s c).out = c :: s.out := by
          have hb34 : isblank 34 = false := by decide
          simp [trim_internal_step, hin2, h34, hb34]
        have hnd : is_delimiter c = false := by rw [h34]; rfl
        rw [hstep, reverse_pending_nonblank _ c _ hb2, hnd]
        simp
      · by_cases hd : c = 59 ∨ c = 44 ∨ c = 61
        · have hstep : (trim_internal_step s c).out = c :: s.out.dropWhile isblank := by
            simp [trim_internal_step, hin2, hb2, h34, hd]
          rw [hstep, reverse_pending_nonblank _ c _ hb2, (is_delimiter_iff c).mpr hd]
          simp
        · have hstep : (trim_internal_step s c).out = c :: s.out := by
            simp [trim_internal_step, hin2, hb2, h34, hd]
          have hnd : is_delimiter c = false := by
            rw [← Bool.not_eq_true, is_delimiter_iff]; exact hd
          rw [hstep, reverse_pending_nonblank _ c _ hb2, hnd]
          simp

/-- The loop of `trim_internal_whitespaces`, resumed after the text `before`,
writes what the specification keeps. -/
theorem trim_foldl_eq_spec (after : List Nat) :
    ∀ before : List Nat,
      (after.foldl trim_internal_step (before.foldl trim_internal_step trim_start)).out.reverse =
        (if (outside_quotes before && begins_with_delimiter after) = true then
            (before.foldl trim_internal_step trim_start).out.dropWhile isblank
          else (before.foldl trim_internal_step trim_start).out).reverse ++
          remove_delimiter_ows before after := by
  induction after with
  | nil =>
    intro before
    simp [begins_with_delimiter, remove_delimiter_ows]
  | cons c after ih =>
    intro before
    have h := ih (before ++ [c])
    rw [List.foldl_append, List.foldl_cons, List.foldl_nil] at h
    rw [List.foldl_cons, h, trim_step_pending before c after]
    by_cases hr : is_delimiter_ows before c after = true
    · simp [remove_delimiter_ows, hr]
    · simp [remove_delimiter_ows, hr]

/-- What `trim_internal_whitespaces` returns is the value without the white space
next to its unquoted delimiters. -/
theorem trim_internal_eq_spec (value : List Nat) :
    trim_internal_whitespaces value = remove_delimiter_ows [] value := by
  rw [trim_internal_eq_out]
  have h := trim_foldl_eq_spec value []
  simpa [trim_start] using h

/-! ### The normal form of a header line -/

theorem tolower_eq (c : Nat) : tolower c = ascii_tolower_uc c := rfl

/-- `str_case_cmp` finds two strings equal exactly when they agree after
lower-casing. -/
theorem str_case_cmp_eq_zero_iff (a : List Nat) :
    ∀ b : List Nat, 0 ∉ a → 0 ∉ b →
      (str_case_cmp a b = 0 ↔ normalize_string_lower a = normalize_string_lower b) := by
  induction a with
  | nil =>
    intro b _ hb
    cases b with
    | nil => simp [str_case_cmp, normalize_string_lower]
    | cons y b =>
      have hy : y ≠ 0 := fun h => hb (h ▸ List.mem_cons_self _ _)
      simp only [str_case_cmp, normalize_string_lower, List.map_nil, List.map_cons]
      constructor
      · intro h; omega
      · intro h; exact absurd h (by simp)
  | cons x a ih =>
    intro b ha hb
    have hx : x ≠ 0 := fun h => ha (h ▸ List.mem_cons_self _ _)
    have ha2 : 0 ∉ a := fun h => ha (List.mem_cons_of_mem _ h)
    cases b with
    | nil =>
      simp only [str_case_cmp, normalize_string_lower, List.map_nil, List.map_cons]
      constructor
      · intro h; omega
      · intro h; exact absurd h (by simp)
    | cons y b =>
      have hb2 : 0 ∉ b := fun h => hb (List.mem_cons_of_mem _ h)
      simp only [str_case_cmp, normalize_string_lower, List.map_cons, List.cons.injEq,
        tolower_eq]
      by_cases hxy : ascii_tolower_uc x = ascii_tolower_uc y
      · have := ih b ha2 hb2
        simp only [normalize_string_lower] at this
        simp only [hxy, ne_eq, not_true_eq_false, if_false, true_and]
        rw [this]
      · simp only [ne_eq, hxy, not_false_eq_true, if_true, false_and, iff_false]
        intro h
        exact hxy (by omega)

theorem find_congr {α : Type} (l : List α) (p q : α → Bool) (h : ∀ x ∈ l, p x = q x) :
    l.find? p = l.find? q := by
  induction l with
  | nil => rfl
  | cons a l ih =>
    have ha := h a (List.mem_cons_self _ _)
    have ih2 := ih (fun x hx => h x (List.mem_cons_of_mem _ hx))
    simp only [List.find?_cons, ha, ih2]

set_option maxRecDepth 100000 in
theorem header_mappings_names : ∀ r ∈ header_mappings, 0 ∉ r.1 := by
  decide

/-- The lookup of the two functions is the lookup of the matching row. -/
theorem lookup_eq_matching_row (name : List Nat) (h0 : 0 ∉ name) :
    header_mappings.find? (fun r => decide (str_case_cmp name r.1 = 0)) = matching_row name := by
  unfold matching_row
  apply find_congr
  intro r hr
  have := str_case_cmp_eq_zero_iff name r.1 h0 (header_mappings_names r hr)
  by_cases h : str_case_cmp name r.1 = 0
  · have h2 := this.mp h
    simp [h, h2]
  · have h2 : ¬ normalize_string_lower r.1 = normalize_string_lower name :=
      fun e => h (this.mpr e.symm)
    simp [h, h2]

/-- What `normalize_header_value` does to a value is what the specification
asks for. -/
theorem normalized_value_eq_expected (name value : List Nat) (h0 : 0 ∉ name) :
    normalized_value name value = expected_value name value := by
  have hl := lookup_eq_matching_row name h0
  unfold normalized_value expected_value is_header_value_case_insensitive should_trim_ows
  rw [hl]
  cases matching_row name with
  | none => simp
  | some row => simp only [trim_internal_eq_spec]

theorem tolower_eq_zero {c : Nat} (h : tolower c = 0) : c = 0 := by
  unfold tolower at h
  split_ifs at h
  omega

theorem normalized_name_no_nul (N : List Nat) (h0 : 0 ∉ N) :
    0 ∉ normalize_string_lower (trim_outer_whitespaces N) := by
  intro h
  rw [normalize_string_lower, List.mem_map] at h
  obtain ⟨a, ha, h2⟩ := h
  have := tolower_eq_zero h2
  subst this
  exact h0 (trim_outer_subset N ha)

/-- **C12 (amended).** For every header line `N : V`, split at the first `:`,
whose name `N` trimmed has 1 to 127 bytes, `normalize_header` yields
`lower(trim(N)) : V'` where `V'` is `V` with the surrounding white space trimmed,
then lower-cased exactly when the row of `header_mappings` that matches the name
case-insensitively has `value_case_insensitive` set, then without the white space
next to unquoted `;`, `,`, `=` (every space or tab that nothing but spaces and
tabs separate from such a delimiter before or after it) exactly when that row has
`trim_ows` set; a name with no row in the table gets the outer trim only.  When
the trimmed name is empty or has 128 bytes or more, only the name is normalized
and `V` is left as it is. -/
theorem normalize_header_form (N V : List Nat) (hN : 58 ∉ N) (h0 : 0 ∉ N) :
    (0 < (trim_outer_whitespaces N).length ∧ (trim_outer_whitespaces N).length < 128 →
      normalize_header (N ++ 58 :: V) =
        normalize_string_lower (trim_outer_whitespaces N) ++
          58 :: expected_value (normalize_string_lower (trim_outer_whitespaces N)) V) ∧
    ((trim_outer_whitespaces N).length = 0 ∨ 128 ≤ (trim_outer_whitespaces N).length →
      normalize_header (N ++ 58 :: V) =
        normalize_string_lower (trim_outer_whitespaces N) ++ 58 :: V) ∧
    (matching_row (normalize_string_lower (trim_outer_whitespaces N)) = none →
      expected_value (normalize_string_lower (trim_outer_whitespaces N)) V =
        trim_outer_whitespaces V) := by
  have hs := strchr_append_of_not_mem N V 58 hN
  have ht : (N ++ 58 :: V).take N.length = N := List.take_left' rfl
  have hd : (N ++ 58 :: V).drop (N.length + 1) = V := by
    have e : N ++ 58 :: V = (N ++ [58]) ++ V := by simp
    rw [e]
    exact List.drop_left' (by simp)
  obtain ⟨hn58, _, _⟩ := normalized_name_facts N hN
  have hshape : normalize_header (N ++ 58 :: V) =
      normalize_string_lower (trim_outer_whitespaces N) ++
        58 :: (if (normalize_string_lower (trim_outer_whitespaces N)).length = 0 ∨
            (normalize_string_lower (trim_outer_whitespaces N)).length ≥ 128 then V
          else normalized_value (normalize_string_lower (trim_outer_whitespaces N)) V) := by
    rw [normalize_header, normalize_header_name_shape _ _ hs, ht, hd,
      normalize_header_value_shape _ _ hn58]
  have hlen : (normalize_string_lower (trim_outer_whitespaces N)).length =
      (trim_outer_whitespaces N).length := by
    simp [normalize_string_lower]
  rw [hlen] at hshape
  refine ⟨?_, ?_, ?_⟩
  · intro hb
    rw [hshape, if_neg (by omega),
      normalized_value_eq_expected _ _ (normalized_name_no_nul N h0)]
  · intro hb
    rw [hshape, if_pos (by omega)]
  · intro hrow
    simp only [expected_value, hrow]

set_option maxRecDepth 100000 in
/-- Witness for C12 (amended): `Connection:  Keep-Alive ` gives
`connection:keep-alive`; `Content-Type:  Text/HTML ; Charset = "A ; b" ` gives
`content-type:text/html;charset="a ; b"`; and `X-Foo:  Bar , Baz`, whose name has
no row, gives `x-foo:Bar , Baz`. -/
theorem normalize_header_form_witness :
    normalize_header (bytes "Connection" ++ 58 :: bytes "  Keep-Alive ") =
      normalize_string_lower (trim_outer_whitespaces (bytes "Connection")) ++
        58 :: expected_value (normalize_string_lower (trim_outer_whitespaces
          (bytes "Connection"))) (bytes "  Keep-Alive ") ∧
    normalize_header (bytes "Connection:  Keep-Alive ") = bytes "connection:keep-alive" ∧
    normalize_header (bytes "Content-Type" ++ 58 :: bytes "  Text/HTML ; Charset = \"A ; b\" ") =
      normalize_string_lower (trim_outer_whitespaces (bytes "Content-Type")) ++
        58 :: expected_value (normalize_string_lower (trim_outer_whitespaces
          (bytes "Content-Type"))) (bytes "  Text/HTML ; Charset = \"A ; b\" ") ∧
    expected_value (bytes "content-type") (bytes "  Text/HTML ; Charset = \"A ; b\" ") =
      bytes "text/html;charset=\"a ; b\"" ∧
    normalize_header (bytes "Content-Type:  Text/HTML ; Charset = \"A ; b\" ") =
      bytes "content-type:text/html;charset=\"a ; b\"" ∧
    remove_delimiter_ows [] (bytes "a , b c \"d , e\" ;\t f  g") =
      bytes "a,b c \"d , e\";f  g" ∧
    normalize_header (bytes "X-Foo:  Bar , Baz") = bytes "x-foo:Bar , Baz" ∧
    expected_value (normalize_string_lower (trim_outer_whitespaces (bytes "X-Foo")))
      (bytes "  Bar , Baz") = trim_outer_whitespaces (bytes "  Bar , Baz") :=
  ⟨(normalize_header_form (bytes "Connection") (bytes "  Keep-Alive ") (by decide)
      (by decide)).1 (by decide),
    by decide,
    (normalize_header_form (bytes "Content-Type") (bytes "  Text/HTML ; Charset = \"A ; b\" ")
      (by decide) (by decide)).1 (by decide),
    by decide, by decide, by decide, by decide,
    (normalize_header_form (bytes "X-Foo") (bytes "  Bar , Baz") (by decide)
      (by decide)).2.2 (by decide)⟩

set_option maxRecDepth 100000 in
/-- **C12 (counterexample).** The line `:  x ` has an empty name: the value is not
trimmed, although the claim asks for `:x`.  The same holds for a name of 128
letters `a`. -/
theorem normalize_header_form_counterexample :
    normalize_header (bytes ":  x ") = bytes ":  x " ∧
    normalize_header (bytes ":  x ") ≠
      normalize_string_lower (trim_outer_whitespaces []) ++
        58 :: expected_value (normalize_string_lower (trim_outer_whitespaces []))
          (bytes "  x ") ∧
    normalize_header (List.replicate 128 97 ++ bytes ":  x ") =
      List.replicate 128 97 ++ bytes ":  x " := by
  decide

/-! ### The header parser on the lines of a head -/

/-- The first `\r\n` of a line followed by its terminator is the terminator. -/
theorem strstr_line (l rest : List Nat) (hl : strstr l CRLF = none) :
    strstr (l ++ CRLF ++ rest) CRLF = some l.length := by
  induction l with
  | nil => simp [strstr, CRLF]
  | cons a l ih =>
    have hinf : ¬ CRLF <:+: a :: l := (strstr_eq_none_iff _ _).mp hl
    have hl2 : strstr l CRLF = none := by
      rw [strstr_eq_none_iff]
      exact fun h => hinf (List.infix_cons_iff.mpr (Or.inr h))
    have hpre : ¬ CRLF <+: a :: (l ++ CRLF ++ rest) := by
      rintro ⟨t, ht⟩
      simp only [CRLF, List.cons_append, List.nil_append, List.cons.injEq] at ht
      obtain ⟨ha, ht2⟩ := ht
      cases l with
      | nil =>
        simp only [List.nil_append, List.cons_append, List.cons.injEq] at ht2
        omega
      | cons b l =>
        simp only [List.cons_append, List.cons.injEq] at ht2
        apply hinf
        rw [← ha, ← ht2.1]
        exact (List.prefix_append [13, 10] l).isInfix
    rw [List.cons_append, List.cons_append, strstr, if_neg hpre, ih hl2]
    rfl

theorem strchr_eq_none_iff_not_mem (s : List Nat) (c : Nat) :
    strchr s c = none ↔ c ∉ s := by
  constructor
  · intro h hc
    induction s with
    | nil => simp at hc
    | cons a s ih =>
      rw [strchr] at h
      split at h
      · simp at h
      · rename_i hac
        rw [List.mem_cons] at hc
        rcases hc with hc | hc
        · exact hac hc.symm
        · cases hs : strchr s c with
          | none => exact ih hs hc
          | some j => simp [hs] at h
  · exact strchr_eq_none_of_not_mem s c

theorem is_visited_line_iff {l : List Nat} :
    is_visited_line l = true ↔ l ≠ [] ∧ l.head? ≠ some 13 ∧ strstr l CRLF = none := by
  cases l <;> simp [is_visited_line, and_assoc]

/-- On the lines it visits, followed by a text at which it stops, the loop of
`parse_headers` does what `headers_outcome` tells. -/
theorem parse_headers_loop_lines (tail : List Nat) :
    ∀ (lines : List (List Nat)) (n : Nat) (req : http_request),
      (∀ l ∈ lines, is_visited_line l = true) →
      (lines.length < n → ends_header_lines tail = true) →
      parse_headers_loop n (header_block lines ++ tail) req = headers_outcome n lines req := by
  intro lines
  induction lines with
  | nil =>
    intro n req _ htail
    cases n with
    | zero => rfl
    | succ n =>
      have ht := htail (by simp)
      simp only [ends_header_lines, Bool.or_eq_true, decide_eq_true_eq] at ht
      simp only [header_block, List.nil_append, parse_headers_loop, headers_outcome]
      rcases ht with h | h
      · rw [if_pos h]
      · split_ifs
        · rfl
        · rw [h]
  | cons l ls ih =>
    intro n req hlines htail
    cases n with
    | zero => rfl
    | succ n =>
      obtain ⟨hne, hhead, hcr⟩ := is_visited_line_iff.mp (hlines l (List.mem_cons_self _ _))
      have hstr : strstr (l ++ CRLF ++ (header_block ls ++ tail)) CRLF = some l.length :=
        strstr_line l _ hcr
      have hshape : header_block (l :: ls) ++ tail = l ++ CRLF ++ (header_block ls ++ tail) := by
        simp [header_block, List.append_assoc]
      have hhead2 : ¬ (l ++ CRLF ++ (header_block ls ++ tail)).head? = some 13 := by
        obtain ⟨a, l2, rfl⟩ := List.exists_cons_of_ne_nil hne
        simpa using hhead
      have hlen : ¬ l.length = 0 := by
        intro h0
        exact hne (List.eq_nil_of_length_eq_zero h0)
      have htake : (l ++ CRLF ++ (header_block ls ++ tail)).take l.length = l := by
        rw [List.append_assoc]
        exact List.take_left' rfl
      have hdrop : (l ++ CRLF ++ (header_block ls ++ tail)).drop (l.length + 2) =
          header_block ls ++ tail :=
        List.drop_left' (by simp [CRLF])
      have ih2 := ih n (store_header l req) (fun x hx => hlines x (List.mem_cons_of_mem _ hx))
        (fun h => htail (by simp only [List.length_cons]; omega))
      rw [hshape]
      simp only [parse_headers_loop, headers_outcome, if_neg hhead2, hstr, if_neg hlen, htake,
        hdrop]
      by_cases hbig : l.length ≥ MAX_HEADER_LINE
      · simp only [if_pos hbig]
      · simp only [if_neg hbig]
        by_cases hcolon : 58 ∈ l
        · have hs : ∃ i, strchr l 58 = some i := by
            cases hsc : strchr l 58 with
            | none =>
              exfalso
              have := strchr_eq_none_iff_not_mem l 58
              exact (this.mp hsc) hcolon
            | some i => exact ⟨i, rfl⟩
          obtain ⟨i, hi⟩ := hs
          simp only [hi, hcolon, not_true_eq_false, if_false, ih2]
        · have hs : strchr l 58 = none := strchr_eq_none_of_not_mem l 58 hcolon
          simp only [hs, hcolon, not_false_eq_true, if_true]

/-- The text before the first `\r\n` holds none, and the `\r\n` follows it. -/
theorem strstr_crlf_split : ∀ (t : List Nat) (i : Nat), strstr t CRLF = some i →
    t = t.take i ++ CRLF ++ t.drop (i + 2) ∧ strstr (t.take i) CRLF = none := by
  intro t
  induction t with
  | nil =>
    intro i h
    simp [strstr, CRLF] at h
  | cons a t ih =>
    intro i h
    rw [strstr] at h
    by_cases hp : CRLF <+: a :: t
    · rw [if_pos hp] at h
      injection h with h
      subst h
      obtain ⟨s, hs⟩ := hp
      refine ⟨?_, by simp [strstr, CRLF]⟩
      rw [← hs]
      simp [CRLF]
    · rw [if_neg hp] at h
      cases hs : strstr t CRLF with
      | none => simp [hs] at h
      | some j =>
        simp only [hs, Option.map_some', Option.some.injEq] at h
        subst h
        obtain ⟨h1, h2⟩ := ih j hs
        refine ⟨?_, ?_⟩
        · simp only [List.take_succ_cons, List.cons_append, List.drop_succ_cons]
          exact congrArg (List.cons a) h1
        · have hnp : ¬ CRLF <+: a :: t.take j :=
            fun hpre => hp (hpre.trans (List.take_prefix (j + 1) (a :: t)))
          rw [List.take_succ_cons, strstr, if_neg hnp, h2]
          rfl

/-- Every text splits into lines that `parse_headers` visits and a text at which
it stops. -/
theorem exists_header_lines : ∀ (n : Nat) (t : List Nat), t.length ≤ n →
    ∃ lines tail, t = header_block lines ++ tail ∧
      (∀ l ∈ lines, is_visited_line l = true) ∧ ends_header_lines tail = true := by
  intro n
  induction n with
  | zero =>
    intro t ht
    have : t = [] := List.eq_nil_of_length_eq_zero (by omega)
    subst this
    exact ⟨[], [], rfl, by simp, by decide⟩
  | succ n ih =>
    intro t ht
    by_cases h13 : t.head? = some 13
    · exact ⟨[], t, rfl, by simp, by simp [ends_header_lines, h13]⟩
    · cases hs : strstr t CRLF with
      | none => exact ⟨[], t, rfl, by simp, by simp [ends_header_lines, hs]⟩
      | some i =>
        obtain ⟨hsplit, hnone⟩ := strstr_crlf_split t i hs
        have hi : i ≠ 0 := by
          intro h0
          subst h0
          apply h13
          rw [hsplit]
          simp [CRLF]
        have hlen : i + 2 ≤ t.length := by
          have := congrArg List.length hsplit
          simp only [List.length_append, List.length_take, List.length_drop, CRLF,
            List.length_cons, List.length_nil] at this
          omega
        have hne : t.take i ≠ [] := by
          intro e
          have := congrArg List.length e
          rw [List.length_take, List.length_nil] at this
          omega
        have hhead : (t.take i).head? ≠ some 13 := by
          cases t with
          | nil => simp at hlen
          | cons a t =>
            cases i with
            | zero => exact absurd rfl hi
            | succ i => simpa using h13
        obtain ⟨lines, tail, hrest, hvis, hend⟩ := ih (t.drop (i + 2)) (by
          rw [List.length_drop]
          omega)
        refine ⟨t.take i :: lines, tail, ?_, ?_, hend⟩
        · conv_lhs => rw [hsplit, hrest]
          simp [header_block, List.append_assoc]
        · intro l hl
          rw [List.mem_cons] at hl
          rcases hl with rfl | hl
          · exact is_visited_line_iff.mpr ⟨hne, hhead, hnone⟩
          · exact hvis l hl

/-- Every text that holds a `\r\n` is a request line, lines that `parse_headers`
visits, and a text at which it stops. -/
theorem exists_head_shape (data : List Nat) (h : strstr data CRLF ≠ none) :
    ∃ rl lines tail, data = rl ++ CRLF ++ header_block lines ++ tail ∧
      strstr rl CRLF = none ∧ (∀ l ∈ lines, is_visited_line l = true) ∧
      ends_header_lines tail = true := by
  cases hs : strstr data CRLF with
  | none => exact absurd hs h
  | some i =>
    obtain ⟨hsplit, hnone⟩ := strstr_crlf_split data i hs
    obtain ⟨lines, tail, hrest, hvis, hend⟩ := exists_header_lines _ (data.drop (i + 2)) le_rfl
    refine ⟨data.take i, lines, tail, ?_, hnone, hvis, hend⟩
    conv_lhs => rw [hsplit, hrest]
    simp [List.append_assoc]

/-! ### Header entries and their names -/

theorem ascii_tolower_uc_ne_zero {c : Nat} (h : c ≠ 0) : ascii_tolower_uc c ≠ 0 := by
  unfold ascii_tolower_uc
  split_ifs <;> omega

/-- Over the whole length of a NUL-free key, `strn_case_cmp` finds equality
exactly when the first bytes of the string agree with the key after
lower-casing. -/
theorem strn_case_cmp_eq_zero_iff (b : List Nat) (hb : 0 ∉ b) :
    ∀ a : List Nat, strn_case_cmp a b b.length = 0 ↔
      normalize_string_lower (a.take b.length) = normalize_string_lower b := by
  induction b with
  | nil =>
    intro a
    cases a <;> simp [strn_case_cmp, normalize_string_lower]
  | cons y b ih =>
    intro a
    have hy : ascii_tolower_uc y ≠ 0 :=
      ascii_tolower_uc_ne_zero (fun h => hb (h ▸ List.mem_cons_self _ _))
    have hb2 : 0 ∉ b := fun h => hb (List.mem_cons_of_mem _ h)
    cases a with
    | nil =>
      simp only [List.length_cons, strn_case_cmp, List.take_nil, normalize_string_lower,
        List.map_nil, List.map_cons]
      constructor
      · intro h; omega
      · intro h; exact absurd h (by simp)
    | cons x a =>
      simp only [List.length_cons, strn_case_cmp, List.take_succ_cons, normalize_string_lower,
        List.map_cons, List.cons.injEq, tolower_eq]
      by_cases hxy : ascii_tolower_uc x = ascii_tolower_uc y
      · have := ih hb2 a
        simp only [normalize_string_lower, tolower_eq] at this
        simp only [hxy, ne_eq, not_true_eq_false, if_false, true_and]
        exact this
      · simp only [ne_eq, hxy, not_false_eq_true, if_true, false_and, iff_false]
        intro h
        exact hxy (by omega)

theorem exists_split_at (a : List Nat) (n : Nat) (h : n + 1 ≤ a.length) :
    ∃ p c rest, a = p ++ c :: rest ∧ p.length = n := by
  have hd : a.drop n ≠ [] := by
    intro e
    have := congrArg List.length e
    simp only [List.length_drop, List.length_nil] at this
    omega
  obtain ⟨c, rest, hc⟩ := List.exists_cons_of_ne_nil hd
  refine ⟨a.take n, c, rest, ?_, ?_⟩
  · rw [← hc, List.take_append_drop]
  · rw [List.length_take]
    omega

theorem take_succ_split (p rest : List Nat) (c : Nat) :
    (p ++ c :: rest).take (p.length + 1) = p ++ [c] := by
  have : p ++ c :: rest = (p ++ [c]) ++ rest := by simp
  rw [this]
  exact List.take_left' (by simp)

/-- Comparing the first bytes of an entry with `key:` tells whether the entry is
named `key`. -/
theorem strn_case_cmp_key (k : List Nat) (hk0 : 0 ∉ k)
    (hk58 : 58 ∉ normalize_string_lower k) (a : List Nat) :
    strn_case_cmp a (k ++ [58]) (k.length + 1) = 0 ↔ is_named k a = true := by
  have h0 : 0 ∉ k ++ [58] := by simp [hk0]
  have hlen : (k ++ [58]).length = k.length + 1 := by simp
  have hiff := strn_case_cmp_eq_zero_iff (k ++ [58]) h0 a
  rw [hlen] at hiff
  rw [hiff]
  have hlow : normalize_string_lower (k ++ [58]) = normalize_string_lower k ++ [58] := by
    simp [normalize_string_lower, tolower]
  rw [hlow]
  constructor
  · intro hmap
    have hal : k.length + 1 ≤ a.length := by
      have := congrArg List.length hmap
      simp only [normalize_string_lower, List.length_map, List.length_take,
        List.length_append, List.length_singleton] at this
      omega
    obtain ⟨p, c, rest, rfl, hp⟩ := exists_split_at a k.length hal
    rw [← hp, take_succ_split] at hmap
    simp only [normalize_string_lower, List.map_append, List.map_cons, List.map_nil] at hmap
    obtain ⟨hpk, hc⟩ := List.append_inj hmap (by simp [hp])
    have hc58 : c = 58 := tolower_eq_colon (by simpa using hc)
    have hnot : 58 ∉ p := by
      intro hmem
      apply hk58
      rw [normalize_string_lower, ← hpk]
      exact List.mem_map.mpr ⟨58, hmem, by decide⟩
    subst hc58
    unfold is_named
    rw [strchr_append_of_not_mem p rest 58 hnot]
    have ht : (p ++ 58 :: rest).take p.length = p := List.take_left' rfl
    simp only [ht, normalize_string_lower, hpk, decide_True]
  · intro hn
    unfold is_named at hn
    cases hs : strchr a 58 with
    | none => simp [hs] at hn
    | some i =>
      simp only [hs, decide_eq_true_eq] at hn
      obtain ⟨_, hsplit⟩ := strchr_some_split hs
      have hi := strchr_lt_length hs
      have hik : i = k.length := by
        have := congrArg List.length hn
        simp only [normalize_string_lower, List.length_map, List.length_take] at this
        omega
      have hti : (a.take i).length = i := by
        rw [List.length_take]
        omega
      obtain ⟨p, rest, ha, hpl, htk⟩ :
          ∃ p rest, a = p ++ 58 :: rest ∧ p.length = i ∧ a.take i = p :=
        ⟨a.take i, a.drop (i + 1), hsplit, hti, rfl⟩
      rw [htk] at hn
      have ht : a.take (k.length + 1) = p ++ [58] := by
        rw [ha, ← hik, ← hpl]
        exact take_succ_split _ _ _
      rw [ht]
      simp only [normalize_string_lower, List.map_append, List.map_cons, List.map_nil] at hn ⊢
      rw [hn]
      rfl

theorem is_named_congr (k1 k2 h : List Nat)
    (hk : normalize_string_lower k1 = normalize_string_lower k2) :
    is_named k1 h = is_named k2 h := by
  unfold is_named
  rw [hk]

/-- The value of an entry named `key` starts right after `key:`. -/
theorem header_value_of_named (k h : List Nat) (hn : is_named k h = true) :
    header_value h = h.drop (k.length + 1) := by
  unfold is_named at hn
  unfold header_value
  cases hs : strchr h 58 with
  | none => simp [hs] at hn
  | some i =>
    simp only [hs, decide_eq_true_eq] at hn
    have hi := strchr_lt_length hs
    have := congrArg List.length hn
    simp only [normalize_string_lower, List.length_map, List.length_take] at this
    have hik : i = k.length := by omega
    simp only [hik]

theorem connection_test_iff (h : List Nat) :
    strn_case_cmp h (bytes "Connection:") 11 = 0 ↔ is_named (bytes "connection") h = true := by
  have h1 := strn_case_cmp_key (bytes "Connection") (by decide) (by decide) h
  have h2 := is_named_congr (bytes "Connection") (bytes "connection") h (by decide)
  rw [← h2]
  exact h1

theorem host_test_iff (h : List Nat) :
    strn_case_cmp h (bytes "Host:") 5 = 0 ↔ is_named (bytes "host") h = true := by
  have h1 := strn_case_cmp_key (bytes "Host") (by decide) (by decide) h
  have h2 := is_named_congr (bytes "Host") (bytes "host") h (by decide)
  rw [← h2]
  exact h1

/-! ### What the header parser stores -/

theorem store_header_headers (l : List Nat) (req : http_request) :
    (store_header l req).headers = req.headers ++ [normalize_header l] := by
  unfold store_header normalize_header
  simp only []
  split_ifs <;> rfl

theorem store_header_connection (l : List Nat) (req : http_request) :
    (store_header l req).connection_header =
      if fits_connection_field (normalize_header l) = true then
        header_value (normalize_header l)
      else req.connection_header := by
  unfold store_header fits_connection_field
  simp only []
  rw [show normalize_header_value (normalize_header_name l) = normalize_header l from rfl]
  by_cases hc : strn_case_cmp (normalize_header l) (bytes "Connection:") 11 = 0
  · have hn := (connection_test_iff _).mp hc
    have hv := header_value_of_named _ _ hn
    rw [show (bytes "connection").length + 1 = 11 from rfl] at hv
    rw [if_pos hc, hn, hv]
    simp only [Bool.true_and, decide_eq_true_eq]
    split_ifs <;> rfl
  · have hn : is_named (bytes "connection") (normalize_header l) = false := by
      cases hb : is_named (bytes "connection") (normalize_header l) with
      | false => rfl
      | true => exact absurd ((connection_test_iff _).mpr hb) hc
    rw [if_neg hc, hn]
    simp

theorem foldl_store_headers (ls : List (List Nat)) :
    ∀ req : http_request,
      (ls.foldl (fun r l => store_header l r) req).headers =
        req.headers ++ ls.map normalize_header := by
  induction ls with
  | nil => intro req; simp
  | cons l ls ih =>
    intro req
    rw [List.foldl_cons, ih, store_header_headers]
    simp

theorem foldl_store_connection (ls : List (List Nat)) :
    ∀ req : http_request,
      (ls.foldl (fun r l => store_header l r) req).connection_header =
        match (ls.map normalize_header).reverse.find? fits_connection_field with
        | some h => header_value h
        | none => req.connection_header := by
  induction ls with
  | nil => intro req; rfl
  | cons l ls ih =>
    intro req
    rw [List.foldl_cons, ih, List.map_cons, List.reverse_cons, List.find?_append]
    cases hf : (ls.map normalize_header).reverse.find? fits_connection_field with
    | some h => rfl
    | none =>
      rw [store_header_connection]
      by_cases hc : fits_connection_field (normalize_header l) = true
      · simp [hc]
      · simp [hc]

theorem headers_outcome_fst (lines : List (List Nat)) :
    ∀ (n : Nat) (req : http_request),
      (headers_outcome n lines req).1 =
        match (lines.take n).find? is_bad_line with
        | none => 1
        | some l => if l.length ≥ MAX_HEADER_LINE then HTTP_HEADERS_TOO_LARGE
          else HTTP_PARSE_ERROR := by
  induction lines with
  | nil =>
    intro n req
    cases n <;> rfl
  | cons l ls ih =>
    intro n req
    cases n with
    | zero => rfl
    | succ n =>
      rw [headers_outcome, List.take_succ_cons, List.find?_cons]
      by_cases hbig : l.length ≥ MAX_HEADER_LINE
      · have hb : is_bad_line l = true := by simp [is_bad_line, hbig]
        simp only [hb, if_pos hbig]
      · by_cases hcolon : 58 ∈ l
        · have hb : is_bad_line l = false := by simp [is_bad_line, hbig, hcolon]
          simp only [hb, if_neg hbig, hcolon, not_true_eq_false, if_false]
          exact ih n _
        · have hb : is_bad_line l = true := by simp [is_bad_line, hcolon]
          simp only [hb, if_neg hbig, hcolon, not_false_eq_true, if_true]

theorem headers_outcome_ok (lines : List (List Nat)) :
    ∀ (n : Nat) (req : http_request),
      (∀ l ∈ lines.take n, is_bad_line l = false) →
      headers_outcome n lines req =
        (1, (lines.take n).foldl (fun r l => store_header l r) req) := by
  induction lines with
  | nil =>
    intro n req _
    cases n <;> rfl
  | cons l ls ih =>
    intro n req hgood
    cases n with
    | zero => rfl
    | succ n =>
      rw [List.take_succ_cons] at hgood
      have hl := hgood l (List.mem_cons_self _ _)
      simp only [is_bad_line, Bool.or_eq_false_iff, decide_eq_false_iff_not, not_not] at hl
      rw [headers_outcome, if_neg hl.1, if_neg (not_not.mpr hl.2), List.take_succ_cons,
        List.foldl_cons]
      exact ih n _ (fun x hx => hgood x (List.mem_cons_of_mem _ hx))

theorem headers_outcome_good (lines : List (List Nat)) (n : Nat) (req : http_request)
    (hok : (headers_outcome n lines req).1 = 1) :
    ∀ l ∈ lines.take n, is_bad_line l = false := by
  rw [headers_outcome_fst] at hok
  cases hf : (lines.take n).find? is_bad_line with
  | none =>
    intro l hl
    have := List.find?_eq_none.mp hf l hl
    simpa using this
  | some l =>
    rw [hf] at hok
    simp only [] at hok
    split_ifs at hok
    · exact absurd hok (by decide)
    · exact absurd hok (by decide)

/-- On a head made of a request line, header lines and a text at which the
parser stops, `parse_headers` does what `headers_outcome` tells. -/
theorem parse_headers_lines (rl : List Nat) (lines : List (List Nat)) (tail : List Nat)
    (req : http_request) (hrl : strstr rl CRLF = none)
    (hlines : ∀ l ∈ lines, is_visited_line l = true)
    (htail : lines.length < MAX_HEADERS → ends_header_lines tail = true) :
    parse_headers (rl ++ CRLF ++ header_block lines ++ tail) req =
      headers_outcome MAX_HEADERS lines { req with headers := [] } := by
  unfold parse_headers
  rw [List.append_assoc (rl ++ CRLF), strstr_line rl _ hrl]
  simp only []
  rw [List.drop_left' (by simp [CRLF])]
  exact parse_headers_loop_lines tail lines MAX_HEADERS _ hlines htail

/-! ### The header parser: failures, stored entries, `Connection` -/

/-- **C13 (amended).** On a head made of a request line, the lines that stand
before the first line beginning with `\r` (the blank line, or an earlier line
that starts with a bare `\r`; in a text that is not framed, a last line without
`\r\n`), and the rest, `parse_headers` fails exactly when one of these lines,
the first 100 at most, is 8192 bytes or longer or holds no `:`; the first such
line decides the result: `HTTP_HEADERS_TOO_LARGE` if it is 8192 bytes or longer,
`HTTP_PARSE_ERROR` otherwise. -/
theorem parse_headers_first_bad_line (rl : List Nat) (lines : List (List Nat))
    (tail : List Nat) (req : http_request) (hrl : strstr rl CRLF = none)
    (hlines : ∀ l ∈ lines, is_visited_line l = true)
    (htail : lines.length < MAX_HEADERS → ends_header_lines tail = true) :
    (parse_headers (rl ++ CRLF ++ header_block lines ++ tail) req).1 =
      (match (lines.take MAX_HEADERS).find? is_bad_line with
        | none => 1
        | some l =>
          if l.length ≥ MAX_HEADER_LINE then HTTP_HEADERS_TOO_LARGE else HTTP_PARSE_ERROR) ∧
    ((parse_headers (rl ++ CRLF ++ header_block lines ++ tail) req).1 ≠ 1 ↔
      ∃ l ∈ lines.take MAX_HEADERS, is_bad_line l = true) := by
  rw [parse_headers_lines rl lines tail req hrl hlines htail]
  refine ⟨headers_outcome_fst _ _ _, ?_, ?_⟩
  · intro hne
    by_contra hnone
    apply hne
    have hgood : ∀ l ∈ lines.take MAX_HEADERS, is_bad_line l = false := by
      intro l hl
      cases hb : is_bad_line l with
      | false => rfl
      | true => exact absurd ⟨l, hl, hb⟩ hnone
    rw [headers_outcome_ok lines MAX_HEADERS _ hgood]
  · rintro ⟨l, hl, hb⟩ hok
    have := headers_outcome_good lines MAX_HEADERS _ hok l hl
    rw [this] at hb
    exact absurd hb (by decide)

set_option maxRecDepth 100000 in
/-- Witness for C13 (amended): the second of three header lines has no `:`. -/
theorem parse_headers_first_bad_line_witness :
    strstr (bytes "GET / HTTP/1.1") CRLF = none ∧
    (∀ l ∈ [bytes "Host: x", bytes "nocolon", bytes "A: b"], is_visited_line l = true) ∧
    ends_header_lines (CRLF ++ bytes "body") = true ∧
    bytes "GET / HTTP/1.1" ++ CRLF ++
        header_block [bytes "Host: x", bytes "nocolon", bytes "A: b"] ++ (CRLF ++ bytes "body") =
      bytes "GET / HTTP/1.1\r\nHost: x\r\nnocolon\r\nA: b\r\n\r\nbody" ∧
    (parse_headers (bytes "GET / HTTP/1.1" ++ CRLF ++
        header_block [bytes "Host: x", bytes "nocolon", bytes "A: b"] ++
        (CRLF ++ bytes "body")) {}).1 = HTTP_PARSE_ERROR :=
  ⟨by decide, by decide, by decide, by decide,
    (parse_headers_first_bad_line (bytes "GET / HTTP/1.1")
      [bytes "Host: x", bytes "nocolon", bytes "A: b"] (CRLF ++ bytes "body") {}
      (by decide) (by decide) (fun _ => by decide)).1.trans (by decide)⟩

set_option maxRecDepth 100000 in
/-- **C13 (counterexample).** In this framed head the line `\rnocolon` stands
before the blank line and holds no `:`, yet `parse_headers` succeeds: the loop
stops at this line, which begins with `\r`, and never tests it. -/
theorem parse_headers_first_bad_line_counterexample :
    bytes "GET / HTTP/1.1" ++ CRLF ++ header_block [bytes "A: b", bytes "\rnocolon"] ++ CRLF =
      bytes "GET / HTTP/1.1\r\nA: b\r\n\rnocolon\r\n\r\n" ∧
    strstr (bytes "GET / HTTP/1.1\r\nA: b\r\n\rnocolon\r\n\r\n") CRLFCRLF = some 30 ∧
    58 ∉ bytes "\rnocolon" ∧ is_bad_line (bytes "\rnocolon") = true ∧
    parse_headers (bytes "GET / HTTP/1.1\r\nA: b\r\n\rnocolon\r\n\r\n") {} =
      (1, { headers := [bytes "a:b"] }) := by
  decide

set_option maxRecDepth 100000 in
/-- **C14 (counterexample).** In this framed head two lines stand before the blank
line, the second beginning with a bare `\r`; `parse_headers` succeeds and stores
one entry only. -/
theorem parse_headers_stores_lines_counterexample :
    bytes "GET / HTTP/1.1" ++ CRLF ++ header_block [bytes "A: b", bytes "\rC: d"] ++ CRLF =
      bytes "GET / HTTP/1.1\r\nA: b\r\n\rC: d\r\n\r\n" ∧
    strstr (bytes "GET / HTTP/1.1\r\nA: b\r\n\rC: d\r\n\r\n") CRLFCRLF = some 27 ∧
    (parse_headers (bytes "GET / HTTP/1.1\r\nA: b\r\n\rC: d\r\n\r\n") {}).1 = 1 ∧
    (parse_headers (bytes "GET / HTTP/1.1\r\nA: b\r\n\rC: d\r\n\r\n") {}).2.headers =
      [bytes "a:b"] ∧
    (parse_headers (bytes "GET / HTTP/1.1\r\nA: b\r\n\rC: d\r\n\r\n") {}).2.headers ≠
      ([bytes "A: b", bytes "\rC: d"].take (min 2 100)).map normalize_header := by
  decide

/-- **C14 (amended).** On a head made of a request line, the `n` lines that stand
before the first line beginning with `\r`, and the rest, a successful
`parse_headers` has stored, in order, the normalized forms of the first
`min n 100` lines, so at most 100 entries; it succeeds whenever these lines are
shorter than 8192 bytes and hold a `:`, also when there are more than 100 of
them, and then stores exactly 100 entries. -/
theorem parse_headers_stores_lines (rl : List Nat) (lines : List (List Nat))
    (tail : List Nat) (req : http_request) (hrl : strstr rl CRLF = none)
    (hlines : ∀ l ∈ lines, is_visited_line l = true)
    (htail : lines.length < MAX_HEADERS → ends_header_lines tail = true) :
    ((parse_headers (rl ++ CRLF ++ header_block lines ++ tail) req).1 = 1 →
      (parse_headers (rl ++ CRLF ++ header_block lines ++ tail) req).2.headers =
        (lines.take (min lines.length 100)).map normalize_header ∧
      (parse_headers (rl ++ CRLF ++ header_block lines ++ tail) req).2.headers.length =
        min lines.length 100 ∧
      (parse_headers (rl ++ CRLF ++ header_block lines ++ tail) req).2.headers.length ≤ 100) ∧
    ((∀ l ∈ lines.take 100, is_bad_line l = false) →
      (parse_headers (rl ++ CRLF ++ header_block lines ++ tail) req).1 = 1) ∧
    (100 < lines.length → (∀ l ∈ lines.take 100, is_bad_line l = false) →
      (parse_headers (rl ++ CRLF ++ header_block lines ++ tail) req).1 = 1 ∧
      (parse_headers (rl ++ CRLF ++ header_block lines ++ tail) req).2.headers.length = 100) := by
  rw [parse_headers_lines rl lines tail req hrl hlines htail]
  have hmin : lines.take (min lines.length 100) = lines.take 100 := by
    rw [List.take_eq_take]
    omega
  have hstored : ∀ hgood : (∀ l ∈ lines.take 100, is_bad_line l = false),
      (headers_outcome MAX_HEADERS lines { req with headers := [] }).2.headers =
        (lines.take 100).map normalize_header := by
    intro hgood
    rw [headers_outcome_ok lines MAX_HEADERS _ hgood, foldl_store_headers]
    rfl
  refine ⟨?_, ?_, ?_⟩
  · intro hok
    have hgood := headers_outcome_good lines MAX_HEADERS _ hok
    have hs := hstored hgood
    have hl : ((lines.take 100).map normalize_header).length = min lines.length 100 := by
      rw [List.length_map, List.length_take]
      omega
    rw [hs, hmin]
    exact ⟨rfl, hl, by rw [hl]; omega⟩
  · intro hgood
    rw [headers_outcome_ok lines MAX_HEADERS _ hgood]
  · intro hmany hgood
    refine ⟨by rw [headers_outcome_ok lines MAX_HEADERS _ hgood], ?_⟩
    rw [hstored hgood, List.length_map, List.length_take]
    omega

set_option maxRecDepth 100000 in
/-- Witness for C14 (amended): a head with two header lines, and a head with 101 of them. -/
theorem parse_headers_stores_lines_witness :
    (strstr (bytes "GET / HTTP/1.1") CRLF = none ∧
      (∀ l ∈ [bytes "Host: x", bytes "Accept: A , B"], is_visited_line l = true) ∧
      ends_header_lines (CRLF ++ bytes "body") = true ∧
      (parse_headers (bytes "GET / HTTP/1.1" ++ CRLF ++
        header_block [bytes "Host: x", bytes "Accept: A , B"] ++ (CRLF ++ bytes "body")) {}) =
        (1, { headers := [bytes "host:x", bytes "accept:a,b"] })) ∧
    ((parse_headers (bytes "GET / HTTP/1.1" ++ CRLF ++
        header_block (List.replicate 101 (bytes "A: b")) ++ CRLF) {}).1 = 1 ∧
      (parse_headers (bytes "GET / HTTP/1.1" ++ CRLF ++
        header_block (List.replicate 101 (bytes "A: b")) ++ CRLF) {}).2.headers.length = 100) :=
  ⟨⟨by decide, by decide, by decide, by decide⟩,
    (parse_headers_stores_lines (bytes "GET / HTTP/1.1") (List.replicate 101 (bytes "A: b"))
      CRLF {} (by decide)
      (fun l hl => by rw [List.eq_of_mem_replicate hl]; decide)
      (fun _ => by decide)).2.2
      (by rw [List.length_replicate]; omega)
      (fun l hl => by rw [List.eq_of_mem_replicate (List.mem_of_mem_take hl)]; decide)⟩

/-- **C15.** After a successful `parse_headers`, `connection_header` is the value of
the last stored entry that is named `connection` and whose value is shorter than
32 bytes; without such an entry it is what it was before the call. -/
theorem parse_headers_connection_header (rl : List Nat) (lines : List (List Nat))
    (tail : List Nat) (req : http_request) (hrl : strstr rl CRLF = none)
    (hlines : ∀ l ∈ lines, is_visited_line l = true)
    (htail : lines.length < MAX_HEADERS → ends_header_lines tail = true)
    (hok : (parse_headers (rl ++ CRLF ++ header_block lines ++ tail) req).1 = 1) :
    (parse_headers (rl ++ CRLF ++ header_block lines ++ tail) req).2.headers =
      (lines.take MAX_HEADERS).map normalize_header ∧
    (parse_headers (rl ++ CRLF ++ header_block lines ++ tail) req).2.connection_header =
      match ((lines.take MAX_HEADERS).map normalize_header).reverse.find?
          fits_connection_field with
      | some h => header_value h
      | none => req.connection_header := by
  rw [parse_headers_lines rl lines tail req hrl hlines htail] at hok ⊢
  have hgood := headers_outcome_good lines MAX_HEADERS _ hok
  rw [headers_outcome_ok lines MAX_HEADERS _ hgood]
  exact ⟨by rw [foldl_store_headers]; rfl, by rw [foldl_store_connection]⟩

set_option maxRecDepth 100000 in
/-- Witness for C15: of three `Connection` lines the second is the last whose
value fits; the third, 32 bytes long, is not copied. -/
theorem parse_headers_connection_header_witness :
    (parse_headers (bytes "GET / HTTP/1.1" ++ CRLF ++
        header_block [bytes "Connection: close", bytes "CONNECTION : Keep-Alive",
          bytes "Host: x", bytes "connection: aaaaaaaaaaaaaaaaaaaaaaaaaaaaaaaa"] ++ CRLF)
        { connection_header := bytes "old" }).1 = 1 ∧
    (parse_headers (bytes "GET / HTTP/1.1" ++ CRLF ++
        header_block [bytes "Connection: close", bytes "CONNECTION : Keep-Alive",
          bytes "Host: x", bytes "connection: aaaaaaaaaaaaaaaaaaaaaaaaaaaaaaaa"] ++ CRLF)
        { connection_header := bytes "old" }).2.connection_header = bytes "keep-alive" ∧
    (parse_headers (bytes "GET / HTTP/1.1" ++ CRLF ++
        header_block [bytes "Host: x", bytes "connection: aaaaaaaaaaaaaaaaaaaaaaaaaaaaaaaa"] ++
        CRLF) { connection_header := bytes "old" }).2.connection_header = bytes "old" :=
  ⟨by decide,
    (parse_headers_connection_header (bytes "GET / HTTP/1.1")
      [bytes "Connection: close", bytes "CONNECTION : Keep-Alive",
        bytes "Host: x", bytes "connection: aaaaaaaaaaaaaaaaaaaaaaaaaaaaaaaa"] CRLF
      { connection_header := bytes "old" } (by decide) (by decide) (fun _ => by decide)
      (by decide)).2.trans (by decide),
    (parse_headers_connection_header (bytes "GET / HTTP/1.1")
      [bytes "Host: x", bytes "connection: aaaaaaaaaaaaaaaaaaaaaaaaaaaaaaaa"] CRLF
      { connection_header := bytes "old" } (by decide) (by decide) (fun _ => by decide)
      (by decide)).2.trans (by decide)⟩

/-! ### The request validator and the content length -/

/-- **C16.** `validate_http_request` returns 0 exactly when the version is
`HTTP/1.1` and no header entry is named `host`, case ignored; otherwise, in
particular for every other version, it returns 1. -/
theorem validate_http_request_host (req : http_request) :
    (validate_http_request req = 0 ↔
      req.version = bytes "HTTP/1.1" ∧ ∀ h ∈ req.headers, is_named (bytes "host") h = false) ∧
    (validate_http_request req = 0 ∨ validate_http_request req = 1) ∧
    (req.version ≠ bytes "HTTP/1.1" → validate_http_request req = 1) := by
  have hany : (req.headers.any (fun h => decide (strn_case_cmp h (bytes "Host:") 5 = 0))) = true ↔
      ∃ h ∈ req.headers, is_named (bytes "host") h = true := by
    rw [List.any_eq_true]
    constructor
    · rintro ⟨h, hm, ht⟩
      exact ⟨h, hm, (host_test_iff h).mp (by simpa using ht)⟩
    · rintro ⟨h, hm, ht⟩
      exact ⟨h, hm, by simpa using (host_test_iff h).mpr ht⟩
  unfold validate_http_request
  by_cases hv : req.version = bytes "HTTP/1.1"
  · rw [if_pos hv]
    by_cases ha : (req.headers.any (fun h => decide (strn_case_cmp h (bytes "Host:") 5 = 0))) = true
    · rw [if_pos ha]
      obtain ⟨h, hm, ht⟩ := hany.mp ha
      refine ⟨⟨fun h1 => absurd h1 (by decide), ?_⟩, Or.inr rfl, fun h1 => absurd hv h1⟩
      rintro ⟨_, hall⟩
      rw [hall h hm] at ht
      exact absurd ht (by decide)
    · rw [if_neg ha]
      refine ⟨⟨fun _ => ⟨hv, ?_⟩, fun _ => rfl⟩, Or.inl rfl, fun h1 => absurd hv h1⟩
      intro h hm
      cases hb : is_named (bytes "host") h with
      | false => rfl
      | true => exact absurd (hany.mpr ⟨h, hm, hb⟩) ha
  · rw [if_neg hv]
    exact ⟨⟨fun h1 => absurd h1 (by decide), fun h1 => absurd h1.1 hv⟩, Or.inr rfl, fun _ => rfl⟩

set_option maxRecDepth 100000 in
/-- Witness for C16: `HTTP/1.1` without and with a `Host` entry, and `HTTP/1.0`
without one. -/
theorem validate_http_request_host_witness :
    validate_http_request { version := bytes "HTTP/1.1", headers := [bytes "accept:a"] } = 0 ∧
    validate_http_request
      { version := bytes "HTTP/1.1", headers := [bytes "accept:a", bytes "host:x"] } = 1 ∧
    validate_http_request { version := bytes "HTTP/1.0", headers := [bytes "accept:a"] } = 1 :=
  ⟨(validate_http_request_host _).1.mpr ⟨rfl, by decide⟩, by decide,
    (validate_http_request_host _).2.2 (by decide)⟩

set_option maxRecDepth 100000 in
/-- **C17 (failing inputs).** For the entries `content-length:12abc` and
`content-length:-1` `get_content_length` does not return 0: it returns 12 and
2^64 - 1, whatever `errno` holds; for `abc`, and without an entry, it returns 0,
and of two entries the first is taken. -/
theorem get_content_length_malformed :
    ∀ errno_einval : Bool,
      get_content_length errno_einval { headers := [bytes "host:x", bytes "content-length:12abc"] }
        = 12 ∧
      get_content_length errno_einval { headers := [bytes "content-length:-1"] }
        = 18446744073709551615 ∧
      get_content_length errno_einval { headers := [bytes "content-length:abc"] } = 0 ∧
      get_content_length errno_einval { headers := [bytes "host:x"] } = 0 ∧
      get_content_length errno_einval
        { headers := [bytes "content-length:42", bytes "content-length:7"] } = 42 := by
  decide

/-! ### The body reader -/

theorem body_to_read_eq (h c bar : Nat) (hinv : h + bar ≤ MAX_REQUEST_SIZE) :
    body_to_read h c bar = min (c - bar) (MAX_REQUEST_SIZE - (h + bar)) := by
  unfold body_to_read
  simp only []
  rw [size_sub_of_le hinv]
  split_ifs <;> omega

/-- The loop ends with success once the body is complete. -/
theorem read_http_body_loop_done (h : Nat) (script : List RecvResult) (bar : Nat)
    (buffer : List Nat) (req : http_request) (hdone : ¬ bar < req.content_length) :
    read_http_body_loop h script bar buffer req =
      some ⟨0, { req with body_length := req.content_length }, buffer, script⟩ := by
  cases script <;> simp only [read_http_body_loop, if_neg hdone]

/-- The loop ends with `HTTP_BODY_TOO_LARGE` when no room is left. -/
theorem read_http_body_loop_full (h : Nat) (script : List RecvResult) (bar : Nat)
    (buffer : List Nat) (req : http_request) (hlt : bar < req.content_length)
    (hz : body_to_read h req.content_length bar = 0) :
    read_http_body_loop h script bar buffer req =
      some ⟨HTTP_BODY_TOO_LARGE, req, buffer, script⟩ := by
  cases script <;> simp only [read_http_body_loop, if_pos hlt, if_pos hz]

theorem read_http_body_loop_nil (h bar : Nat) (buffer : List Nat) (req : http_request)
    (hlt : bar < req.content_length) (hz : body_to_read h req.content_length bar ≠ 0) :
    read_http_body_loop h [] bar buffer req = none := by
  simp only [read_http_body_loop, if_pos hlt, if_neg hz]

/-- A timeout on a body read. -/
theorem read_http_body_loop_eagain (h : Nat) (script : List RecvResult) (bar : Nat)
    (buffer : List Nat) (req : http_request) (hlt : bar < req.content_length)
    (hz : body_to_read h req.content_length bar ≠ 0) :
    read_http_body_loop h (.eagain :: script) bar buffer req =
      some ⟨HTTP_IO_TIMEOUT_PARTIAL, req, buffer, script⟩ := by
  simp only [read_http_body_loop, if_pos hlt, if_neg hz, read_with_timeout, if_true]

/-- A failed body read. -/
theorem read_http_body_loop_fail (h : Nat) (script : List RecvResult) (bar : Nat)
    (buffer : List Nat) (req : http_request) (hlt : bar < req.content_length)
    (hz : body_to_read h req.content_length bar ≠ 0) :
    read_http_body_loop h (.fail :: script) bar buffer req =
      some ⟨HTTP_IO_ERROR, req, buffer, script⟩ := by
  have h1 : ¬ HTTP_IO_ERROR = HTTP_IO_TIMEOUT := by decide
  have h2 : ¬ HTTP_IO_ERROR = 0 := by decide
  have h3 : HTTP_IO_ERROR < 0 := by decide
  simp only [read_http_body_loop, if_pos hlt, if_neg hz, read_with_timeout, if_neg h1,
    if_neg h2, if_pos h3]

/-- A body read that finds the peer closed. -/
theorem read_http_body_loop_eof (h : Nat) (script : List RecvResult) (bar : Nat)
    (buffer : List Nat) (req : http_request) (hlt : bar < req.content_length)
    (hz : body_to_read h req.content_length bar ≠ 0) :
    read_http_body_loop h (.data [] :: script) bar buffer req =
      some ⟨HTTP_IO_EOF_PARTIAL, req, buffer, script⟩ := by
  have h1 : ¬ (0 : Int) = HTTP_IO_TIMEOUT := by decide
  simp only [read_http_body_loop, if_pos hlt, if_neg hz, read_with_timeout, List.take_nil,
    List.length_nil, Nat.cast_zero, if_neg h1, if_true]

/-- A body read that receives bytes. -/
theorem read_http_body_loop_data (h : Nat) (script : List RecvResult) (bar : Nat)
    (buffer : List Nat) (req : http_request) (bs : List Nat) (hbs : bs ≠ [])
    (hlt : bar < req.content_length) (hz : body_to_read h req.content_length bar ≠ 0) :
    read_http_body_loop h (.data bs :: script) bar buffer req =
      read_http_body_loop h script
        (bar + (bs.take (body_to_read h req.content_length bar)).length)
        (store_at buffer (h + bar) (bs.take (body_to_read h req.content_length bar))) req := by
  have hlen : (bs.take (body_to_read h req.content_length bar)).length ≠ 0 := by
    rw [List.length_take]
    have : bs.length ≠ 0 := fun e => hbs (List.eq_nil_of_length_eq_zero e)
    omega
  have h1 : ¬ (((bs.take (body_to_read h req.content_length bar)).length : Nat) : Int) =
      HTTP_IO_TIMEOUT := by
    unfold HTTP_IO_TIMEOUT
    omega
  have h2 : ¬ (((bs.take (body_to_read h req.content_length bar)).length : Nat) : Int) = 0 := by
    omega
  have h3 : ¬ (((bs.take (body_to_read h req.content_length bar)).length : Nat) : Int) < 0 := by
    omega
  simp only [read_http_body_loop, if_pos hlt, if_neg hz, read_with_timeout, if_neg h1,
    if_neg h2, if_neg h3, Int.toNat_ofNat]

/-- What the loop can return: success with the body length set, reached only
when the body fits the buffer, or one of four failures with the request left as
it was. -/
theorem read_http_body_loop_result (h : Nat) :
    ∀ (script : List RecvResult) (bar : Nat) (buffer : List Nat) (req : http_request)
      (r : body_read),
      read_http_body_loop h script bar buffer req = some r →
      (r.rc = 0 ∧ r.req = { req with body_length := req.content_length } ∧
        (h + bar ≤ MAX_REQUEST_SIZE →
          req.content_length ≤ bar ∨ h + req.content_length ≤ MAX_REQUEST_SIZE)) ∨
      (r.req = req ∧
        (r.rc = HTTP_BODY_TOO_LARGE ∨ r.rc = HTTP_IO_TIMEOUT_PARTIAL ∨
          r.rc = HTTP_IO_EOF_PARTIAL ∨ r.rc = HTTP_IO_ERROR)) := by
  intro script
  induction script with
  | nil =>
    intro bar buffer req r hres
    by_cases hlt : bar < req.content_length
    · by_cases hz : body_to_read h req.content_length bar = 0
      · rw [read_http_body_loop_full h _ bar buffer req hlt hz] at hres
        injection hres with hres
        subst hres
        exact Or.inr ⟨rfl, Or.inl rfl⟩
      · rw [read_http_body_loop_nil h bar buffer req hlt hz] at hres
        exact absurd hres (by simp)
    · rw [read_http_body_loop_done h _ bar buffer req hlt] at hres
      injection hres with hres
      subst hres
      exact Or.inl ⟨rfl, rfl, fun _ => Or.inl (by omega)⟩
  | cons ev script ih =>
    intro bar buffer req r hres
    by_cases hlt : bar < req.content_length
    · by_cases hz : body_to_read h req.content_length bar = 0
      · rw [read_http_body_loop_full h _ bar buffer req hlt hz] at hres
        injection hres with hres
        subst hres
        exact Or.inr ⟨rfl, Or.inl rfl⟩
      · cases ev with
        | eagain =>
          rw [read_http_body_loop_eagain h _ bar buffer req hlt hz] at hres
          injection hres with hres
          subst hres
          exact Or.inr ⟨rfl, Or.inr (Or.inl rfl)⟩
        | fail =>
          rw [read_http_body_loop_fail h _ bar buffer req hlt hz] at hres
          injection hres with hres
          subst hres
          exact Or.inr ⟨rfl, Or.inr (Or.inr (Or.inr rfl))⟩
        | data bs =>
          by_cases hbs : bs = []
          · subst hbs
            rw [read_http_body_loop_eof h _ bar buffer req hlt hz] at hres
            injection hres with hres
            subst hres
            exact Or.inr ⟨rfl, Or.inr (Or.inr (Or.inl rfl))⟩
          · rw [read_http_body_loop_data h _ bar buffer req bs hbs hlt hz] at hres
            rcases ih _ _ req r hres with ⟨h0, hreq, hfit⟩ | hbad
            · refine Or.inl ⟨h0, hreq, fun hinv => Or.inr ?_⟩
              have hto := body_to_read_eq h req.content_length bar hinv
              have hlen : (bs.take (body_to_read h req.content_length bar)).length ≤
                  body_to_read h req.content_length bar := by
                rw [List.length_take]
                omega
              rcases hfit (by omega) with hc | hc
              · omega
              · exact hc
            · exact Or.inr hbad
    · rw [read_http_body_loop_done h _ bar buffer req hlt] at hres
      injection hres with hres
      subst hres
      exact Or.inl ⟨rfl, rfl, fun _ => Or.inl (by omega)⟩

/-- With a body that does not fit and reads that all receive bytes, the loop
returns `HTTP_BODY_TOO_LARGE` once the peer has sent as many bytes as there was
room for. -/
theorem read_http_body_loop_overflow (h : Nat) :
    ∀ (script : List RecvResult) (bar : Nat) (buffer : List Nat) (req : http_request),
      h + bar ≤ MAX_REQUEST_SIZE →
      MAX_REQUEST_SIZE < h + req.content_length →
      (∀ ev ∈ script, ∃ bs, ev = RecvResult.data bs ∧ bs ≠ []) →
      MAX_REQUEST_SIZE - (h + bar) ≤ (delivered script).length →
      ∃ r, read_http_body_loop h script bar buffer req = some r ∧
        r.rc = HTTP_BODY_TOO_LARGE := by
  intro script
  induction script with
  | nil =>
    intro bar buffer req hinv hbig _ hroom
    have hlt : bar < req.content_length := by omega
    have hz : body_to_read h req.content_length bar = 0 := by
      rw [body_to_read_eq h _ bar hinv]
      simp only [delivered, List.length_nil] at hroom
      omega
    exact ⟨_, read_http_body_loop_full h _ bar buffer req hlt hz, rfl⟩
  | cons ev script ih =>
    intro bar buffer req hinv hbig hdata hroom
    have hlt : bar < req.content_length := by omega
    by_cases hz : body_to_read h req.content_length bar = 0
    · exact ⟨_, read_http_body_loop_full h _ bar buffer req hlt hz, rfl⟩
    · obtain ⟨bs, rfl, hbs⟩ := hdata ev (List.mem_cons_self _ _)
      rw [read_http_body_loop_data h _ bar buffer req bs hbs hlt hz]
      have hto := body_to_read_eq h req.content_length bar hinv
      have hlen : (bs.take (body_to_read h req.content_length bar)).length =
          min (body_to_read h req.content_length bar) bs.length := List.length_take _ _
      simp only [delivered, List.length_append] at hroom
      exact ih _ _ req (by omega) hbig (fun x hx => hdata x (List.mem_cons_of_mem _ hx))
        (by omega)

/-- Once the script is used up with the loop still reading, the next result of
the transport decides what the loop returns. -/
theorem read_http_body_loop_next (h : Nat) (ev : RecvResult) (rest : List RecvResult) :
    ∀ (pre : List RecvResult) (bar : Nat) (buffer : List Nat) (req : http_request),
      read_http_body_loop h pre bar buffer req = none →
      ∃ bar2 buffer2, bar2 < req.content_length ∧
        body_to_read h req.content_length bar2 ≠ 0 ∧
        read_http_body_loop h (pre ++ ev :: rest) bar buffer req =
          read_http_body_loop h (ev :: rest) bar2 buffer2 req := by
  intro pre
  induction pre with
  | nil =>
    intro bar buffer req hnone
    by_cases hlt : bar < req.content_length
    · by_cases hz : body_to_read h req.content_length bar = 0
      · rw [read_http_body_loop_full h _ bar buffer req hlt hz] at hnone
        exact absurd hnone (by simp)
      · exact ⟨bar, buffer, hlt, hz, rfl⟩
    · rw [read_http_body_loop_done h _ bar buffer req hlt] at hnone
      exact absurd hnone (by simp)
  | cons p pre ih =>
    intro bar buffer req hnone
    by_cases hlt : bar < req.content_length
    · by_cases hz : body_to_read h req.content_length bar = 0
      · rw [read_http_body_loop_full h _ bar buffer req hlt hz] at hnone
        exact absurd hnone (by simp)
      · cases p with
        | eagain =>
          rw [read_http_body_loop_eagain h _ bar buffer req hlt hz] at hnone
          exact absurd hnone (by simp)
        | fail =>
          rw [read_http_body_loop_fail h _ bar buffer req hlt hz] at hnone
          exact absurd hnone (by simp)
        | data bs =>
          by_cases hbs : bs = []
          · subst hbs
            rw [read_http_body_loop_eof h _ bar buffer req hlt hz] at hnone
            exact absurd hnone (by simp)
          · rw [read_http_body_loop_data h _ bar buffer req bs hbs hlt hz] at hnone
            obtain ⟨bar2, buffer2, h1, h2, h3⟩ := ih _ _ req hnone
            refine ⟨bar2, buffer2, h1, h2, ?_⟩
            rw [List.cons_append, read_http_body_loop_data h _ bar buffer req bs hbs hlt hz]
            exact h3
    · rw [read_http_body_loop_done h _ bar buffer req hlt] at hnone
      exact absurd hnone (by simp)

/-- With a content length between 1 and 65536 `read_http_body` runs its loop. -/
theorem read_http_body_reading (errno_einval : Bool) (script : List RecvResult)
    (buffer : List Nat) (headers_end_pos total_read : Nat) (req : http_request)
    (hpos : 0 < get_content_length errno_einval req)
    (hle : get_content_length errno_einval req ≤ MAX_REQUEST_SIZE) :
    read_http_body errno_einval script buffer headers_end_pos total_read req =
      read_http_body_loop (headers_end_pos + 4) script
        (if total_read > headers_end_pos + 4 then total_read - (headers_end_pos + 4) else 0)
        buffer
        { { req with content_length := get_content_length errno_einval req } with
          body := some (headers_end_pos + 4) } := by
  unfold read_http_body
  simp only []
  rw [if_neg (by omega), if_neg (by omega)]

/-- What `read_http_body` can return. -/
theorem read_http_body_result (errno_einval : Bool) (script : List RecvResult)
    (buffer : List Nat) (headers_end_pos total_read : Nat) (req : http_request)
    (r : body_read)
    (hres : read_http_body errno_einval script buffer headers_end_pos total_read req = some r) :
    (r.rc = 0 ∧ r.req.body_length = r.req.content_length ∧
      r.req.content_length = get_content_length errno_einval req) ∨
    (r.rc = HTTP_BODY_TOO_LARGE ∨ r.rc = HTTP_IO_TIMEOUT_PARTIAL ∨
      r.rc = HTTP_IO_EOF_PARTIAL ∨ r.rc = HTTP_IO_ERROR) := by
  by_cases h0 : get_content_length errno_einval req = 0
  · unfold read_http_body at hres
    simp only [] at hres
    rw [if_pos h0] at hres
    injection hres with hres
    subst hres
    exact Or.inl ⟨rfl, h0.symm, rfl⟩
  · by_cases hbig : get_content_length errno_einval req > MAX_REQUEST_SIZE
    · unfold read_http_body at hres
      simp only [] at hres
      rw [if_neg h0, if_pos hbig] at hres
      injection hres with hres
      subst hres
      exact Or.inr (Or.inl rfl)
    · rw [read_http_body_reading errno_einval script buffer headers_end_pos total_read req
        (by omega) (by omega)] at hres
      rcases read_http_body_loop_result _ _ _ _ _ r hres with ⟨hz, hreq, _⟩ | ⟨_, hbad⟩
      · refine Or.inl ⟨hz, ?_, ?_⟩
        · rw [hreq]
        · rw [hreq]
      · exact Or.inr hbad

/-- **C18.** When the derived content length exceeds 65536, `read_http_body` returns
`HTTP_BODY_TOO_LARGE` with the script of transport results untouched, and
`handle_read_body_status` sends a 413 response and returns 0, which ends the
session. -/
theorem read_http_body_length_too_large (errno_einval : Bool) (script : List RecvResult)
    (buffer : List Nat) (headers_end_pos total_read : Nat) (req : http_request)
    (date conn : List Nat) (method : Option (List Nat))
    (hbig : MAX_REQUEST_SIZE < get_content_length errno_einval req)
    (hdate : date.length ≤ 63) (hconn : conn.length ≤ 31) :
    read_http_body errno_einval script buffer headers_end_pos total_read req =
      some ⟨HTTP_BODY_TOO_LARGE,
        { req with content_length := get_content_length errno_einval req }, buffer, script⟩ ∧
    handle_read_body_status HTTP_BODY_TOO_LARGE date (some conn) method =
      (0, some (error_response date 413 (bytes "Payload Too Large") conn [] method)) ∧
    handle_read_body_status HTTP_BODY_TOO_LARGE date none method =
      (0, some (error_response date 413 (bytes "Payload Too Large") (bytes "close") []
        method)) := by
  have hf := response_fits 413 (bytes "Payload Too Large") (by decide)
  have hc := response_sizes.2
  have h1 : ¬ HTTP_BODY_TOO_LARGE ≥ 0 := by decide
  refine ⟨?_, ?_, ?_⟩
  · unfold read_http_body
    simp only []
    have hbig2 : MAX_REQUEST_SIZE < get_content_length errno_einval req := hbig
    unfold MAX_REQUEST_SIZE at hbig2
    rw [if_neg (by omega), if_pos hbig]
  · unfold handle_read_body_status
    rw [if_neg h1, if_pos rfl]
    simp only []
    rw [send_error_response_fits date 413 (bytes "Payload Too Large") conn method hdate
      (by omega)]
  · unfold handle_read_body_status
    rw [if_neg h1, if_pos rfl]
    simp only []
    rw [send_error_response_fits date 413 (bytes "Payload Too Large") (bytes "close") method
      hdate (by omega)]

set_option maxRecDepth 100000 in
/-- Witness for C18: `Content-Length: 70000`. -/
theorem read_http_body_length_too_large_witness :
    MAX_REQUEST_SIZE <
      get_content_length false { headers := [bytes "host:x", bytes "content-length:70000"] } ∧
    read_http_body false [.data (bytes "abc")] (bytes "head") 0 4
        { headers := [bytes "host:x", bytes "content-length:70000"] } =
      some ⟨HTTP_BODY_TOO_LARGE,
        ⟨[], [], [], [], [bytes "host:x", bytes "content-length:70000"], none, 0, 70000, []⟩,
        bytes "head", [.data (bytes "abc")]⟩ ∧
    (handle_read_body_status HTTP_BODY_TOO_LARGE (bytes "Fri, 30 Oct 2026 10:00:00 GMT")
      (some (bytes "keep-alive")) (some (bytes "POST"))).1 = 0 :=
  ⟨by decide, by decide,
    congrArg Prod.fst
      (read_http_body_length_too_large false [.data (bytes "abc")] (bytes "head") 0 4
        { headers := [bytes "host:x", bytes "content-length:70000"] }
        (bytes "Fri, 30 Oct 2026 10:00:00 GMT") (bytes "keep-alive") (some (bytes "POST"))
        (by decide) (by decide) (by decide)).2.1⟩

/-- **C19.** With a head of `headers_end_pos + 4` bytes inside the `total_read`
bytes of the buffer and a derived content length `c` between 1 and 65536,
whenever `read_http_body` returns success the body length is `c`, the body starts
at offset `headers_end_pos + 4` and head and body fit 65536 bytes; if they do
not fit, whatever it returns is `HTTP_BODY_TOO_LARGE` or a transport failure,
and it does return `HTTP_BODY_TOO_LARGE` when every read receives bytes and the
peer sends as many as the buffer has room for. -/
theorem read_http_body_fits_buffer (errno_einval : Bool) (script : List RecvResult)
    (buffer : List Nat) (headers_end_pos total_read : Nat) (req : http_request)
    (hpos : 0 < get_content_length errno_einval req)
    (hle : get_content_length errno_einval req ≤ MAX_REQUEST_SIZE)
    (hhead : headers_end_pos + 4 ≤ total_read) (htotal : total_read ≤ MAX_REQUEST_SIZE) :
    (∀ r, read_http_body errno_einval script buffer headers_end_pos total_read req = some r →
      (r.rc = 0 →
        r.req.body_length = get_content_length errno_einval req ∧
        r.req.body = some (headers_end_pos + 4) ∧
        headers_end_pos + 4 + get_content_length errno_einval req ≤ MAX_REQUEST_SIZE) ∧
      (MAX_REQUEST_SIZE < headers_end_pos + 4 + get_content_length errno_einval req →
        r.rc = HTTP_BODY_TOO_LARGE ∨ r.rc = HTTP_IO_TIMEOUT_PARTIAL ∨
          r.rc = HTTP_IO_EOF_PARTIAL ∨ r.rc = HTTP_IO_ERROR)) ∧
    (MAX_REQUEST_SIZE < headers_end_pos + 4 + get_content_length errno_einval req →
      (∀ ev ∈ script, ∃ bs, ev = RecvResult.data bs ∧ bs ≠ []) →
      MAX_REQUEST_SIZE - total_read ≤ (delivered script).length →
      ∃ r, read_http_body errno_einval script buffer headers_end_pos total_read req = some r ∧
        r.rc = HTTP_BODY_TOO_LARGE) := by
  have hbar : (if total_read > headers_end_pos + 4 then total_read - (headers_end_pos + 4)
      else 0) = total_read - (headers_end_pos + 4) := by
    split_ifs <;> omega
  rw [read_http_body_reading errno_einval script buffer headers_end_pos total_read req hpos hle,
    hbar]
  refine ⟨?_, ?_⟩
  · intro r hres
    rcases read_http_body_loop_result _ _ _ _ _ r hres with ⟨hz, hreq, hfit⟩ | ⟨_, hbad⟩
    · have hfit2 := hfit (by omega)
      simp only [] at hfit2
      have hsum : headers_end_pos + 4 + get_content_length errno_einval req ≤
          MAX_REQUEST_SIZE := by
        rcases hfit2 with hc | hc
        · omega
        · exact hc
      refine ⟨fun _ => ⟨by rw [hreq], by rw [hreq], hsum⟩, fun hover => ?_⟩
      omega
    · refine ⟨fun hz => ?_, fun _ => hbad⟩
      rcases hbad with hb | hb | hb | hb <;> rw [hb] at hz <;> exact absurd hz (by decide)
  · intro hover hdata hroom
    exact read_http_body_loop_overflow _ script _ buffer _ (by omega) hover hdata (by omega)

set_option maxRecDepth 100000 in
/-- Witness for C19: a body of 5 bytes, 3 of them read with the head, and a body
of 65536 bytes after a head of 64 bytes. -/
theorem read_http_body_fits_buffer_witness :
    (0 < get_content_length false { headers := [bytes "content-length:5"] } ∧
      read_http_body false [.data (bytes "lo")] (bytes "0123456789\r\n\r\nhel") 10 17
          { headers := [bytes "content-length:5"] } =
        some ⟨0, ⟨[], [], [], [], [bytes "content-length:5"], some 14, 5, 5, []⟩,
          bytes "0123456789\r\n\r\nhello", []⟩ ∧
      10 + 4 + get_content_length false { headers := [bytes "content-length:5"] } ≤
        MAX_REQUEST_SIZE) ∧
    (MAX_REQUEST_SIZE <
        60 + 4 + get_content_length false { headers := [bytes "content-length:65536"] } ∧
      ∃ r, read_http_body false [.data (List.replicate 65472 97)] [] 60 64
          { headers := [bytes "content-length:65536"] } = some r ∧
        r.rc = HTTP_BODY_TOO_LARGE) :=
  ⟨⟨by decide, by decide,
    (((read_http_body_fits_buffer false [.data (bytes "lo")] (bytes "0123456789\r\n\r\nhel")
      10 17 { headers := [bytes "content-length:5"] } (by decide) (by decide) (by decide)
      (by decide)).1 _ (by decide :
        read_http_body false [.data (bytes "lo")] (bytes "0123456789\r\n\r\nhel") 10 17
          { headers := [bytes "content-length:5"] } =
        some ⟨0, ⟨[], [], [], [], [bytes "content-length:5"], some 14, 5, 5, []⟩,
          bytes "0123456789\r\n\r\nhello", []⟩)).1 rfl).2.2⟩,
   ⟨by decide,
    (read_http_body_fits_buffer false [.data (List.replicate 65472 97)] [] 60 64
      { headers := [bytes "content-length:65536"] } (by decide) (by decide) (by decide)
      (by decide)).2 (by decide)
      (fun ev hev => ⟨List.replicate 65472 97, List.mem_singleton.mp hev, fun e => by
        have := congrArg List.length e
        rw [List.length_replicate, List.length_nil] at this
        omega⟩)
      (by
        rw [show delivered [RecvResult.data (List.replicate 65472 97)] =
          List.replicate 65472 97 ++ [] from rfl, List.append_nil, List.length_replicate]
        decide)⟩⟩

/-- **C20.** Once `read_http_body` has used up a script of transport results and is
still reading, whatever it has received so far, a timeout of the next read makes
it return `HTTP_IO_TIMEOUT_PARTIAL`, a peer close `HTTP_IO_EOF_PARTIAL`, and a
transport error `HTTP_IO_ERROR`; and whatever the script, it never returns
`HTTP_IO_TIMEOUT`, and returns 0 only as success, with the body length set to the
content length. -/
theorem read_http_body_midway_variants (errno_einval : Bool) (pre rest : List RecvResult)
    (buffer : List Nat) (headers_end_pos total_read : Nat) (req : http_request)
    (hmid : read_http_body errno_einval pre buffer headers_end_pos total_read req = none) :
    (∃ r, read_http_body errno_einval (pre ++ .eagain :: rest) buffer headers_end_pos
        total_read req = some r ∧ r.rc = HTTP_IO_TIMEOUT_PARTIAL ∧ r.unread = rest) ∧
    (∃ r, read_http_body errno_einval (pre ++ .data [] :: rest) buffer headers_end_pos
        total_read req = some r ∧ r.rc = HTTP_IO_EOF_PARTIAL ∧ r.unread = rest) ∧
    (∃ r, read_http_body errno_einval (pre ++ .fail :: rest) buffer headers_end_pos
        total_read req = some r ∧ r.rc = HTTP_IO_ERROR ∧ r.unread = rest) ∧
    (∀ script r,
      read_http_body errno_einval script buffer headers_end_pos total_read req = some r →
      r.rc ≠ HTTP_IO_TIMEOUT ∧
      (r.rc = HTTP_IO_EOF →
        r.req.body_length = r.req.content_length ∧
        r.req.content_length = get_content_length errno_einval req) ∧
      (r.rc = 0 ∨ r.rc = HTTP_BODY_TOO_LARGE ∨ r.rc = HTTP_IO_TIMEOUT_PARTIAL ∨
        r.rc = HTTP_IO_EOF_PARTIAL ∨ r.rc = HTTP_IO_ERROR)) := by
  have hpos : 0 < get_content_length errno_einval req := by
    by_contra h0
    unfold read_http_body at hmid
    simp only [] at hmid
    rw [if_pos (by omega)] at hmid
    exact absurd hmid (by simp)
  have hle : get_content_length errno_einval req ≤ MAX_REQUEST_SIZE := by
    by_contra hbig
    unfold read_http_body at hmid
    simp only [] at hmid
    rw [if_neg (by omega), if_pos (by omega)] at hmid
    exact absurd hmid (by simp)
  rw [read_http_body_reading errno_einval pre buffer headers_end_pos total_read req hpos hle]
    at hmid
  refine ⟨?_, ?_, ?_, ?_⟩
  · obtain ⟨bar2, buf2, hlt, hz, heq⟩ := read_http_body_loop_next _ .eagain rest pre _ _ _ hmid
    rw [read_http_body_reading errno_einval _ buffer headers_end_pos total_read req hpos hle,
      heq, read_http_body_loop_eagain _ _ _ _ _ hlt hz]
    exact ⟨_, rfl, rfl, rfl⟩
  · obtain ⟨bar2, buf2, hlt, hz, heq⟩ :=
      read_http_body_loop_next _ (.data []) rest pre _ _ _ hmid
    rw [read_http_body_reading errno_einval _ buffer headers_end_pos total_read req hpos hle,
      heq, read_http_body_loop_eof _ _ _ _ _ hlt hz]
    exact ⟨_, rfl, rfl, rfl⟩
  · obtain ⟨bar2, buf2, hlt, hz, heq⟩ := read_http_body_loop_next _ .fail rest pre _ _ _ hmid
    rw [read_http_body_reading errno_einval _ buffer headers_end_pos total_read req hpos hle,
      heq, read_http_body_loop_fail _ _ _ _ _ hlt hz]
    exact ⟨_, rfl, rfl, rfl⟩
  · intro script r hres
    rcases read_http_body_result errno_einval script buffer headers_end_pos total_read req r
      hres with ⟨hz, hlen, hcl⟩ | hbad
    · refine ⟨?_, fun _ => ⟨hlen, hcl⟩, Or.inl hz⟩
      rw [hz]
      decide
    · refine ⟨?_, fun h0 => ?_, Or.inr hbad⟩
      · rcases hbad with hb | hb | hb | hb <;> rw [hb] <;> decide
      · rcases hbad with hb | hb | hb | hb <;> rw [hb] at h0 <;> exact absurd h0 (by decide)

set_option maxRecDepth 100000 in
/-- Witness for C20: a body of 5 bytes with no byte received yet, and with 2
bytes received. -/
theorem read_http_body_midway_variants_witness :
    read_http_body false [] (bytes "0123456789\r\n\r\n") 10 14
        { headers := [bytes "content-length:5"] } = none ∧
    read_http_body false [.data (bytes "he")] (bytes "0123456789\r\n\r\n") 10 14
        { headers := [bytes "content-length:5"] } = none ∧
    (read_http_body false ([] ++ .eagain :: []) (bytes "0123456789\r\n\r\n") 10 14
        { headers := [bytes "content-length:5"] }).map (fun r => r.rc) =
      some HTTP_IO_TIMEOUT_PARTIAL ∧
    ∃ r, read_http_body false ([.data (bytes "he")] ++ .data [] :: []) (bytes "0123456789\r\n\r\n")
        10 14 { headers := [bytes "content-length:5"] } = some r ∧
      r.rc = HTTP_IO_EOF_PARTIAL ∧ r.unread = [] :=
  ⟨by decide, by decide, by decide,
    (read_http_body_midway_variants false [.data (bytes "he")] [] (bytes "0123456789\r\n\r\n")
      10 14 { headers := [bytes "content-length:5"] } (by decide)).2.1⟩

/-! ### The classifiers: transport errors and the `Connection` header of the answers -/

/-- Whatever `send_error_response_with_headers` sends has the layout of
`error_response`. -/
theorem send_error_response_sized_some (size : Nat) (date : List Nat) (status_code : Int)
    (status_text conn : List Nat) (extra_headers : Option (List Nat))
    (method : Option (List Nat)) (resp : List Nat)
    (h : send_error_response_sized size date status_code status_text conn extra_headers method =
      some resp) :
    resp = error_response date status_code status_text conn (extra_headers.getD []) method := by
  unfold send_error_response_sized at h
  simp only [] at h
  unfold error_response
  split_ifs at h with h1 h2 h3
  · have hh : is_head method = false := by simpa using h2
    injection h with h
    rw [← h, hh]
    simp
  · have hh : is_head method = true := by simpa using h2
    injection h with h
    rw [← h, hh]
    simp

theorem send_error_response_some (date : List Nat) (status_code : Int)
    (status_text conn : List Nat) (method : Option (List Nat)) (resp : List Nat)
    (h : send_error_response date status_code status_text conn method = some resp) :
    resp = error_response date status_code status_text conn [] method :=
  send_error_response_sized_some 1024 date status_code status_text conn none method resp h

/-- The `Connection` line is the last header line of an error response. -/
theorem error_response_connection_line (date : List Nat) (status_code : Int)
    (status_text conn extra : List Nat) (method : Option (List Nat)) :
    error_response date status_code status_text conn extra method =
      (status_line status_code status_text ++ date_line date ++ extra ++
        bytes "Content-Type: text/html\r\nContent-Length: " ++
        fmt_d (if is_head method then 0
          else ((error_body status_code status_text).length : Int)) ++ bytes "\r\n") ++
      (bytes "Connection: " ++ conn ++ bytes "\r\n") ++
      (if is_head method then [] else error_body status_code status_text) := by
  have hsplit : bytes "\r\nConnection: " = bytes "\r\n" ++ bytes "Connection: " := by decide
  unfold error_response standard_headers
  rw [hsplit]
  simp only [List.append_assoc]

/-- **C21 (amended).** `HTTP_IO_ERROR` is a silent close in the header-read and
body-read classifiers: nothing is written and 0 is returned.  The request-line,
header-parse and validate classifiers treat it like every status they do not
list: they send 400 Bad Request with `Connection: close` and return 0. -/
theorem io_error_classified (date : List Nat) (method : Option (List Nat))
    (hdate : date.length ≤ 63) :
    handle_read_headers_status HTTP_IO_ERROR date method = (0, none) ∧
    (∀ conn : Option (List Nat),
      handle_read_body_status HTTP_IO_ERROR date conn method = (0, none)) ∧
    handle_request_line_status HTTP_IO_ERROR date method =
      (0, some (error_response date 400 (bytes "Bad Request") (bytes "close") [] method)) ∧
    handle_parse_headers_status HTTP_IO_ERROR date method =
      (0, some (error_response date 400 (bytes "Bad Request") (bytes "close") [] method)) ∧
    handle_validate_status HTTP_IO_ERROR date method =
      (0, some (error_response date 400 (bytes "Bad Request") (bytes "close") [] method)) := by
  have h400 := send_close_response date 400 (bytes "Bad Request") method hdate (by decide)
  refine ⟨rfl, fun conn => rfl, ?_, ?_, ?_⟩
  · rw [← h400]; rfl
  · rw [← h400]; rfl
  · rw [← h400]; rfl

set_option maxRecDepth 100000 in
/-- Witness for C21 (amended): the date stamp `Sun, 06 Nov 1994 08:49:37 GMT` and
the method `GET`. -/
theorem io_error_classified_witness :
    (bytes "Sun, 06 Nov 1994 08:49:37 GMT").length ≤ 63 ∧
    handle_read_headers_status HTTP_IO_ERROR (bytes "Sun, 06 Nov 1994 08:49:37 GMT")
      (some (bytes "GET")) = (0, none) ∧
    handle_validate_status HTTP_IO_ERROR (bytes "Sun, 06 Nov 1994 08:49:37 GMT")
      (some (bytes "GET")) =
      (0, some (error_response (bytes "Sun, 06 Nov 1994 08:49:37 GMT") 400 (bytes "Bad Request")
        (bytes "close") [] (some (bytes "GET")))) :=
  ⟨by decide,
    (io_error_classified (bytes "Sun, 06 Nov 1994 08:49:37 GMT") (some (bytes "GET"))
      (by decide)).1,
    (io_error_classified (bytes "Sun, 06 Nov 1994 08:49:37 GMT") (some (bytes "GET"))
      (by decide)).2.2.2.2⟩

set_option maxRecDepth 100000 in
/-- **C21 (counterexample).** With the status `HTTP_IO_ERROR` the request-line
classifier, like the header-parse and the validate classifier, writes a 400
response. -/
theorem io_error_classified_counterexample :
    handle_request_line_status HTTP_IO_ERROR (bytes "Sun, 06 Nov 1994 08:49:37 GMT")
      (some (bytes "GET")) =
      (0, some (bytes ("HTTP/1.1 400 Bad Request\r\nDate: Sun, 06 Nov 1994 08:49:37 GMT\r\n" ++
        "Content-Type: text/html\r\nContent-Length: 50\r\nConnection: close\r\n" ++
        "<html><body><h1>400 Bad Request</h1></body></html>"))) ∧
    (handle_parse_headers_status HTTP_IO_ERROR (bytes "Sun, 06 Nov 1994 08:49:37 GMT")
      (some (bytes "GET"))).2 ≠ none ∧
    (handle_validate_status HTTP_IO_ERROR (bytes "Sun, 06 Nov 1994 08:49:37 GMT")
      (some (bytes "GET"))).2 ≠ none := by
  decide

theorem close_response_form (date : List Nat) (method : Option (List Nat)) (z code : Int)
    (text r : List Nat)
    (h : (z, send_error_response date code text (bytes "close") method).2 = some r) :
    ∃ code text extra, r = error_response date code text (bytes "close") extra method :=
  ⟨code, text, [], send_error_response_some _ _ _ _ _ _ h⟩

theorem allow_response_form (date : List Nat) (method : Option (List Nat)) (z : Int)
    (r : List Nat)
    (h : (z, send_error_response_with_headers date 405 (bytes "Method Not Allowed")
      (bytes "close") (some build_allow_header) method).2 = some r) :
    ∃ code text extra, r = error_response date code text (bytes "close") extra method :=
  ⟨405, _, _, send_error_response_sized_some 1536 _ _ _ _ _ _ _ h⟩

theorem read_headers_classifier_close (rc : Int) (date : List Nat)
    (method : Option (List Nat)) (resp : List Nat)
    (h : (handle_read_headers_status rc date method).2 = some resp) :
    (handle_read_headers_status rc date method).1 = 0 ∧
    ∃ code text extra, resp = error_response date code text (bytes "close") extra method := by
  unfold handle_read_headers_status at h ⊢
  split_ifs at h ⊢
  · exact ⟨rfl, close_response_form date method _ _ _ _ h⟩
  · exact ⟨rfl, close_response_form date method _ _ _ _ h⟩
  · exact ⟨rfl, close_response_form date method _ _ _ _ h⟩
  · exact ⟨rfl, close_response_form date method _ _ _ _ h⟩

theorem request_line_classifier_close (rc : Int) (date : List Nat)
    (method : Option (List Nat)) (resp : List Nat)
    (h : (handle_request_line_status rc date method).2 = some resp) :
    (handle_request_line_status rc date method).1 = 0 ∧
    ∃ code text extra, resp = error_response date code text (bytes "close") extra method := by
  unfold handle_request_line_status at h ⊢
  split_ifs at h ⊢
  · exact ⟨rfl, close_response_form date method _ _ _ _ h⟩
  · exact ⟨rfl, close_response_form date method _ _ _ _ h⟩
  · exact ⟨rfl, allow_response_form date method _ _ h⟩
  · exact ⟨rfl, close_response_form date method _ _ _ _ h⟩
  · exact ⟨rfl, close_response_form date method _ _ _ _ h⟩

theorem parse_headers_classifier_close (rc : Int) (date : List Nat)
    (method : Option (List Nat)) (resp : List Nat)
    (h : (handle_parse_headers_status rc date method).2 = some resp) :
    (handle_parse_headers_status rc date method).1 = 0 ∧
    ∃ code text extra, resp = error_response date code text (bytes "close") extra method := by
  unfold handle_parse_headers_status at h ⊢
  split_ifs at h ⊢
  · exact ⟨rfl, close_response_form date method _ _ _ _ h⟩
  · exact ⟨rfl, close_response_form date method _ _ _ _ h⟩

theorem validate_classifier_close (rc : Int) (date : List Nat)
    (method : Option (List Nat)) (resp : List Nat)
    (h : (handle_validate_status rc date method).2 = some resp) :
    (handle_validate_status rc date method).1 = 0 ∧
    ∃ code text extra, resp = error_response date code text (bytes "close") extra method := by
  unfold handle_validate_status at h ⊢
  split_ifs at h ⊢
  · exact ⟨rfl, close_response_form date method _ _ _ _ h⟩
  · exact ⟨rfl, close_response_form date method _ _ _ _ h⟩
  · exact ⟨rfl, allow_response_form date method _ _ h⟩
  · exact ⟨rfl, close_response_form date method _ _ _ _ h⟩

theorem read_body_classifier_close (rc : Int) (date : List Nat)
    (conn method : Option (List Nat)) (resp : List Nat) (hrc : rc ≠ HTTP_BODY_TOO_LARGE)
    (h : (handle_read_body_status rc date conn method).2 = some resp) :
    (handle_read_body_status rc date conn method).1 = 0 ∧
    ∃ code text extra, resp = error_response date code text (bytes "close") extra method := by
  unfold handle_read_body_status at h ⊢
  split_ifs at h ⊢
  · exact ⟨rfl, close_response_form date method _ _ _ _ h⟩
  · exact ⟨rfl, close_response_form date method _ _ _ _ h⟩

/-- **C22.** Whenever a classifier writes a response, other than the 413 of the
body-read classifier, the response is an error response with the `Connection`
value `close`, whatever connection value the classifier was given, and the
classifier returns 0; the line `Connection: close` is the last header line of
such a response. -/
theorem classifiers_close (rc : Int) (date : List Nat) (method : Option (List Nat))
    (resp : List Nat) :
    ((handle_read_headers_status rc date method).2 = some resp →
      (handle_read_headers_status rc date method).1 = 0 ∧
      ∃ code text extra, resp = error_response date code text (bytes "close") extra method) ∧
    ((handle_request_line_status rc date method).2 = some resp →
      (handle_request_line_status rc date method).1 = 0 ∧
      ∃ code text extra, resp = error_response date code text (bytes "close") extra method) ∧
    ((handle_parse_headers_status rc date method).2 = some resp →
      (handle_parse_headers_status rc date method).1 = 0 ∧
      ∃ code text extra, resp = error_response date code text (bytes "close") extra method) ∧
    ((handle_validate_status rc date method).2 = some resp →
      (handle_validate_status rc date method).1 = 0 ∧
      ∃ code text extra, resp = error_response date code text (bytes "close") extra method) ∧
    (∀ conn : Option (List Nat), rc ≠ HTTP_BODY_TOO_LARGE →
      (handle_read_body_status rc date conn method).2 = some resp →
      (handle_read_body_status rc date conn method).1 = 0 ∧
      ∃ code text extra, resp = error_response date code text (bytes "close") extra method) ∧
    (∀ (code : Int) (text extra : List Nat), ∃ head,
      error_response date code text (bytes "close") extra method =
        head ++ bytes "Connection: close\r\n" ++
          (if is_head method then [] else error_body code text)) := by
  refine ⟨read_headers_classifier_close rc date method resp,
    request_line_classifier_close rc date method resp,
    parse_headers_classifier_close rc date method resp,
    validate_classifier_close rc date method resp,
    fun conn hrc => read_body_classifier_close rc date conn method resp hrc, ?_⟩
  intro code text extra
  have hline := error_response_connection_line date code text (bytes "close") extra method
  have hc : bytes "Connection: " ++ bytes "close" ++ bytes "\r\n" =
      bytes "Connection: close\r\n" := by decide
  rw [hc] at hline
  exact ⟨_, hline⟩

set_option maxRecDepth 100000 in
/-- Witness for C22: the 408 of the body-read classifier, called with the
connection value `keep-alive`. -/
theorem classifiers_close_witness :
    (handle_read_body_status HTTP_IO_TIMEOUT_PARTIAL (bytes "Sun, 06 Nov 1994 08:49:37 GMT")
      (some (bytes "keep-alive")) (some (bytes "POST"))).2 =
      some (bytes ("HTTP/1.1 408 Request Timeout\r\nDate: Sun, 06 Nov 1994 08:49:37 GMT\r\n" ++
        "Content-Type: text/html\r\nContent-Length: 54\r\nConnection: close\r\n" ++
        "<html><body><h1>408 Request Timeout</h1></body></html>")) ∧
    ((handle_read_body_status HTTP_IO_TIMEOUT_PARTIAL (bytes "Sun, 06 Nov 1994 08:49:37 GMT")
      (some (bytes "keep-alive")) (some (bytes "POST"))).1 = 0 ∧
      ∃ code text extra,
        bytes ("HTTP/1.1 408 Request Timeout\r\nDate: Sun, 06 Nov 1994 08:49:37 GMT\r\n" ++
          "Content-Type: text/html\r\nContent-Length: 54\r\nConnection: close\r\n" ++
          "<html><body><h1>408 Request Timeout</h1></body></html>") =
        error_response (bytes "Sun, 06 Nov 1994 08:49:37 GMT") code text (bytes "close") extra
          (some (bytes "POST"))) :=
  ⟨by decide,
    (classifiers_close HTTP_IO_TIMEOUT_PARTIAL (bytes "Sun, 06 Nov 1994 08:49:37 GMT")
      (some (bytes "POST")) _).2.2.2.2.1 (some (bytes "keep-alive")) (by decide) (by decide)⟩

/-! ### The bytes of an error response -/

/-- An error response, written out piece by piece: no empty line stands between
the `Connection` line and the body. -/
theorem error_response_layout (date : List Nat) (status_code : Int)
    (status_text conn extra : List Nat) (method : Option (List Nat)) :
    error_response date status_code status_text conn extra method =
      response_layout date status_code status_text extra
        (if is_head method then 0 else (error_body status_code status_text).length) conn []
        (if is_head method then [] else error_body status_code status_text) := by
  have h1 : bytes "Content-Type: text/html\r\nContent-Length: " =
      bytes "Content-Type: text/html" ++ CRLF ++ bytes "Content-Length: " := by decide
  have h2 : bytes "\r\nConnection: " = CRLF ++ bytes "Connection: " := by decide
  have h3 : bytes "\r\n" = CRLF := by decide
  unfold error_response response_layout standard_headers status_line date_line
  rw [h1, h2, h3]
  cases is_head method <;> simp [List.append_assoc]

/-- `is_head` holds for the method strings that equal `HEAD` when case is ignored. -/
theorem is_head_iff (method : Option (List Nat)) (hm : ∀ m, method = some m → 0 ∉ m) :
    is_head method = true ↔
      ∃ m, method = some m ∧ normalize_string_lower m = bytes "head" := by
  cases method with
  | none => simp [is_head]
  | some m =>
    have h := str_case_cmp_eq_zero_iff m (bytes "HEAD") (hm m rfl) (by decide)
    have hl : normalize_string_lower (bytes "HEAD") = bytes "head" := by decide
    rw [hl] at h
    simp only [is_head, decide_eq_true_eq, Option.some.injEq, exists_eq_left']
    exact h

/-- **C25 (amended).** Whatever `send_error_response` or
`send_error_response_with_headers` sends has, after the header lines, the body
`<html><body><h1>CODE REASON</h1></body></html>` cut to its first 255 bytes (the
whole of it when it has at most 255 bytes) and a `Content-Length` equal to the
length of that body, unless the method equals `HEAD` when case is ignored: then
`Content-Length` is 0 and no body byte follows. -/
theorem error_response_body (date : List Nat) (status_code : Int)
    (status_text conn : List Nat) (method : Option (List Nat))
    (hm : ∀ m, method = some m → 0 ∉ m) :
    (is_head method = true ↔
      ∃ m, method = some m ∧ normalize_string_lower m = bytes "head") ∧
    error_body status_code status_text = (full_error_body status_code status_text).take 255 ∧
    ((full_error_body status_code status_text).length ≤ 255 →
      error_body status_code status_text = full_error_body status_code status_text) ∧
    (∀ resp, send_error_response date status_code status_text conn method = some resp →
      resp = response_layout date status_code status_text []
        (if is_head method then 0 else (error_body status_code status_text).length) conn []
        (if is_head method then [] else error_body status_code status_text)) ∧
    (∀ extra resp,
      send_error_response_with_headers date status_code status_text conn extra method =
        some resp →
      resp = response_layout date status_code status_text (extra.getD [])
        (if is_head method then 0 else (error_body status_code status_text).length) conn []
        (if is_head method then [] else error_body status_code status_text)) := by
  refine ⟨is_head_iff method hm, rfl, ?_, ?_, ?_⟩
  · intro hlen
    exact List.take_of_length_le hlen
  · intro resp h
    rw [send_error_response_some _ _ _ _ _ _ h, error_response_layout]
  · intro extra resp h
    rw [send_error_response_sized_some 1536 _ _ _ _ _ _ _ h, error_response_layout]

set_option maxRecDepth 100000 in
/-- Witness for C25 (amended): the 400 response for the methods `GET` and `head`. -/
theorem error_response_body_witness :
    (∀ m, some (bytes "head") = some m → 0 ∉ m) ∧
    is_head (some (bytes "head")) = true ∧
    send_error_response (bytes "Sun, 06 Nov 1994 08:49:37 GMT") 400 (bytes "Bad Request")
        (bytes "close") (some (bytes "head")) =
      some (bytes ("HTTP/1.1 400 Bad Request\r\nDate: Sun, 06 Nov 1994 08:49:37 GMT\r\n" ++
        "Content-Type: text/html\r\nContent-Length: 0\r\nConnection: close\r\n")) ∧
    send_error_response (bytes "Sun, 06 Nov 1994 08:49:37 GMT") 400 (bytes "Bad Request")
        (bytes "close") (some (bytes "GET")) =
      some (bytes ("HTTP/1.1 400 Bad Request\r\nDate: Sun, 06 Nov 1994 08:49:37 GMT\r\n" ++
        "Content-Type: text/html\r\nContent-Length: 50\r\nConnection: close\r\n" ++
        "<html><body><h1>400 Bad Request</h1></body></html>")) ∧
    error_body 400 (bytes "Bad Request") = full_error_body 400 (bytes "Bad Request") :=
  ⟨by decide,
    (error_response_body (bytes "Sun, 06 Nov 1994 08:49:37 GMT") 400 (bytes "Bad Request")
      (bytes "close") (some (bytes "head")) (by decide)).1.mpr ⟨_, rfl, by decide⟩,
    by decide, by decide,
    (error_response_body (bytes "Sun, 06 Nov 1994 08:49:37 GMT") 400 (bytes "Bad Request")
      (bytes "close") (some (bytes "head")) (by decide)).2.2.1 (by decide)⟩

set_option maxRecDepth 100000 in
/-- **C25 (counterexample).** With a reason of 217 letters `a` the response is
sent, and its body is the first 255 bytes of
`<html><body><h1>400 aa…a</h1></body></html>`, which has 256. -/
theorem error_response_body_counterexample :
    send_error_response (bytes "Sun, 06 Nov 1994 08:49:37 GMT") 400 (List.replicate 217 97)
        (bytes "close") (some (bytes "GET")) =
      some (response_layout (bytes "Sun, 06 Nov 1994 08:49:37 GMT") 400 (List.replicate 217 97)
        [] 255 (bytes "close") [] ((full_error_body 400 (List.replicate 217 97)).take 255)) ∧
    (full_error_body 400 (List.replicate 217 97)).length = 256 ∧
    (full_error_body 400 (List.replicate 217 97)).take 255 ≠
      full_error_body 400 (List.replicate 217 97) := by
  decide

set_option maxRecDepth 100000 in
/-- **C26 (failing input).** The 400 response of `send_error_response`: the body
follows the `Connection` line at once, and the bytes sent hold no `\r\n\r\n`, so
no empty line ends the header section. -/
theorem send_error_response_no_blank_line :
    send_error_response (bytes "Sun, 06 Nov 1994 08:49:37 GMT") 400 (bytes "Bad Request")
        (bytes "close") (some (bytes "GET")) =
      some (bytes ("HTTP/1.1 400 Bad Request\r\nDate: Sun, 06 Nov 1994 08:49:37 GMT\r\n" ++
        "Content-Type: text/html\r\nContent-Length: 50\r\nConnection: close\r\n" ++
        "<html><body><h1>400 Bad Request</h1></body></html>")) ∧
    strstr (bytes ("HTTP/1.1 400 Bad Request\r\nDate: Sun, 06 Nov 1994 08:49:37 GMT\r\n" ++
        "Content-Type: text/html\r\nContent-Length: 50\r\nConnection: close\r\n" ++
        "<html><body><h1>400 Bad Request</h1></body></html>")) CRLFCRLF = none ∧
    send_error_response (bytes "Sun, 06 Nov 1994 08:49:37 GMT") 400 (bytes "Bad Request")
        (bytes "close") (some (bytes "GET")) ≠
      some (response_layout (bytes "Sun, 06 Nov 1994 08:49:37 GMT") 400 (bytes "Bad Request") []
        50 (bytes "close") CRLF (full_error_body 400 (bytes "Bad Request"))) := by
  decide

/-- The loop of `build_allow_header` writes the methods separated by `, `. -/
theorem build_allow_header_loop_eq (methods : List (List Nat)) :
    build_allow_header_loop methods = (bytes ", ").intercalate methods := by
  induction methods with
  | nil => rfl
  | cons m rest ih =>
    cases rest with
    | nil => simp [build_allow_header_loop, List.intercalate]
    | cons m2 rest =>
      show m ++ bytes ", " ++ build_allow_header_loop (m2 :: rest) = _
      rw [ih]
      simp [List.intercalate, List.intersperse, List.append_assoc]

/-- **C27.** `build_allow_header` returns `Allow: GET, POST, HEAD\r\n`: the word
`Allow: `, the methods of the allow-list in their declared order with `, `
between them and none after the last, then `\r\n`.  The function has no input
and rebuilds its buffer from the start, so every call gives this string. -/
theorem build_allow_header_exact :
    build_allow_header = bytes "Allow: GET, POST, HEAD\r\n" ∧
    build_allow_header =
      bytes "Allow: " ++ (bytes ", ").intercalate allowed_methods ++ bytes "\r\n" ∧
    allowed_methods = [bytes "GET", bytes "POST", bytes "HEAD"] ∧
    ∀ methods : List (List Nat),
      build_allow_header_loop methods = (bytes ", ").intercalate methods := by
  refine ⟨by decide, ?_, rfl, build_allow_header_loop_eq⟩
  rw [← build_allow_header_loop_eq]
  decide

/-! ### The header framer: the value returned, the buffer bounds, the terminator -/

theorem read_http_headers_loop_nil (buffer_size total_read : Nat) (buffer : List Nat)
    (hlt : total_read < size_sub buffer_size 1) :
    read_http_headers_loop buffer_size [] total_read buffer = none := by
  rw [read_http_headers_loop, if_pos hlt]

theorem read_http_headers_loop_eagain (buffer_size total_read : Nat) (buffer : List Nat)
    (script : List RecvResult) (hlt : total_read < size_sub buffer_size 1) :
    read_http_headers_loop buffer_size (.eagain :: script) total_read buffer =
      some (if total_read = 0 then HTTP_IO_TIMEOUT else HTTP_IO_TIMEOUT_PARTIAL, buffer) := by
  rw [read_http_headers_loop, if_pos hlt]
  simp only [read_with_timeout, if_true]

theorem read_http_headers_loop_fail (buffer_size total_read : Nat) (buffer : List Nat)
    (script : List RecvResult) (hlt : total_read < size_sub buffer_size 1) :
    read_http_headers_loop buffer_size (.fail :: script) total_read buffer =
      some (HTTP_IO_ERROR, buffer) := by
  have h1 : ¬ HTTP_IO_ERROR = HTTP_IO_TIMEOUT := by decide
  rw [read_http_headers_loop, if_pos hlt]
  simp only [read_with_timeout, if_neg h1, if_true]

theorem read_http_headers_loop_eof (buffer_size total_read : Nat) (buffer bs : List Nat)
    (script : List RecvResult) (hlt : total_read < size_sub buffer_size 1)
    (hnil : bs.take (size_sub (size_sub buffer_size total_read) 1) = []) :
    read_http_headers_loop buffer_size (.data bs :: script) total_read buffer =
      some (if total_read = 0 then HTTP_IO_EOF else HTTP_IO_EOF_PARTIAL, buffer) := by
  have h1 : ¬ (0 : Int) = HTTP_IO_TIMEOUT := by decide
  have h2 : ¬ (0 : Int) = HTTP_IO_ERROR := by decide
  rw [read_http_headers_loop, if_pos hlt]
  simp only [read_with_timeout, hnil, List.length_nil, Nat.cast_zero, if_neg h1, if_neg h2,
    if_true]

/-- A match of `strstr` lies inside the string. -/
theorem strstr_some_le : ∀ (hay needle : List Nat) (i : Nat), strstr hay needle = some i →
    i + needle.length ≤ hay.length := by
  intro hay
  induction hay with
  | nil =>
    intro needle i h
    rw [strstr] at h
    split_ifs at h with hn
    injection h with h
    subst h
    subst hn
    simp
  | cons a t ih =>
    intro needle i h
    rw [strstr] at h
    split_ifs at h with hp
    · injection h with h
      subst h
      have := hp.length_le
      omega
    · cases hs : strstr t needle with
      | none => simp [hs] at h
      | some j =>
        simp only [hs, Option.map_some', Option.some.injEq] at h
        subst h
        have := ih needle j hs
        simp only [List.length_cons]
        omega

theorem c_str_length_le (b : List Nat) : (c_str b).length ≤ b.length :=
  (c_str_initial b).length_le

/-- With the buffer of the session, a positive result of the loop is the number of
bytes in the buffer, and the buffer then holds a terminator. -/
theorem read_http_headers_loop_positive :
    ∀ (script : List RecvResult) (total_read : Nat) (buffer : List Nat) (rc : Int)
      (out : List Nat),
      buffer.length = total_read → total_read ≤ 32768 →
      read_http_headers_loop 65536 script total_read buffer = some (rc, out) → 0 < rc →
      rc = (out.length : Int) ∧ strstr (c_str out) CRLFCRLF ≠ none ∧ out.length ≤ 65535 := by
  intro script
  induction script with
  | nil =>
    intro total_read buffer rc out _ hle h _
    have hlt : total_read < size_sub 65536 1 := by rw [size_sub_of_le (by omega)]; omega
    rw [read_http_headers_loop_nil _ _ _ hlt] at h
    exact absurd h (by simp)
  | cons r script ih =>
    intro total_read buffer rc out hbuf hle h hpos
    have hlt : total_read < size_sub 65536 1 := by rw [size_sub_of_le (by omega)]; omega
    have hsz := request_size_eq total_read (by omega)
    cases r with
    | eagain =>
      rw [read_http_headers_loop_eagain _ _ _ _ hlt] at h
      injection h with h
      injection h with h1 h2
      rw [← h1] at hpos
      split_ifs at hpos <;> exact absurd hpos (by decide)
    | fail =>
      rw [read_http_headers_loop_fail _ _ _ _ hlt] at h
      injection h with h
      injection h with h1 h2
      rw [← h1] at hpos
      exact absurd hpos (by decide)
    | data bs =>
      by_cases hnil : bs.take (size_sub (size_sub 65536 total_read) 1) = []
      · rw [read_http_headers_loop_eof _ _ _ _ _ hlt hnil] at h
        injection h with h
        injection h with h1 h2
        rw [← h1] at hpos
        split_ifs at hpos <;> exact absurd hpos (by decide)
      · have hlen : (bs.take (size_sub (size_sub 65536 total_read) 1)).length ≤
            65535 - total_read := by
          rw [hsz, List.length_take]
          omega
        by_cases hs : strstr (c_str (buffer ++ bs.take (size_sub (size_sub 65536 total_read) 1)))
            CRLFCRLF = none
        · by_cases hg : total_read + (bs.take (size_sub (size_sub 65536 total_read) 1)).length
              > MAX_REQUEST_SIZE / 2
          · rw [read_http_headers_loop_guard _ _ _ _ _ hlt hnil hs hg] at h
            injection h with h
            injection h with h1 h2
            rw [← h1] at hpos
            exact absurd hpos (by decide)
          · have hg2 : total_read + (bs.take (size_sub (size_sub 65536 total_read) 1)).length
                ≤ MAX_REQUEST_SIZE / 2 := by omega
            rw [read_http_headers_loop_continue _ _ _ _ _ hlt hnil hs hg2] at h
            have hg3 : total_read + (bs.take (size_sub (size_sub 65536 total_read) 1)).length
                ≤ 32768 := hg2
            exact ih _ _ rc out (by rw [List.length_append, hbuf]) hg3 h hpos
        · rw [read_http_headers_loop_found _ _ _ _ _ hlt hnil hs] at h
          injection h with h
          injection h with h1 h2
          rw [← h2, ← h1, List.length_append, hbuf, to_int_of_lt (by omega)]
          exact ⟨rfl, hs, by omega⟩

/-- **C28 (amended).** Whenever `read_http_headers` succeeds, with the buffer of
65536 bytes of the session, the value it returns is `total_read`, the number of
bytes that all its reads have stored in the buffer, at most 65535; the buffer
then holds a `\r\n\r\n`, and the offset of the first one plus 4 is at most the
value returned. -/
theorem read_http_headers_returns_total (script : List RecvResult) (rc : Int)
    (buffer : List Nat)
    (h : read_http_headers MAX_REQUEST_SIZE script = some (rc, buffer)) (hpos : 0 < rc) :
    rc = (buffer.length : Int) ∧ buffer.length ≤ 65535 ∧
    ∃ i, strstr (c_str buffer) CRLFCRLF = some i ∧ ((i : Int) + 4 ≤ rc) := by
  obtain ⟨h1, h2, h3⟩ := read_http_headers_loop_positive script 0 [] rc buffer rfl (by omega)
    h hpos
  refine ⟨h1, h3, ?_⟩
  obtain ⟨i, hi⟩ := Option.ne_none_iff_exists'.mp h2
  refine ⟨i, hi, ?_⟩
  have hb := strstr_some_le _ _ _ hi
  have hc := c_str_length_le buffer
  have h4 : CRLFCRLF.length = 4 := rfl
  rw [h1]
  omega

set_option maxRecDepth 100000 in
/-- Witness for C28 (amended): a head of 18 bytes that arrives in two reads. -/
theorem read_http_headers_returns_total_witness :
    read_http_headers MAX_REQUEST_SIZE
        [.data (bytes "GET / HTTP/1.1\r\n"), .data (bytes "\r\n")] =
      some (18, bytes "GET / HTTP/1.1\r\n\r\n") ∧
    ((18 : Int) = ((bytes "GET / HTTP/1.1\r\n\r\n").length : Int) ∧
      (bytes "GET / HTTP/1.1\r\n\r\n").length ≤ 65535 ∧
      ∃ i, strstr (c_str (bytes "GET / HTTP/1.1\r\n\r\n")) CRLFCRLF = some i ∧
        ((i : Int) + 4 ≤ 18)) :=
  ⟨by decide,
    read_http_headers_returns_total
      [.data (bytes "GET / HTTP/1.1\r\n"), .data (bytes "\r\n")] 18
      (bytes "GET / HTTP/1.1\r\n\r\n") (by decide) (by decide)⟩

set_option maxRecDepth 100000 in
/-- **C28 (counterexample).** One read delivers a head of 18 bytes and 4 bytes of
body: the first `\r\n\r\n` is at offset 14, and the value returned is 22, not 18. -/
theorem read_http_headers_returns_total_counterexample :
    read_http_headers MAX_REQUEST_SIZE [.data (bytes "GET / HTTP/1.1\r\n\r\nbody")] =
      some (22, bytes "GET / HTTP/1.1\r\n\r\nbody") ∧
    strstr (bytes "GET / HTTP/1.1\r\n\r\nbody") CRLFCRLF = some 14 ∧
    read_http_headers_rc MAX_REQUEST_SIZE [.data (bytes "GET / HTTP/1.1\r\n\r\nbody")] ≠
      some (14 + 4) := by
  decide

/-- Every call of `read_with_timeout` made by the header framer, started below the
size guard, stays inside the buffer of 65536 bytes. -/
theorem read_http_headers_calls_bounds :
    ∀ (script : List RecvResult) (total_read : Nat) (buffer : List Nat),
      total_read ≤ 32768 →
      ∀ call ∈ read_http_headers_calls 65536 script total_read buffer,
        call.1 ≤ 65535 ∧ 1 ≤ call.2.1 ∧ call.1 + call.2.1 ≤ 65535 ∧
        call.2.2 ≤ (call.2.1 : Int) ∧
        (0 < call.2.2 → call.1 + call.2.2.toNat ≤ 65535) := by
  intro script
  induction script with
  | nil =>
    intro total_read buffer _ call hmem
    simp [read_http_headers_calls] at hmem
  | cons r script ih =>
    intro total_read buffer hle call hmem
    have hlt : total_read < size_sub 65536 1 := by rw [size_sub_of_le (by omega)]; omega
    have hsz := request_size_eq total_read (by omega)
    have hret : (read_with_timeout r (65535 - total_read)).1 ≤ ((65535 - total_read : Nat) : Int) := by
      cases r with
      | data bs =>
        simp only [read_with_timeout, List.length_take]
        omega
      | eagain =>
        simp only [read_with_timeout, HTTP_IO_TIMEOUT]
        omega
      | fail =>
        simp only [read_with_timeout, HTTP_IO_ERROR]
        omega
    rw [read_http_headers_calls, if_pos hlt, hsz] at hmem
    simp only [] at hmem
    rw [List.mem_cons] at hmem
    rcases hmem with hc | hmem
    · subst hc
      dsimp only
      refine ⟨by omega, by omega, by omega, hret, ?_⟩
      intro hpos
      omega
    · split_ifs at hmem with h1 h2 h3 h4 h5
      · simp at hmem
      · simp at hmem
      · simp at hmem
      · simp at hmem
      · split at hmem <;> simp at hmem
      · split at hmem
        · simp at hmem
        · have h6 : total_read + (read_with_timeout r (65535 - total_read)).1.toNat ≤
              32768 := by
            simp only [MAX_REQUEST_SIZE] at h5
            omega
          exact ih _ _ h6 call hmem

/-- **C29.** In `read_http_headers` with the buffer of 65536 bytes, whatever the
reads return (never more than was asked for): every read starts at a cursor
`total_read` of at most 65535, asks for at least 1 byte and ends at or before
index 65535, and after a read that returned bytes the cursor, where the NUL is
written, is at most 65535, so below 65536. -/
theorem read_http_headers_stays_in_buffer (script : List RecvResult) :
    ∀ call ∈ read_http_headers_calls MAX_REQUEST_SIZE script 0 [],
      call.1 ≤ 65535 ∧ 1 ≤ call.2.1 ∧ call.1 + call.2.1 ≤ 65535 ∧
      call.2.2 ≤ (call.2.1 : Int) ∧
      (0 < call.2.2 → call.1 + call.2.2.toNat ≤ 65535 ∧ call.1 + call.2.2.toNat < 65536) := by
  intro call hmem
  obtain ⟨h1, h2, h3, h4, h5⟩ := read_http_headers_calls_bounds script 0 [] (by omega) call hmem
  exact ⟨h1, h2, h3, h4, fun hpos => ⟨h5 hpos, by have := h5 hpos; omega⟩⟩

set_option maxRecDepth 100000 in
/-- Witness for C29: the calls made for a head that arrives in two reads. -/
theorem read_http_headers_stays_in_buffer_witness :
    read_http_headers_calls MAX_REQUEST_SIZE
        [.data (bytes "GET / HTTP/1.1\r\n"), .data (bytes "\r\n"), .eagain] 0 [] =
      [(0, 65535, 16), (16, 65519, 2)] ∧
    ((16 : Nat) ≤ 65535 ∧ 1 ≤ 65519 ∧ 16 + 65519 ≤ 65535 ∧ (2 : Int) ≤ ((65519 : Nat) : Int) ∧
      ((0 : Int) < 2 → 16 + (2 : Int).toNat ≤ 65535 ∧ 16 + (2 : Int).toNat < 65536)) :=
  ⟨by decide,
    read_http_headers_stays_in_buffer
      [.data (bytes "GET / HTTP/1.1\r\n"), .data (bytes "\r\n"), .eagain] (16, 65519, 2)
      (by decide)⟩

/-- While the loop is still reading after the script `pre`, every chunk of `pre`
was stored whole: the loop stands at the count and with the buffer that `pre`
delivers, below the size guard, and no terminator was seen. -/
theorem read_http_headers_loop_resume (r : RecvResult) (rest : List RecvResult) :
    ∀ (pre : List RecvResult) (total_read : Nat) (buffer : List Nat),
      total_read ≤ 32768 →
      read_http_headers_loop 65536 pre total_read buffer = none →
      read_http_headers_loop 65536 (pre ++ r :: rest) total_read buffer =
        read_http_headers_loop 65536 (r :: rest) (total_read + (delivered pre).length)
          (buffer ++ delivered pre) ∧
      total_read + (delivered pre).length ≤ 32768 ∧
      (pre ≠ [] → strstr (c_str (buffer ++ delivered pre)) CRLFCRLF = none) := by
  intro pre
  induction pre with
  | nil =>
    intro total_read buffer hle _
    simp [delivered, hle]
  | cons a pre ih =>
    intro total_read buffer hle h
    obtain ⟨bs, rfl, hlt, hne, hs, hle2, hrest⟩ :=
      read_http_headers_loop_cons_none 65536 total_read buffer a pre h
    have hsz := request_size_eq total_read (by omega)
    have htake : bs.take (size_sub (size_sub 65536 total_read) 1) = bs := by
      rw [hsz]
      apply List.take_of_length_le
      rw [hsz, List.length_take] at hle2
      simp only [MAX_REQUEST_SIZE] at hle2
      omega
    rw [htake] at hne hs hle2 hrest
    have hle3 : total_read + bs.length ≤ 32768 := hle2
    obtain ⟨h1, h2, h3⟩ := ih (total_read + bs.length) (buffer ++ bs) hle3 hrest
    have hstep := read_http_headers_loop_continue 65536 total_read buffer bs
      (pre ++ r :: rest) hlt (by rw [htake]; exact hne) (by rw [htake]; exact hs)
      (by rw [htake]; exact hle2)
    rw [htake] at hstep
    refine ⟨?_, ?_, ?_⟩
    · rw [List.cons_append, hstep, h1]
      simp only [delivered, List.length_append, List.append_assoc, Nat.add_assoc]
    · simp only [delivered, List.length_append]
      omega
    · intro _
      by_cases hp : pre = []
      · subst hp
        simpa [delivered] using hs
      · have := h3 hp
        simpa [delivered, List.append_assoc] using this

/-- **C30 (amended).** When the bytes received hold no NUL byte,
`read_http_headers` returns success at the first read after which the accumulated
bytes contain `\r\n\r\n`: if it is still reading after the reads of `pre`, and the
next read delivers bytes `bs` that fit the buffer and complete a terminator, the
call returns the count of all bytes received, with these bytes in the buffer. -/
theorem read_http_headers_finds_terminator (pre : List RecvResult) (bs : List Nat)
    (rest : List RecvResult)
    (hpre : read_http_headers MAX_REQUEST_SIZE pre = none)
    (hfit : (delivered pre).length + bs.length ≤ 65535)
    (hnul : 0 ∉ delivered pre ++ bs)
    (hterm : CRLFCRLF <:+: delivered pre ++ bs) :
    read_http_headers MAX_REQUEST_SIZE (pre ++ .data bs :: rest) =
      some ((((delivered pre).length + bs.length : Nat) : Int), delivered pre ++ bs) := by
  obtain ⟨h1, h2, h3⟩ := read_http_headers_loop_resume (.data bs) rest pre 0 [] (by omega) hpre
  simp only [Nat.zero_add, List.nil_append] at h1 h2 h3
  have hcs : c_str (delivered pre ++ bs) = delivered pre ++ bs :=
    c_str_eq_self (fun c hc h0 => hnul (h0 ▸ hc))
  have hlt : (delivered pre).length < size_sub 65536 1 := by
    rw [size_sub_of_le (by omega)]
    omega
  have hsz := request_size_eq (delivered pre).length (by omega)
  have htake : bs.take (size_sub (size_sub 65536 (delivered pre).length) 1) = bs := by
    rw [hsz]
    exact List.take_of_length_le (by omega)
  have hfound : strstr (c_str (delivered pre ++ bs)) CRLFCRLF ≠ none := by
    rw [hcs]
    intro hn
    exact (strstr_eq_none_iff _ _).mp hn hterm
  have hne : bs ≠ [] := by
    intro hb
    subst hb
    rw [List.append_nil] at hfound hterm hcs
    by_cases hp : pre = []
    · subst hp
      exact hfound (by decide)
    · exact hfound (h3 hp)
  have hstep := read_http_headers_loop_found 65536 (delivered pre).length (delivered pre) bs
    rest hlt (by rw [htake]; exact hne) (by rw [htake]; exact hfound)
  rw [htake, to_int_of_lt (by omega)] at hstep
  show read_http_headers_loop 65536 (pre ++ .data bs :: rest) 0 [] = _
  rw [h1, hstep]

set_option maxRecDepth 100000 in
/-- Witness for C30 (amended): the terminator is completed by the third read. -/
theorem read_http_headers_finds_terminator_witness :
    read_http_headers MAX_REQUEST_SIZE
        [.data (bytes "GET / HTTP/1.1\r\n"), .data (bytes "Host: x\r\n\r")] = none ∧
    read_http_headers MAX_REQUEST_SIZE
        ([.data (bytes "GET / HTTP/1.1\r\n"), .data (bytes "Host: x\r\n\r")] ++
          .data (bytes "\nrest") :: [.eagain]) =
      some ((((delivered [.data (bytes "GET / HTTP/1.1\r\n"),
          .data (bytes "Host: x\r\n\r")]).length + (bytes "\nrest").length : Nat) : Int),
        delivered [.data (bytes "GET / HTTP/1.1\r\n"), .data (bytes "Host: x\r\n\r")] ++
          bytes "\nrest") :=
  ⟨by decide,
    read_http_headers_finds_terminator
      [.data (bytes "GET / HTTP/1.1\r\n"), .data (bytes "Host: x\r\n\r")] (bytes "\nrest")
      [.eagain] (by decide) (by decide) (by decide)
      ((strstr_eq_none_iff _ _).not_left.mp (by decide))⟩

set_option maxRecDepth 100000 in
/-- **C30 (counterexample).** The six bytes `a`, NUL, `\r\n\r\n` arrive in one
read: the accumulated bytes contain `\r\n\r\n` at offset 2, yet the call goes on
reading, and a timeout then ends it with `HTTP_IO_TIMEOUT_PARTIAL`. -/
theorem read_http_headers_finds_terminator_counterexample :
    strstr [97, 0, 13, 10, 13, 10] CRLFCRLF = some 2 ∧
    read_http_headers MAX_REQUEST_SIZE [.data [97, 0, 13, 10, 13, 10]] = none ∧
    read_http_headers MAX_REQUEST_SIZE [.data [97, 0, 13, 10, 13, 10], .eagain] =
      some (HTTP_IO_TIMEOUT_PARTIAL, [97, 0, 13, 10, 13, 10]) := by
  decide

/-! ### The session loop: the 413 answer and the keep-alive test -/

set_option maxRecDepth 100000 in
/-- **C23 (failing input).** A request with `Content-Length: 70000` and no
`Connection` header: the 413 response of `handle_client` carries the line
`Connection: ` with an empty value, not `Connection: close`; with the header
`Connection: keep-alive` it carries `Connection: keep-alive`.  The value `close`
is what `handle_read_body_status` takes for a `NULL` pointer, which the array
`request.connection_header` never is. -/
theorem handle_client_body_too_large :
    handle_client_pass false (bytes "Sun, 06 Nov 1994 08:49:37 GMT")
        [.data (bytes "POST /x HTTP/1.1\r\nHost: a\r\nContent-Length: 70000\r\n\r\n")] =
      some ⟨[Event.sent (bytes ("HTTP/1.1 413 Payload Too Large\r\n" ++
        "Date: Sun, 06 Nov 1994 08:49:37 GMT\r\nContent-Type: text/html\r\n" ++
        "Content-Length: 56\r\nConnection: \r\n" ++
        "<html><body><h1>413 Payload Too Large</h1></body></html>"))], false, []⟩ ∧
    handle_client_pass false (bytes "Sun, 06 Nov 1994 08:49:37 GMT")
        [.data (bytes ("POST /x HTTP/1.1\r\nHost: a\r\nConnection: keep-alive\r\n" ++
          "Content-Length: 70000\r\n\r\n"))] =
      some ⟨[Event.sent (bytes ("HTTP/1.1 413 Payload Too Large\r\n" ++
        "Date: Sun, 06 Nov 1994 08:49:37 GMT\r\nContent-Type: text/html\r\n" ++
        "Content-Length: 56\r\nConnection: keep-alive\r\n" ++
        "<html><body><h1>413 Payload Too Large</h1></body></html>"))], false, []⟩ ∧
    handle_read_body_status HTTP_BODY_TOO_LARGE (bytes "Sun, 06 Nov 1994 08:49:37 GMT") none
        (some (bytes "POST")) =
      (0, some (bytes ("HTTP/1.1 413 Payload Too Large\r\n" ++
        "Date: Sun, 06 Nov 1994 08:49:37 GMT\r\nContent-Type: text/html\r\n" ++
        "Content-Length: 56\r\nConnection: close\r\n" ++
        "<html><body><h1>413 Payload Too Large</h1></body></html>"))) := by
  decide

/-- The test at the end of the loop body compares the first 10 bytes of the
connection directive. -/
theorem keep_alive_test_iff (conn : List Nat) :
    strn_case_cmp conn (bytes "keep-alive") 10 = 0 ↔
      normalize_string_lower (conn.take 10) = bytes "keep-alive" := by
  have h := strn_case_cmp_eq_zero_iff (bytes "keep-alive") (by decide) conn
  have hl : (bytes "keep-alive").length = 10 := by decide
  have hlow : normalize_string_lower (bytes "keep-alive") = bytes "keep-alive" := by decide
  rw [hl, hlow] at h
  exact h

theorem not_mem_written (w : Option (List Nat)) (ev : Event) (hmem : ev ∈ written w)
    (hev : (∃ f m c, ev = Event.send_file_response f m c) ∨
      (∃ r c, ev = Event.handle_post_request r c)) : False := by
  cases w with
  | none => simp [written] at hmem
  | some resp =>
    simp only [written, List.mem_singleton] at hmem
    subst hmem
    rcases hev with ⟨f, m, c, h⟩ | ⟨r, c, h⟩ <;> exact Event.noConfusion h

/-- **C24 (amended).** After a request has been dispatched (to
`send_file_response` or `handle_post_request`), `handle_client` loops back to
read another request if and only if the first 10 bytes of the request's
connection directive equal `keep-alive` when ASCII case is ignored; in no other
case does the loop body go on.  So the empty directive and `close` end the
session, and a longer directive that begins with `keep-alive` continues it like
`keep-alive` itself.  Going on means: the keep-alive timeout is set and the next
pass runs on what is left to read. -/
theorem handle_client_loops_on_keep_alive (errno_einval : Bool) (date : List Nat)
    (request : http_request) (unread : List RecvResult) (fuel : Nat)
    (script : List RecvResult) :
    (∀ ev ∈ (handle_client_dispatch date request unread).events,
      ((∃ f m c, ev = Event.send_file_response f m c) ∨
        (∃ r c, ev = Event.handle_post_request r c)) →
      ((handle_client_dispatch date request unread).again = true ↔
        normalize_string_lower (request.connection_header.take 10) = bytes "keep-alive")) ∧
    ((handle_client_dispatch date request unread).again = true →
      normalize_string_lower (request.connection_header.take 10) = bytes "keep-alive") ∧
    (∀ p, handle_client_pass errno_einval date script = some p →
      handle_client_loop errno_einval date (fuel + 1) script =
        if p.again then
          (handle_client_loop errno_einval date fuel p.unread).map
            (fun rest => p.events ++ Event.set_socket_timeout KEEP_ALIVE_TIMEOUT_SEC :: rest)
        else some p.events) := by
  have hk := keep_alive_test_iff request.connection_header
  refine ⟨?_, ?_, ?_⟩
  · intro ev hmem hev
    unfold handle_client_dispatch at hmem ⊢
    simp only [] at hmem ⊢
    split_ifs at hmem ⊢
    · exact absurd (not_mem_written _ ev hmem hev) id
    · exact absurd (not_mem_written _ ev hmem hev) id
    · simp only [decide_eq_true_eq]
      exact hk
    · simp only [decide_eq_true_eq]
      exact hk
    · exact absurd (not_mem_written _ ev hmem hev) id
  · intro hagain
    unfold handle_client_dispatch at hagain
    simp only [] at hagain
    split_ifs at hagain
    · exact hk.mp (by simpa using hagain)
    · exact hk.mp (by simpa using hagain)
    · exact hk.mp (by simpa using hagain)
  · intro p hp
    rw [handle_client_loop, hp]

set_option maxRecDepth 100000 in
/-- Witness for C24 (amended): a request with `Connection: Keep-Alive` is followed
by a second pass; with `Connection: close`, or without the header, the session
ends after the first. -/
theorem handle_client_loops_on_keep_alive_witness :
    handle_client false (bytes "Sun, 06 Nov 1994 08:49:37 GMT")
        [.data (bytes "GET / HTTP/1.1\r\nHost: x\r\nConnection: Keep-Alive\r\n\r\n"),
          .eagain] =
      some [Event.set_socket_timeout 30,
        Event.send_file_response (bytes "./www/index.html") (bytes "GET") (bytes "keep-alive"),
        Event.set_socket_timeout 5] ∧
    handle_client false (bytes "Sun, 06 Nov 1994 08:49:37 GMT")
        [.data (bytes "GET / HTTP/1.1\r\nHost: x\r\nConnection: close\r\n\r\n"), .eagain] =
      some [Event.set_socket_timeout 30,
        Event.send_file_response (bytes "./www/index.html") (bytes "GET") (bytes "close")] ∧
    handle_client false (bytes "Sun, 06 Nov 1994 08:49:37 GMT")
        [.data (bytes "GET / HTTP/1.1\r\nHost: x\r\n\r\n"), .eagain] =
      some [Event.set_socket_timeout 30,
        Event.send_file_response (bytes "./www/index.html") (bytes "GET") []] ∧
    ((handle_client_dispatch (bytes "Sun, 06 Nov 1994 08:49:37 GMT")
        { method := bytes "GET", path := bytes "/", connection_header := bytes "close" }
        []).again = true →
      normalize_string_lower ((bytes "close").take 10) = bytes "keep-alive") :=
  ⟨by decide, by decide, by decide,
    (handle_client_loops_on_keep_alive false (bytes "Sun, 06 Nov 1994 08:49:37 GMT")
      { method := bytes "GET", path := bytes "/", connection_header := bytes "close" }
      [] 0 []).2.1⟩

set_option maxRecDepth 100000 in
/-- **C24 (counterexample).** The header `Connection: keep-alive, upgrade` gives
the directive `keep-alive,upgrade`, which only begins with `keep-alive`; after the
request is dispatched the loop goes on: the keep-alive timeout is set and a second
pass reads. -/
theorem handle_client_loops_on_keep_alive_counterexample :
    handle_client_pass false (bytes "Sun, 06 Nov 1994 08:49:37 GMT")
        [.data (bytes "GET / HTTP/1.1\r\nHost: x\r\nConnection: keep-alive, upgrade\r\n\r\n"),
          .eagain] =
      some ⟨[Event.send_file_response (bytes "./www/index.html") (bytes "GET")
        (bytes "keep-alive,upgrade")], true, [.eagain]⟩ ∧
    handle_client false (bytes "Sun, 06 Nov 1994 08:49:37 GMT")
        [.data (bytes "GET / HTTP/1.1\r\nHost: x\r\nConnection: keep-alive, upgrade\r\n\r\n"),
          .eagain] =
      some [Event.set_socket_timeout 30,
        Event.send_file_response (bytes "./www/index.html") (bytes "GET")
          (bytes "keep-alive,upgrade"),
        Event.set_socket_timeout 5] ∧
    bytes "keep-alive,upgrade" ≠ bytes "keep-alive" := by
  decide

/-! ### Every pass of the session loop reads -/

theorem read_http_body_loop_unread (h : Nat) :
    ∀ (script : List RecvResult) (bar : Nat) (buffer : List Nat) (req : http_request)
      (b : body_read),
      read_http_body_loop h script bar buffer req = some b →
      b.unread.length ≤ script.length := by
  intro script
  induction script with
  | nil =>
    intro bar buffer req b hres
    by_cases hlt : bar < req.content_length
    · by_cases hz : body_to_read h req.content_length bar = 0
      · rw [read_http_body_loop_full h _ bar buffer req hlt hz] at hres
        injection hres with hres
        rw [← hres]
      · rw [read_http_body_loop_nil h bar buffer req hlt hz] at hres
        exact absurd hres (by simp)
    · rw [read_http_body_loop_done h _ bar buffer req hlt] at hres
      injection hres with hres
      rw [← hres]
  | cons ev script ih =>
    intro bar buffer req b hres
    by_cases hlt : bar < req.content_length
    · by_cases hz : body_to_read h req.content_length bar = 0
      · rw [read_http_body_loop_full h _ bar buffer req hlt hz] at hres
        injection hres with hres
        rw [← hres]
      · cases ev with
        | eagain =>
          rw [read_http_body_loop_eagain h _ bar buffer req hlt hz] at hres
          injection hres with hres
          rw [← hres]
          simp
        | fail =>
          rw [read_http_body_loop_fail h _ bar buffer req hlt hz] at hres
          injection hres with hres
          rw [← hres]
          simp
        | data bs =>
          by_cases hbs : bs = []
          · subst hbs
            rw [read_http_body_loop_eof h _ bar buffer req hlt hz] at hres
            injection hres with hres
            rw [← hres]
            simp
          · rw [read_http_body_loop_data h _ bar buffer req bs hbs hlt hz] at hres
            have := ih _ _ req b hres
            simp only [List.length_cons]
            omega
    · rw [read_http_body_loop_done h _ bar buffer req hlt] at hres
      injection hres with hres
      rw [← hres]

theorem read_http_body_unread (errno_einval : Bool) (script : List RecvResult)
    (buffer : List Nat) (headers_end_pos total_read : Nat) (req : http_request)
    (b : body_read)
    (hres : read_http_body errno_einval script buffer headers_end_pos total_read req = some b) :
    b.unread.length ≤ script.length := by
  unfold read_http_body at hres
  simp only [] at hres
  split_ifs at hres
  · injection hres with hres
    rw [← hres]
  · injection hres with hres
    rw [← hres]
  · exact read_http_body_loop_unread _ _ _ _ _ b hres
  · exact read_http_body_loop_unread _ _ _ _ _ b hres

theorem handle_client_dispatch_unread (date : List Nat) (request : http_request)
    (unread : List RecvResult) :
    (handle_client_dispatch date request unread).unread = unread := by
  unfold handle_client_dispatch
  simp only []
  split_ifs <;> rfl

theorem handle_client_phases_unread (errno_einval : Bool) (date buffer : List Nat)
    (total_read : Int) (header_end first_line_end : Nat) (unread : List RecvResult)
    (p : pass_result)
    (h : handle_client_phases errno_einval date buffer total_read header_end first_line_end
      unread = some p) :
    p.unread.length ≤ unread.length := by
  unfold handle_client_phases at h
  simp only [] at h
  split_ifs at h
  · injection h with h
    rw [← h]
  · injection h with h
    rw [← h]
  · injection h with h
    rw [← h]
  · split at h
    · exact absurd h (by simp)
    · rename_i b hb
      have hlen := read_http_body_unread _ _ _ _ _ _ b hb
      split_ifs at h
      · injection h with h
        rw [← h]
        exact hlen
      · injection h with h
        rw [← h, handle_client_dispatch_unread]
        exact hlen

/-- Every pass of the loop body consumes at least one `recv` result. -/
theorem handle_client_pass_consumes (errno_einval : Bool) (date : List Nat)
    (script : List RecvResult) (p : pass_result)
    (h : handle_client_pass errno_einval date script = some p) :
    p.unread.length < script.length := by
  cases script with
  | nil =>
    have hnone : read_http_headers MAX_REQUEST_SIZE [] = none := by decide
    unfold handle_client_pass at h
    rw [hnone] at h
    exact absurd h (by simp)
  | cons r s =>
    have hcalls : 1 ≤ (read_http_headers_calls MAX_REQUEST_SIZE (r :: s) 0 []).length := by
      have hlt : 0 < size_sub MAX_REQUEST_SIZE 1 := by decide
      rw [read_http_headers_calls, if_pos hlt]
      simp only [List.length_cons]
      omega
    have hdrop : ((r :: s).drop
        (read_http_headers_calls MAX_REQUEST_SIZE (r :: s) 0 []).length).length < (r :: s).length := by
      rw [List.length_drop]
      simp only [List.length_cons]
      omega
    unfold handle_client_pass at h
    split at h
    · exact absurd h (by simp)
    · simp only [] at h
      split_ifs at h
      · injection h with h
        rw [← h]
        exact hdrop
      · split at h
        · have := handle_client_phases_unread _ _ _ _ _ _ _ p h
          omega
        · injection h with h
          rw [← h]
          exact hdrop

/-- More passes than the script has entries are never needed: the loop gives the
same result for every such bound. -/
theorem handle_client_loop_fuel (errno_einval : Bool) (date : List Nat) :
    ∀ (n : Nat) (script : List RecvResult) (fuel1 fuel2 : Nat),
      script.length ≤ n → script.length < fuel1 → script.length < fuel2 →
      handle_client_loop errno_einval date fuel1 script =
        handle_client_loop errno_einval date fuel2 script := by
  intro n
  induction n with
  | zero =>
    intro script fuel1 fuel2 hn h1 h2
    have hs : script = [] := List.eq_nil_of_length_eq_zero (by omega)
    subst hs
    cases fuel1 with
    | zero => simp at h1
    | succ f1 =>
      cases fuel2 with
      | zero => simp at h2
      | succ f2 =>
        cases hp : handle_client_pass errno_einval date [] with
        | none => rw [handle_client_loop, handle_client_loop, hp]
        | some p =>
          have := handle_client_pass_consumes _ _ _ p hp
          simp at this
  | succ n ih =>
    intro script fuel1 fuel2 hn h1 h2
    cases fuel1 with
    | zero => simp at h1
    | succ f1 =>
      cases fuel2 with
      | zero => simp at h2
      | succ f2 =>
        rw [handle_client_loop, handle_client_loop]
        cases hp : handle_client_pass errno_einval date script with
        | none => rfl
        | some p =>
          have hc := handle_client_pass_consumes _ _ _ p hp
          simp only []
          rw [ih p.unread f1 f2 (by omega) (by omega) (by omega)]

/-! ### The header framer in the session: no `HTTP_PARSE_ERROR`, the searches that follow -/

/-- With the buffer of the session, the loop of the header framer ends with
success and a terminator in the buffer, with `HTTP_HEADERS_TOO_LARGE`, or with a
transport status. -/
theorem read_http_headers_loop_outcome :
    ∀ (script : List RecvResult) (total_read : Nat) (buffer : List Nat) (rc : Int)
      (out : List Nat),
      total_read ≤ 32768 →
      read_http_headers_loop 65536 script total_read buffer = some (rc, out) →
      (0 < rc ∧ strstr (c_str out) CRLFCRLF ≠ none) ∨ rc = HTTP_HEADERS_TOO_LARGE ∨
        rc = HTTP_IO_TIMEOUT ∨ rc = HTTP_IO_TIMEOUT_PARTIAL ∨ rc = HTTP_IO_EOF ∨
        rc = HTTP_IO_EOF_PARTIAL ∨ rc = HTTP_IO_ERROR := by
  intro script
  induction script with
  | nil =>
    intro total_read buffer rc out hle h
    have hlt : total_read < size_sub 65536 1 := by rw [size_sub_of_le (by omega)]; omega
    rw [read_http_headers_loop_nil _ _ _ hlt] at h
    exact absurd h (by simp)
  | cons r script ih =>
    intro total_read buffer rc out hle h
    have hlt : total_read < size_sub 65536 1 := by rw [size_sub_of_le (by omega)]; omega
    have hsz := request_size_eq total_read (by omega)
    cases r with
    | eagain =>
      rw [read_http_headers_loop_eagain _ _ _ _ hlt] at h
      injection h with h
      injection h with h1 h2
      rw [← h1]
      split_ifs
      · exact Or.inr (Or.inr (Or.inl rfl))
      · exact Or.inr (Or.inr (Or.inr (Or.inl rfl)))
    | fail =>
      rw [read_http_headers_loop_fail _ _ _ _ hlt] at h
      injection h with h
      injection h with h1 h2
      rw [← h1]
      exact Or.inr (Or.inr (Or.inr (Or.inr (Or.inr (Or.inr rfl)))))
    | data bs =>
      by_cases hnil : bs.take (size_sub (size_sub 65536 total_read) 1) = []
      · rw [read_http_headers_loop_eof _ _ _ _ _ hlt hnil] at h
        injection h with h
        injection h with h1 h2
        rw [← h1]
        split_ifs
        · exact Or.inr (Or.inr (Or.inr (Or.inr (Or.inl rfl))))
        · exact Or.inr (Or.inr (Or.inr (Or.inr (Or.inr (Or.inl rfl)))))
      · have hlen : (bs.take (size_sub (size_sub 65536 total_read) 1)).length ≤
            65535 - total_read := by
          rw [hsz, List.length_take]
          omega
        have hpos : 0 < (bs.take (size_sub (size_sub 65536 total_read) 1)).length :=
          List.length_pos.mpr hnil
        by_cases hs : strstr (c_str (buffer ++ bs.take (size_sub (size_sub 65536 total_read) 1)))
            CRLFCRLF = none
        · by_cases hg : total_read + (bs.take (size_sub (size_sub 65536 total_read) 1)).length
              > MAX_REQUEST_SIZE / 2
          · rw [read_http_headers_loop_guard _ _ _ _ _ hlt hnil hs hg] at h
            injection h with h
            injection h with h1 h2
            rw [← h1]
            exact Or.inr (Or.inl rfl)
          · have hg2 : total_read + (bs.take (size_sub (size_sub 65536 total_read) 1)).length
                ≤ MAX_REQUEST_SIZE / 2 := by omega
            rw [read_http_headers_loop_continue _ _ _ _ _ hlt hnil hs hg2] at h
            exact ih _ _ rc out hg2 h
        · rw [read_http_headers_loop_found _ _ _ _ _ hlt hnil hs] at h
          injection h with h
          injection h with h1 h2
          rw [← h2, ← h1, to_int_of_lt (by omega)]
          exact Or.inl ⟨by omega, hs⟩

/-- **C31.** With the buffer of 65536 bytes that the session uses,
`read_http_headers` never returns `HTTP_PARSE_ERROR`, whatever the reads return:
what it returns is a positive count with a terminator in the buffer,
`HTTP_HEADERS_TOO_LARGE` from the size guard, or a transport status. -/
theorem read_http_headers_no_parse_error (script : List RecvResult) (rc : Int)
    (buffer : List Nat)
    (h : read_http_headers MAX_REQUEST_SIZE script = some (rc, buffer)) :
    rc ≠ HTTP_PARSE_ERROR ∧
    ((0 < rc ∧ strstr (c_str buffer) CRLFCRLF ≠ none) ∨ rc = HTTP_HEADERS_TOO_LARGE ∨
      rc = HTTP_IO_TIMEOUT ∨ rc = HTTP_IO_TIMEOUT_PARTIAL ∨ rc = HTTP_IO_EOF ∨
      rc = HTTP_IO_EOF_PARTIAL ∨ rc = HTTP_IO_ERROR) := by
  have hout := read_http_headers_loop_outcome script 0 [] rc buffer (by omega) h
  refine ⟨?_, hout⟩
  intro hpe
  rw [hpe] at hout
  rcases hout with ⟨h0, _⟩ | h0 | h0 | h0 | h0 | h0 | h0 <;> exact absurd h0 (by decide)

set_option maxRecDepth 100000 in
/-- Witness for C31: ten bytes and then a timeout, with the buffer of the session;
a buffer of one byte, for which the loop is not entered, gives
`HTTP_PARSE_ERROR`. -/
theorem read_http_headers_no_parse_error_witness :
    read_http_headers MAX_REQUEST_SIZE [.data (bytes "GET / HTTP"), .eagain] =
      some (HTTP_IO_TIMEOUT_PARTIAL, bytes "GET / HTTP") ∧
    HTTP_IO_TIMEOUT_PARTIAL ≠ HTTP_PARSE_ERROR ∧
    read_http_headers 1 [.data (bytes "GET / HTTP"), .eagain] = some (HTTP_PARSE_ERROR, []) :=
  ⟨by decide,
    (read_http_headers_no_parse_error [.data (bytes "GET / HTTP"), .eagain]
      HTTP_IO_TIMEOUT_PARTIAL (bytes "GET / HTTP") (by decide)).1,
    by decide⟩

/-- Where `\r\n\r\n` is found, `\r\n` is found at or before it. -/
theorem strstr_crlf_of_terminator : ∀ (hay : List Nat) (i : Nat),
    strstr hay CRLFCRLF = some i → ∃ j, strstr hay CRLF = some j ∧ j ≤ i := by
  intro hay
  induction hay with
  | nil =>
    intro i h
    simp [strstr, CRLFCRLF] at h
  | cons a t ih =>
    intro i h
    rw [strstr] at h
    by_cases hp : CRLFCRLF <+: a :: t
    · rw [if_pos hp] at h
      injection h with h
      subst h
      have hp2 : CRLF <+: a :: t :=
        (show CRLF <+: CRLFCRLF from ⟨CRLF, rfl⟩).trans hp
      exact ⟨0, by rw [strstr, if_pos hp2], le_rfl⟩
    · rw [if_neg hp] at h
      cases hs : strstr t CRLFCRLF with
      | none => simp [hs] at h
      | some k =>
        simp only [hs, Option.map_some', Option.some.injEq] at h
        subst h
        obtain ⟨j, hj, hjk⟩ := ih k hs
        by_cases hp2 : CRLF <+: a :: t
        · exact ⟨0, by rw [strstr, if_pos hp2], by omega⟩
        · exact ⟨j + 1, by rw [strstr, if_neg hp2, hj]; rfl, by omega⟩

theorem null_store_not_mem_written (w : Option (List Nat)) : Event.null_store ∉ written w := by
  cases w <;> simp [written]

theorem handle_client_dispatch_no_null_store (date : List Nat) (request : http_request)
    (unread : List RecvResult) :
    Event.null_store ∉ (handle_client_dispatch date request unread).events := by
  unfold handle_client_dispatch
  simp only []
  split_ifs
  · exact null_store_not_mem_written _
  · exact null_store_not_mem_written _
  · simp
  · simp
  · exact null_store_not_mem_written _

theorem handle_client_phases_no_null_store (errno_einval : Bool) (date buffer : List Nat)
    (total_read : Int) (header_end first_line_end : Nat) (unread : List RecvResult)
    (p : pass_result)
    (h : handle_client_phases errno_einval date buffer total_read header_end first_line_end
      unread = some p) :
    Event.null_store ∉ p.events := by
  unfold handle_client_phases at h
  simp only [] at h
  split_ifs at h
  · injection h with h
    rw [← h]
    exact null_store_not_mem_written _
  · injection h with h
    rw [← h]
    exact null_store_not_mem_written _
  · injection h with h
    rw [← h]
    exact null_store_not_mem_written _
  · split at h
    · exact absurd h (by simp)
    · split_ifs at h
      · injection h with h
        rw [← h]
        exact null_store_not_mem_written _
      · injection h with h
        rw [← h]
        exact handle_client_dispatch_no_null_store _ _ _

/-- The header-read classifier lets the session go on only for a positive status. -/
theorem handle_read_headers_status_continue (rc : Int) (date : List Nat)
    (method : Option (List Nat)) (h : (handle_read_headers_status rc date method).1 ≠ 0) :
    0 < rc := by
  unfold handle_read_headers_status at h
  split_ifs at h with h1
  · exact h1
  all_goals exact absurd rfl h

/-- **C35.** Whenever `read_http_headers` returns a positive value, with the
buffer of the session, the NUL-terminated content of the buffer contains
`\r\n\r\n` and `\r\n`: both searches of `handle_client` succeed, the first line
ends at or before the terminator, and the offset of the terminator plus 4 is at
most the value returned.  So no pass of `handle_client` stores through a `NULL`
pointer. -/
theorem read_http_headers_searches_succeed (errno_einval : Bool) (date : List Nat)
    (script : List RecvResult) (rc : Int) (buffer : List Nat)
    (h : read_http_headers MAX_REQUEST_SIZE script = some (rc, buffer)) (hpos : 0 < rc) :
    (∃ header_end first_line_end,
      strstr (c_str buffer) CRLFCRLF = some header_end ∧
      strstr (c_str buffer) CRLF = some first_line_end ∧
      first_line_end ≤ header_end ∧ (header_end : Int) + 4 ≤ rc) ∧
    (∀ p, handle_client_pass errno_einval date script = some p →
      Event.null_store ∉ p.events) := by
  obtain ⟨h1, h2, h3⟩ := read_http_headers_loop_positive script 0 [] rc buffer rfl (by omega)
    h hpos
  obtain ⟨i, hi⟩ := Option.ne_none_iff_exists'.mp h2
  obtain ⟨j, hj, hji⟩ := strstr_crlf_of_terminator _ _ hi
  have hb := strstr_some_le _ _ _ hi
  have hc := c_str_length_le buffer
  have h4 : CRLFCRLF.length = 4 := rfl
  refine ⟨⟨i, j, hi, hj, hji, by rw [h1]; omega⟩, ?_⟩
  intro p hp
  unfold handle_client_pass at hp
  rw [h] at hp
  simp only [] at hp
  split_ifs at hp
  · injection hp with hp
    rw [← hp]
    exact null_store_not_mem_written _
  · rw [hi, hj] at hp
    exact handle_client_phases_no_null_store _ _ _ _ _ _ _ p hp

set_option maxRecDepth 100000 in
/-- Witness for C35: a head of 27 bytes followed by 2 bytes of body. -/
theorem read_http_headers_searches_succeed_witness :
    read_http_headers MAX_REQUEST_SIZE [.data (bytes "GET / HTTP/1.1\r\nHost: x\r\n\r\nab")] =
      some (29, bytes "GET / HTTP/1.1\r\nHost: x\r\n\r\nab") ∧
    strstr (c_str (bytes "GET / HTTP/1.1\r\nHost: x\r\n\r\nab")) CRLFCRLF = some 23 ∧
    strstr (c_str (bytes "GET / HTTP/1.1\r\nHost: x\r\n\r\nab")) CRLF = some 14 ∧
    ∃ header_end first_line_end,
      strstr (c_str (bytes "GET / HTTP/1.1\r\nHost: x\r\n\r\nab")) CRLFCRLF = some header_end ∧
      strstr (c_str (bytes "GET / HTTP/1.1\r\nHost: x\r\n\r\nab")) CRLF = some first_line_end ∧
      first_line_end ≤ header_end ∧ (header_end : Int) + 4 ≤ 29 :=
  ⟨by decide, by decide, by decide,
    (read_http_headers_searches_succeed false (bytes "Sun, 06 Nov 1994 08:49:37 GMT")
      [.data (bytes "GET / HTTP/1.1\r\nHost: x\r\n\r\nab")] 29
      (bytes "GET / HTTP/1.1\r\nHost: x\r\n\r\nab") (by decide) (by decide)).1⟩

/-! ### An unterminated last line, a failing `HEAD` request, the path check -/

/-- **C32 (amended).** In `parse_headers`, when no `\r\n` occurs from the current
position on, the loop is left and the function returns what it would return if
the head ended there: success, with the entries of the lines before, when these
are shorter than 8192 bytes and hold a `:`.  `HTTP_PARSE_ERROR` for a missing
`\r\n` is returned only when the input holds no `\r\n` at all. -/
theorem parse_headers_unterminated_line (rl : List Nat) (lines : List (List Nat))
    (tail : List Nat) (req : http_request) (hrl : strstr rl CRLF = none)
    (hlines : ∀ l ∈ lines, is_visited_line l = true)
    (htail : strstr tail CRLF = none) :
    parse_headers (rl ++ CRLF ++ header_block lines ++ tail) req =
      parse_headers (rl ++ CRLF ++ header_block lines ++ CRLF) req ∧
    ((∀ l ∈ lines.take MAX_HEADERS, is_bad_line l = false) →
      (parse_headers (rl ++ CRLF ++ header_block lines ++ tail) req).1 = 1 ∧
      (parse_headers (rl ++ CRLF ++ header_block lines ++ tail) req).2.headers =
        (lines.take MAX_HEADERS).map normalize_header) ∧
    (∀ data : List Nat, strstr data CRLF = none →
      (parse_headers data req).1 = HTTP_PARSE_ERROR) := by
  have hend : ends_header_lines tail = true := by simp [ends_header_lines, htail]
  have h1 := parse_headers_lines rl lines tail req hrl hlines (fun _ => hend)
  have h2 := parse_headers_lines rl lines CRLF req hrl hlines (fun _ => by decide)
  refine ⟨by rw [h1, h2], ?_, ?_⟩
  · intro hgood
    rw [h1, headers_outcome_ok lines MAX_HEADERS _ hgood]
    exact ⟨rfl, by rw [foldl_store_headers]; rfl⟩
  · intro data hdata
    unfold parse_headers
    rw [hdata]

set_option maxRecDepth 100000 in
/-- Witness for C32 (amended): after the line `A: b` the text `noend` follows,
without `\r\n`. -/
theorem parse_headers_unterminated_line_witness :
    strstr (bytes "noend") CRLF = none ∧
    parse_headers (bytes "GET / HTTP/1.1" ++ CRLF ++ header_block [bytes "A: b"] ++
        bytes "noend") {} =
      parse_headers (bytes "GET / HTTP/1.1" ++ CRLF ++ header_block [bytes "A: b"] ++ CRLF) {} ∧
    parse_headers (bytes "GET / HTTP/1.1" ++ CRLF ++ header_block [bytes "A: b"] ++ CRLF) {} =
      (1, { headers := [bytes "a:b"] }) :=
  ⟨by decide,
    (parse_headers_unterminated_line (bytes "GET / HTTP/1.1") [bytes "A: b"] (bytes "noend") {}
      (by decide) (by decide) (by decide)).1,
    by decide⟩

set_option maxRecDepth 100000 in
/-- **C32 (counterexample).** In `GET / HTTP/1.1\r\nA: b\r\nnoend` the position
after the line `A: b` does not begin with `\r` and no `\r\n` follows it;
`parse_headers` returns 1, not `HTTP_PARSE_ERROR`. -/
theorem parse_headers_unterminated_line_counterexample :
    (bytes "noend").head? ≠ some 13 ∧ strstr (bytes "noend") CRLF = none ∧
    parse_headers (bytes "GET / HTTP/1.1\r\nA: b\r\nnoend") {} =
      (1, { headers := [bytes "a:b"] }) ∧
    (parse_headers (bytes "GET / HTTP/1.1\r\nA: b\r\nnoend") {}).1 ≠ HTTP_PARSE_ERROR := by
  decide

theorem parse_request_line_checks_failure_method (method full_path version : List Nat)
    (path_len : Nat) (req : http_request)
    (h : (parse_request_line_checks method full_path version path_len req).1 ≠ 1) :
    (parse_request_line_checks method full_path version path_len req).2.method = req.method := by
  unfold parse_request_line_checks at h ⊢
  split_ifs at h ⊢
  all_goals first
    | rfl
    | exact absurd rfl h

/-- A failing `parse_request_line` leaves the method of the request as it was. -/
theorem parse_request_line_failure_method (line : List Nat) (req : http_request)
    (h : (parse_request_line line req).1 ≠ 1) :
    (parse_request_line line req).2.method = req.method := by
  unfold parse_request_line at h ⊢
  simp only [] at h ⊢
  by_cases h1 : (sscanf_request_line line).1 ≠ 3
  · rw [if_pos h1]
  · rw [if_neg h1] at h ⊢
    cases hs : strchr (sscanf_request_line line).2.2.1 63 with
    | none =>
      simp only [hs] at h ⊢
      by_cases h2 : (sscanf_request_line line).2.2.1.length ≥ MAX_PATH
      · rw [if_pos h2]
      · rw [if_neg h2] at h ⊢
        exact parse_request_line_checks_failure_method _ _ _ _ _ h
    | some path_len =>
      simp only [hs] at h ⊢
      by_cases h2 : path_len ≥ MAX_PATH ∨
          ((sscanf_request_line line).2.2.1.drop (path_len + 1)).length ≥ MAX_QUERY
      · rw [if_pos h2]
      · rw [if_neg h2] at h ⊢
        exact parse_request_line_checks_failure_method _ _ _ _ _ h

set_option maxRecDepth 100000 in
/-- **C33 (failing inputs).** The request `HEAD / FOO/1.1` fails in the
request-line phase, and so does `HEAD /?qq…q HTTP/1.1` with a query of 1024
bytes (`HTTP_URI_TOO_LONG`): the responses 400 and 414 carry `Content-Length: 50`
and `Content-Length: 51` and their bodies.  The method of the request is stored
only when `parse_request_line` succeeds, so the classifier is called with the
empty method. -/
theorem handle_client_head_request_line_failure :
    handle_client_pass false (bytes "Sun, 06 Nov 1994 08:49:37 GMT")
        [.data (bytes "HEAD / FOO/1.1\r\nHost: x\r\n\r\n")] =
      some ⟨[Event.sent (bytes ("HTTP/1.1 400 Bad Request\r\n" ++
        "Date: Sun, 06 Nov 1994 08:49:37 GMT\r\nContent-Type: text/html\r\n" ++
        "Content-Length: 50\r\nConnection: close\r\n" ++
        "<html><body><h1>400 Bad Request</h1></body></html>"))], false, []⟩ ∧
    (parse_request_line (bytes "HEAD / FOO/1.1") {}).2.method = [] ∧
    (parse_request_line (bytes "HEAD /?" ++ List.replicate 1024 113 ++ bytes " HTTP/1.1") {}) =
      (HTTP_URI_TOO_LONG, {}) ∧
    handle_request_line_status HTTP_URI_TOO_LONG (bytes "Sun, 06 Nov 1994 08:49:37 GMT")
        (some []) =
      (0, some (bytes ("HTTP/1.1 414 URI Too Long\r\n" ++
        "Date: Sun, 06 Nov 1994 08:49:37 GMT\r\nContent-Type: text/html\r\n" ++
        "Content-Length: 51\r\nConnection: close\r\n" ++
        "<html><body><h1>414 URI Too Long</h1></body></html>"))) ∧
    handle_request_line_status HTTP_URI_TOO_LONG (bytes "Sun, 06 Nov 1994 08:49:37 GMT")
        (some (bytes "HEAD")) =
      (0, some (bytes ("HTTP/1.1 414 URI Too Long\r\n" ++
        "Date: Sun, 06 Nov 1994 08:49:37 GMT\r\nContent-Type: text/html\r\n" ++
        "Content-Length: 0\r\nConnection: close\r\n"))) := by
  decide

theorem is_safe_path_accepts (path : List Nat) (h : is_safe_path path ≠ 0) :
    is_safe_path path = 1 ∧ path.head? = some 47 ∧ strstr path (bytes "..") = none := by
  unfold is_safe_path at h ⊢
  split_ifs at h ⊢ with h1 h2
  · exact absurd rfl h
  · exact absurd rfl h
  · exact ⟨rfl, not_not.mp h2, not_not.mp h1⟩

theorem mem_written_sent (w : Option (List Nat)) (ev : Event) (hmem : ev ∈ written w) :
    ∃ resp, ev = Event.sent resp := by
  cases w with
  | none => simp [written] at hmem
  | some resp =>
    simp only [written, List.mem_singleton] at hmem
    exact ⟨resp, hmem⟩

theorem dispatches_safe_path_written (w : Option (List Nat)) (ev : Event)
    (hmem : ev ∈ written w) : dispatches_safe_path ev := by
  obtain ⟨resp, rfl⟩ := mem_written_sent w ev hmem
  exact ⟨fun r c h => Event.noConfusion h, fun f m c h => Event.noConfusion h⟩

theorem handle_client_dispatch_safe (date : List Nat) (request : http_request)
    (unread : List RecvResult) :
    ∀ ev ∈ (handle_client_dispatch date request unread).events, dispatches_safe_path ev := by
  intro ev hmem
  unfold handle_client_dispatch at hmem
  simp only [] at hmem
  split_ifs at hmem with hsafe hget hmap hpost
  · exact dispatches_safe_path_written _ ev hmem
  · exact dispatches_safe_path_written _ ev hmem
  · simp only [List.mem_singleton] at hmem
    subst hmem
    refine ⟨fun r c h => Event.noConfusion h, fun f m c h => ?_⟩
    injection h with hf
    exact ⟨request.path, (is_safe_path_accepts _ hsafe).1, hf.symm⟩
  · simp only [List.mem_singleton] at hmem
    subst hmem
    refine ⟨fun r c h => ?_, fun f m c h => Event.noConfusion h⟩
    injection h with hr
    rw [← hr]
    exact (is_safe_path_accepts _ hsafe).1
  · exact dispatches_safe_path_written _ ev hmem

theorem handle_client_phases_safe (errno_einval : Bool) (date buffer : List Nat)
    (total_read : Int) (header_end first_line_end : Nat) (unread : List RecvResult)
    (p : pass_result)
    (h : handle_client_phases errno_einval date buffer total_read header_end first_line_end
      unread = some p) :
    ∀ ev ∈ p.events, dispatches_safe_path ev := by
  unfold handle_client_phases at h
  simp only [] at h
  split_ifs at h
  · injection h with h
    rw [← h]
    exact dispatches_safe_path_written _
  · injection h with h
    rw [← h]
    exact dispatches_safe_path_written _
  · injection h with h
    rw [← h]
    exact dispatches_safe_path_written _
  · split at h
    · exact absurd h (by simp)
    · split_ifs at h
      · injection h with h
        rw [← h]
        exact dispatches_safe_path_written _
      · injection h with h
        rw [← h]
        exact handle_client_dispatch_safe _ _ _

theorem handle_client_pass_safe (errno_einval : Bool) (date : List Nat)
    (script : List RecvResult) (p : pass_result)
    (h : handle_client_pass errno_einval date script = some p) :
    ∀ ev ∈ p.events, dispatches_safe_path ev := by
  unfold handle_client_pass at h
  split at h
  · exact absurd h (by simp)
  · simp only [] at h
    split_ifs at h
    · injection h with h
      rw [← h]
      exact dispatches_safe_path_written _
    · split at h
      · exact handle_client_phases_safe _ _ _ _ _ _ _ p h
      · injection h with h
        rw [← h]
        intro ev hmem
        simp only [List.mem_singleton] at hmem
        subst hmem
        exact ⟨fun r c h => Event.noConfusion h, fun f m c h => Event.noConfusion h⟩

/-! ### The request record on its way to the path check -/

theorem parse_request_line_checks_connection (method full_path version : List Nat)
    (path_len : Nat) (req : http_request) :
    (parse_request_line_checks method full_path version path_len req).2.connection_header =
      req.connection_header := by
  unfold parse_request_line_checks
  split_ifs <;> rfl

/-- `parse_request_line` does not touch the `connection_header` field. -/
theorem parse_request_line_connection (line : List Nat) (req : http_request) :
    (parse_request_line line req).2.connection_header = req.connection_header := by
  unfold parse_request_line
  simp only []
  by_cases h1 : (sscanf_request_line line).1 ≠ 3
  · rw [if_pos h1]
  · rw [if_neg h1]
    cases hs : strchr (sscanf_request_line line).2.2.1 63 with
    | none =>
      simp only []
      by_cases h2 : (sscanf_request_line line).2.2.1.length ≥ MAX_PATH
      · rw [if_pos h2]
      · rw [if_neg h2, parse_request_line_checks_connection]
    | some path_len =>
      simp only []
      by_cases h2 : path_len ≥ MAX_PATH ∨
          ((sscanf_request_line line).2.2.1.drop (path_len + 1)).length ≥ MAX_QUERY
      · rw [if_pos h2]
      · rw [if_neg h2, parse_request_line_checks_connection]

theorem store_header_path (l : List Nat) (req : http_request) :
    (store_header l req).path = req.path ∧ (store_header l req).method = req.method := by
  unfold store_header
  simp only []
  split_ifs <;> exact ⟨rfl, rfl⟩

theorem store_header_connection_length (l : List Nat) (req : http_request)
    (h : req.connection_header.length ≤ 31) :
    (store_header l req).connection_header.length ≤ 31 := by
  rw [store_header_connection]
  split_ifs with hf
  · simp only [fits_connection_field, Bool.and_eq_true, decide_eq_true_eq] at hf
    omega
  · exact h

/-- The loop of `parse_headers` leaves path and method as they are, and a
`connection_header` field of at most 31 bytes stays so. -/
theorem parse_headers_loop_fields :
    ∀ (n : Nat) (text : List Nat) (req : http_request),
      (parse_headers_loop n text req).2.path = req.path ∧
      (parse_headers_loop n text req).2.method = req.method ∧
      (req.connection_header.length ≤ 31 →
        (parse_headers_loop n text req).2.connection_header.length ≤ 31) := by
  intro n
  induction n with
  | zero => intro text req; exact ⟨rfl, rfl, fun h => h⟩
  | succ n ih =>
    intro text req
    unfold parse_headers_loop
    by_cases h1 : text.head? = some 13
    · rw [if_pos h1]; exact ⟨rfl, rfl, fun h => h⟩
    · rw [if_neg h1]
      cases hs : strstr text CRLF with
      | none => exact ⟨rfl, rfl, fun h => h⟩
      | some line_len =>
        simp only []
        by_cases h2 : line_len = 0
        · rw [if_pos h2]; exact ⟨rfl, rfl, fun h => h⟩
        · rw [if_neg h2]
          by_cases h3 : line_len ≥ MAX_HEADER_LINE
          · rw [if_pos h3]; exact ⟨rfl, rfl, fun h => h⟩
          · rw [if_neg h3]
            cases hc : strchr (text.take line_len) 58 with
            | none => exact ⟨rfl, rfl, fun h => h⟩
            | some i =>
              simp only []
              obtain ⟨hp, hm, hl⟩ := ih (text.drop (line_len + 2))
                (store_header (text.take line_len) req)
              obtain ⟨hp2, hm2⟩ := store_header_path (text.take line_len) req
              exact ⟨hp.trans hp2, hm.trans hm2,
                fun h => hl (store_header_connection_length _ _ h)⟩

theorem parse_headers_fields (request_data : List Nat) (req : http_request) :
    (parse_headers request_data req).2.path = req.path ∧
    (parse_headers request_data req).2.method = req.method ∧
    (req.connection_header.length ≤ 31 →
      (parse_headers request_data req).2.connection_header.length ≤ 31) := by
  unfold parse_headers
  cases hs : strstr request_data CRLF with
  | none => exact ⟨rfl, rfl, fun h => h⟩
  | some first =>
    simp only []
    exact parse_headers_loop_fields _ _ _

/-- `read_http_body` leaves path, method and `connection_header` as they are. -/
theorem read_http_body_fields (errno_einval : Bool) (script : List RecvResult)
    (buffer : List Nat) (headers_end_pos total_read : Nat) (req : http_request)
    (b : body_read)
    (hres : read_http_body errno_einval script buffer headers_end_pos total_read req = some b) :
    b.req.path = req.path ∧ b.req.method = req.method ∧
      b.req.connection_header = req.connection_header := by
  by_cases h0 : get_content_length errno_einval req = 0
  · unfold read_http_body at hres
    simp only [] at hres
    rw [if_pos h0] at hres
    injection hres with hres
    subst hres
    exact ⟨rfl, rfl, rfl⟩
  · by_cases hbig : get_content_length errno_einval req > MAX_REQUEST_SIZE
    · unfold read_http_body at hres
      simp only [] at hres
      rw [if_neg h0, if_pos hbig] at hres
      injection hres with hres
      subst hres
      exact ⟨rfl, rfl, rfl⟩
    · rw [read_http_body_reading errno_einval script buffer headers_end_pos total_read req
        (by omega) (by omega)] at hres
      rcases read_http_body_loop_result _ _ _ _ _ b hres with ⟨_, hreq, _⟩ | ⟨hreq, _⟩
      · rw [hreq]; exact ⟨rfl, rfl, rfl⟩
      · rw [hreq]; exact ⟨rfl, rfl, rfl⟩

/-- A pass of `handle_client` in which the head is read, request line and
headers are parsed, the request is valid and the body is read reaches the path
check with the request record `b.req`, whose path is the parsed one; when
`is_safe_path` does not accept it, the pass sends the 400 response, ends the
loop and calls no dispatcher. -/
theorem handle_client_pass_unsafe_path (errno_einval : Bool) (date : List Nat)
    (script : List RecvResult) (total_read : Int) (buffer : List Nat)
    (header_end first_line_end : Nat) (b : body_read) (hdate : date.length ≤ 63)
    (hread : read_http_headers MAX_REQUEST_SIZE script = some (total_read, buffer))
    (hpos : 0 < total_read)
    (hend : strstr (c_str buffer) CRLFCRLF = some header_end)
    (hline : strstr (c_str buffer) CRLF = some first_line_end)
    (hrl : 0 < (parse_request_line ((c_str buffer).take first_line_end) {}).1)
    (hph : 0 < (parse_headers (c_str buffer)
      (parse_request_line ((c_str buffer).take first_line_end) {}).2).1)
    (hval : 0 < validate_http_request (parse_headers (c_str buffer)
      (parse_request_line ((c_str buffer).take first_line_end) {}).2).2)
    (hbody : read_http_body errno_einval
      (script.drop (read_http_headers_calls MAX_REQUEST_SIZE script 0 []).length) buffer
      header_end total_read.toNat (parse_headers (c_str buffer)
        (parse_request_line ((c_str buffer).take first_line_end) {}).2).2 = some b)
    (hrc : 0 ≤ b.rc)
    (hrejected : is_safe_path (parse_request_line ((c_str buffer).take first_line_end) {}).2.path
      = 0) :
    b.req.path = (parse_request_line ((c_str buffer).take first_line_end) {}).2.path ∧
    handle_client_pass errno_einval date script =
      some ⟨[Event.sent (error_response date 400 (bytes "Bad Request") b.req.connection_header
        [] (some b.req.method))], false, b.unread⟩ := by
  obtain ⟨hbp, _, hbc⟩ := read_http_body_fields _ _ _ _ _ _ b hbody
  obtain ⟨hpp, _, hpc⟩ := parse_headers_fields (c_str buffer)
    (parse_request_line ((c_str buffer).take first_line_end) {}).2
  have hconn : b.req.connection_header.length ≤ 31 := by
    rw [hbc]
    apply hpc
    rw [parse_request_line_connection]
    exact Nat.zero_le _
  have hpath : b.req.path =
      (parse_request_line ((c_str buffer).take first_line_end) {}).2.path := by
    rw [hbp, hpp]
  refine ⟨hpath, ?_⟩
  have hf := response_fits 400 (bytes "Bad Request") (by decide)
  have hdisp : handle_client_dispatch date b.req b.unread =
      ⟨[Event.sent (error_response date 400 (bytes "Bad Request") b.req.connection_header
        [] (some b.req.method))], false, b.unread⟩ := by
    unfold handle_client_dispatch
    simp only []
    rw [if_pos (by rw [hpath]; exact hrejected), send_error_response_fits date 400
      (bytes "Bad Request") b.req.connection_header (some b.req.method) hdate (by omega)]
    rfl
  unfold handle_client_pass
  rw [hread]
  simp only [hend, hline]
  have c1 : handle_read_headers_status total_read date (some []) = (1, none) := by
    simp [handle_read_headers_status, hpos]
  have c2 : ∀ m, handle_request_line_status
      (parse_request_line ((c_str buffer).take first_line_end) {}).1 date m = (1, none) := by
    intro m
    simp [handle_request_line_status, hrl]
  have c3 : ∀ m, handle_parse_headers_status (parse_headers (c_str buffer)
      (parse_request_line ((c_str buffer).take first_line_end) {}).2).1 date m = (1, none) := by
    intro m
    simp [handle_parse_headers_status, hph]
  have c4 : ∀ m, handle_validate_status (validate_http_request (parse_headers (c_str buffer)
      (parse_request_line ((c_str buffer).take first_line_end) {}).2).2) date m = (1, none) := by
    intro m
    simp [handle_validate_status, hval]
  have c5 : ∀ c m, handle_read_body_status b.rc date c m = (1, none) := by
    intro c m
    simp [handle_read_body_status, hrc]
  rw [c1]
  simp only [one_ne_zero, if_false]
  unfold handle_client_phases
  simp only [c2, c3, c4, one_ne_zero, if_false, hbody, c5, hdisp]

/-- **C34 (amended).** Every path that `is_safe_path` accepts starts with `/` and
contains no `..` at all, so no `..` segment.  A pass of `handle_client` that
gets through the phases before the path check (the head is read, request line
and headers are parsed, the request is valid, the body is read) tests the path
stored by `parse_request_line`, and when that path is not accepted it sends a
400 response, leaves the loop and calls no dispatcher.  In every pass, also one
that ends in an earlier phase, whatever is handed to `send_file_response` or
`handle_post_request` comes from an accepted path. -/
theorem unsafe_path_rejected (errno_einval : Bool) (date : List Nat)
    (script : List RecvResult) (total_read : Int) (buffer : List Nat)
    (header_end first_line_end : Nat) (b : body_read) (hdate : date.length ≤ 63)
    (hread : read_http_headers MAX_REQUEST_SIZE script = some (total_read, buffer))
    (hpos : 0 < total_read)
    (hend : strstr (c_str buffer) CRLFCRLF = some header_end)
    (hline : strstr (c_str buffer) CRLF = some first_line_end)
    (hrl : 0 < (parse_request_line ((c_str buffer).take first_line_end) {}).1)
    (hph : 0 < (parse_headers (c_str buffer)
      (parse_request_line ((c_str buffer).take first_line_end) {}).2).1)
    (hval : 0 < validate_http_request (parse_headers (c_str buffer)
      (parse_request_line ((c_str buffer).take first_line_end) {}).2).2)
    (hbody : read_http_body errno_einval
      (script.drop (read_http_headers_calls MAX_REQUEST_SIZE script 0 []).length) buffer
      header_end total_read.toNat (parse_headers (c_str buffer)
        (parse_request_line ((c_str buffer).take first_line_end) {}).2).2 = some b)
    (hrc : 0 ≤ b.rc) :
    (∀ path : List Nat, is_safe_path path ≠ 0 →
      path.head? = some 47 ∧ ¬ bytes ".." <:+: path ∧
      ∀ pre post : List Nat, path ≠ pre ++ bytes ".." ++ post) ∧
    b.req.path = (parse_request_line ((c_str buffer).take first_line_end) {}).2.path ∧
    (is_safe_path (parse_request_line ((c_str buffer).take first_line_end) {}).2.path = 0 →
      handle_client_pass errno_einval date script =
        some ⟨[Event.sent (error_response date 400 (bytes "Bad Request")
          b.req.connection_header [] (some b.req.method))], false, b.unread⟩) ∧
    (∀ (errno_einval2 : Bool) (script2 : List RecvResult) (p : pass_result),
      handle_client_pass errno_einval2 date script2 = some p →
      ∀ ev ∈ p.events,
        (∀ r c, ev = Event.handle_post_request r c → is_safe_path r.path = 1) ∧
        (∀ f m c, ev = Event.send_file_response f m c →
          ∃ path, is_safe_path path = 1 ∧ f = (map_path_to_file path 1024).2)) := by
  refine ⟨?_, ?_, ?_, ?_⟩
  · intro path hp
    obtain ⟨_, hhead, hstr⟩ := is_safe_path_accepts path hp
    have hinf : ¬ bytes ".." <:+: path := (strstr_eq_none_iff _ _).mp hstr
    exact ⟨hhead, hinf, fun pre post he => hinf ⟨pre, post, he.symm⟩⟩
  · exact (read_http_body_fields _ _ _ _ _ _ b hbody).1.trans (parse_headers_fields _ _).1
  · intro hrejected
    exact (handle_client_pass_unsafe_path errno_einval date script total_read buffer header_end
      first_line_end b hdate hread hpos hend hline hrl hph hval hbody hrc hrejected).2
  · intro errno_einval2 script2 p hp ev hmem
    exact handle_client_pass_safe errno_einval2 date script2 p hp ev hmem

set_option maxRecDepth 100000 in
/-- Witness for C34 (amended): the request `GET /../x HTTP/1.1` with a `Host` and
a `Connection` header gets through the phases before the path check and is
answered 400; the path `/a` is accepted. -/
theorem unsafe_path_rejected_witness :
    is_safe_path (bytes "/../x") = 0 ∧ is_safe_path (bytes "/a") = 1 ∧
    handle_client_pass false (bytes "Sun, 06 Nov 1994 08:49:37 GMT")
        [.data (bytes "GET /../x HTTP/1.1\r\nHost: x\r\nConnection: keep-alive\r\n\r\n")] =
      some ⟨[Event.sent (bytes ("HTTP/1.1 400 Bad Request\r\n" ++
        "Date: Sun, 06 Nov 1994 08:49:37 GMT\r\nContent-Type: text/html\r\n" ++
        "Content-Length: 50\r\nConnection: keep-alive\r\n" ++
        "<html><body><h1>400 Bad Request</h1></body></html>"))], false, []⟩ ∧
    ((bytes "/a").head? = some 47 ∧ ¬ bytes ".." <:+: bytes "/a" ∧
      ∀ pre post : List Nat, bytes "/a" ≠ pre ++ bytes ".." ++ post) :=
  ⟨by decide, by decide,
    ((unsafe_path_rejected false (bytes "Sun, 06 Nov 1994 08:49:37 GMT")
      [.data (bytes "GET /../x HTTP/1.1\r\nHost: x\r\nConnection: keep-alive\r\n\r\n")]
      55 (bytes "GET /../x HTTP/1.1\r\nHost: x\r\nConnection: keep-alive\r\n\r\n") 51 18
      ⟨0, { method := bytes "GET", path := bytes "/../x", version := bytes "HTTP/1.1",
            headers := [bytes "host:x", bytes "connection:keep-alive"],
            connection_header := bytes "keep-alive" },
        bytes "GET /../x HTTP/1.1\r\nHost: x\r\nConnection: keep-alive\r\n\r\n", []⟩
      (by decide) (by decide) (by decide) (by decide) (by decide) (by decide) (by decide)
      (by decide) (by decide) (by decide)).2.2.1 (by decide)).trans (by decide),
    (unsafe_path_rejected false (bytes "Sun, 06 Nov 1994 08:49:37 GMT")
      [.data (bytes "GET /../x HTTP/1.1\r\nHost: x\r\nConnection: keep-alive\r\n\r\n")]
      55 (bytes "GET /../x HTTP/1.1\r\nHost: x\r\nConnection: keep-alive\r\n\r\n") 51 18
      ⟨0, { method := bytes "GET", path := bytes "/../x", version := bytes "HTTP/1.1",
            headers := [bytes "host:x", bytes "connection:keep-alive"],
            connection_header := bytes "keep-alive" },
        bytes "GET /../x HTTP/1.1\r\nHost: x\r\nConnection: keep-alive\r\n\r\n", []⟩
      (by decide) (by decide) (by decide) (by decide) (by decide) (by decide) (by decide)
      (by decide) (by decide) (by decide)).1 (bytes "/a") (by decide)⟩

set_option maxRecDepth 100000 in
/-- **C34 (counterexample).** The request `GET /../x HTTP/1.1` with
`Content-Length: 70000`: its parsed path `/../x` is not accepted, yet the answer
is the 413 response of the body phase, which runs before the path check, not a
400 response. -/
theorem unsafe_path_rejected_counterexample :
    (parse_request_line (bytes "GET /../x HTTP/1.1") {}).2.path = bytes "/../x" ∧
    is_safe_path (bytes "/../x") = 0 ∧
    handle_client_pass false (bytes "Sun, 06 Nov 1994 08:49:37 GMT")
        [.data (bytes "GET /../x HTTP/1.1\r\nHost: x\r\nContent-Length: 70000\r\n\r\n")] =
      some ⟨[Event.sent (bytes ("HTTP/1.1 413 Payload Too Large\r\n" ++
        "Date: Sun, 06 Nov 1994 08:49:37 GMT\r\nContent-Type: text/html\r\n" ++
        "Content-Length: 56\r\nConnection: \r\n" ++
        "<html><body><h1>413 Payload Too Large</h1></body></html>"))], false, []⟩ := by
  decide

/-! ### The body reader stays inside the buffer -/

theorem read_with_timeout_le (r : RecvResult) (size : Nat) :
    (read_with_timeout r size).1 ≤ (size : Int) := by
  cases r with
  | data bs =>
    simp only [read_with_timeout, List.length_take]
    omega
  | eagain =>
    simp only [read_with_timeout, HTTP_IO_TIMEOUT]
    omega
  | fail =>
    simp only [read_with_timeout, HTTP_IO_ERROR]
    omega

/-- Every pass through the loop body of `read_http_body`, entered with head and
body inside the buffer, subtracts without underflow and reads inside the buffer;
there are at most `content_length - body_already_read` passes. -/
theorem read_http_body_iterations_bounds (h c : Nat) :
    ∀ (script : List RecvResult) (bar : Nat),
      h + bar ≤ MAX_REQUEST_SIZE →
      (∀ it ∈ read_http_body_iterations h script bar c,
        it.1 < c ∧ h + it.1 ≤ MAX_REQUEST_SIZE ∧
        it.2.1 = min (c - it.1) (MAX_REQUEST_SIZE - (h + it.1)) ∧
        ∀ n, it.2.2 = some n → 1 ≤ it.2.1 ∧ h + it.1 + it.2.1 ≤ 65536 ∧ n ≤ (it.2.1 : Int)) ∧
      (read_http_body_iterations h script bar c).length ≤ c - bar := by
  intro script
  induction script with
  | nil =>
    intro bar hinv
    rw [read_http_body_iterations]
    split_ifs with hlt
    · refine ⟨?_, by simp only [List.length_singleton]; omega⟩
      intro it hmem
      simp only [List.mem_singleton] at hmem
      subst hmem
      dsimp only
      exact ⟨hlt, hinv, body_to_read_eq h c bar hinv, fun n hn => by simp at hn⟩
    · exact ⟨fun it hmem => by simp at hmem, by simp⟩
  | cons r script ih =>
    intro bar hinv
    have hto := body_to_read_eq h c bar hinv
    rw [read_http_body_iterations]
    by_cases hlt : bar < c
    · rw [if_pos hlt]
      simp only []
      by_cases hz : body_to_read h c bar = 0
      · rw [if_pos hz]
        refine ⟨?_, by simp only [List.length_singleton]; omega⟩
        intro it hmem
        simp only [List.mem_singleton] at hmem
        subst hmem
        dsimp only
        exact ⟨hlt, hinv, hto, fun n hn => by simp at hn⟩
      · rw [if_neg hz]
        have hret := read_with_timeout_le r (body_to_read h c bar)
        have hM : MAX_REQUEST_SIZE = 65536 := rfl
        have hhead : ∀ it, it = (bar, body_to_read h c bar,
            some (read_with_timeout r (body_to_read h c bar)).1) →
            it.1 < c ∧ h + it.1 ≤ MAX_REQUEST_SIZE ∧
            it.2.1 = min (c - it.1) (MAX_REQUEST_SIZE - (h + it.1)) ∧
            ∀ n, it.2.2 = some n →
              1 ≤ it.2.1 ∧ h + it.1 + it.2.1 ≤ 65536 ∧ n ≤ (it.2.1 : Int) := by
          intro it hit
          subst hit
          dsimp only
          refine ⟨hlt, hinv, hto, fun n hn => ?_⟩
          simp only [Option.some.injEq] at hn
          subst hn
          exact ⟨by omega, by omega, hret⟩
        by_cases h1 : (read_with_timeout r (body_to_read h c bar)).1 = HTTP_IO_TIMEOUT
        · rw [if_pos h1]
          refine ⟨?_, by simp only [List.length_singleton]; omega⟩
          intro it hmem
          simp only [List.mem_singleton] at hmem
          exact hhead it hmem
        · rw [if_neg h1]
          by_cases h2 : (read_with_timeout r (body_to_read h c bar)).1 = 0
          · rw [if_pos h2]
            refine ⟨?_, by simp only [List.length_singleton]; omega⟩
            intro it hmem
            simp only [List.mem_singleton] at hmem
            exact hhead it hmem
          · rw [if_neg h2]
            by_cases h3 : (read_with_timeout r (body_to_read h c bar)).1 < 0
            · rw [if_pos h3]
              refine ⟨?_, by simp only [List.length_singleton]; omega⟩
              intro it hmem
              simp only [List.mem_singleton] at hmem
              exact hhead it hmem
            · rw [if_neg h3]
              have hinv2 : h + (bar + (read_with_timeout r (body_to_read h c bar)).1.toNat) ≤
                  MAX_REQUEST_SIZE := by omega
              obtain ⟨ih1, ih2⟩ := ih (bar + (read_with_timeout r (body_to_read h c bar)).1.toNat)
                hinv2
              refine ⟨?_, ?_⟩
              · intro it hmem
                rw [List.mem_cons] at hmem
                rcases hmem with hmem | hmem
                · exact hhead it hmem
                · exact ih1 it hmem
              · simp only [List.length_cons]
                omega
    · rw [if_neg hlt]
      exact ⟨fun it hmem => by simp at hmem, by simp⟩

/-- **C36.** In `read_http_body`, with a derived content length `c` and
`headers_end_pos + 4 <= total_read <= 65535`, whatever the reads return
(never more than was asked for): in every pass through the loop body
`c - body_already_read` and `65536 - (headers_length + body_already_read)` do not
underflow, `to_read` is the smaller of the two, every read that is made asks for
at least 1 byte and ends at or before index 65536, and there are at most `c`
passes, so at most `c` successful reads. -/
theorem read_http_body_stays_in_buffer (errno_einval : Bool) (script : List RecvResult)
    (headers_end_pos total_read : Nat) (req : http_request)
    (hhead : headers_end_pos + 4 ≤ total_read) (htotal : total_read ≤ 65535) :
    (∀ it ∈ read_http_body_iterations (headers_end_pos + 4) script
        (if total_read > headers_end_pos + 4 then total_read - (headers_end_pos + 4) else 0)
        (get_content_length errno_einval req),
      it.1 < get_content_length errno_einval req ∧
      headers_end_pos + 4 + it.1 ≤ MAX_REQUEST_SIZE ∧
      it.2.1 = min (get_content_length errno_einval req - it.1)
        (MAX_REQUEST_SIZE - (headers_end_pos + 4 + it.1)) ∧
      ∀ n, it.2.2 = some n →
        1 ≤ it.2.1 ∧ headers_end_pos + 4 + it.1 + it.2.1 ≤ 65536 ∧ n ≤ (it.2.1 : Int)) ∧
    (read_http_body_iterations (headers_end_pos + 4) script
        (if total_read > headers_end_pos + 4 then total_read - (headers_end_pos + 4) else 0)
        (get_content_length errno_einval req)).length ≤ get_content_length errno_einval req := by
  have hbar : (if total_read > headers_end_pos + 4 then total_read - (headers_end_pos + 4)
      else 0) = total_read - (headers_end_pos + 4) := by
    split_ifs <;> omega
  have hM : MAX_REQUEST_SIZE = 65536 := rfl
  rw [hbar]
  obtain ⟨h1, h2⟩ := read_http_body_iterations_bounds (headers_end_pos + 4)
    (get_content_length errno_einval req) script (total_read - (headers_end_pos + 4))
    (by omega)
  exact ⟨h1, by omega⟩

set_option maxRecDepth 100000 in
/-- Witness for C36: a body of 5 bytes, 3 of them read with the head, completed by
one read of 2 bytes. -/
theorem read_http_body_stays_in_buffer_witness :
    get_content_length false { headers := [bytes "content-length:5"] } = 5 ∧
    read_http_body_iterations (10 + 4) [.data (bytes "lo")]
        (if 17 > 10 + 4 then 17 - (10 + 4) else 0)
        (get_content_length false { headers := [bytes "content-length:5"] }) =
      [(3, 2, some 2)] ∧
    (read_http_body_iterations (10 + 4) [.data (bytes "lo")]
        (if 17 > 10 + 4 then 17 - (10 + 4) else 0)
        (get_content_length false { headers := [bytes "content-length:5"] })).length ≤
      get_content_length false { headers := [bytes "content-length:5"] } :=
  ⟨by decide, by decide,
    (read_http_body_stays_in_buffer false [.data (bytes "lo")] 10 17
      { headers := [bytes "content-length:5"] } (by decide) (by decide)).2⟩

end HttpsServer
